import Mathlib

/-!
# Built-in token functions of me-vm-common: a shallow embedding

The definitions below transcribe the Go sources under `builtInFunctions/`
(local burn, freeze/wipe, NFT attribute update, multi-asset transfer) into
pure state-passing Lean functions.  Byte strings are lists of bytes,
`*big.Int` values are integers, `uint64` values are naturals with the
wrap-around written out as `% 2 ^ 64`.  Injected collaborators (marshalizer,
pause handler, payable handler, roles handler, accounts adapter, shard
coordinator) are fields of the structure that embeds each built-in function.
-/

namespace DCT

/-! ## Bytes and integers -/

/-- Byte strings, the Go type `[]byte`. -/
abbrev Bytes := List (Fin 256)

/-- The value of `big.NewInt(0).SetBytes(b)`: `b` read as an unsigned big-endian integer. -/
def bigSetBytes (b : Bytes) : Nat :=
  b.foldl (fun acc x => acc * 256 + x.val) 0

/-- The value of `(*big.Int).Uint64()` on a non-negative integer: its low 64 bits. -/
def toUint64 (n : Nat) : Nat := n % 2 ^ 64

/-- Worker of `bigBytes`: peels base-256 digits, least significant first. -/
def bigBytesAux : Nat → Nat → Bytes → Bytes
  | 0, _, acc => acc
  | fuel + 1, n, acc =>
    if n = 0 then acc
    else bigBytesAux fuel (n / 256) (⟨n % 256, Nat.mod_lt _ (by decide)⟩ :: acc)

/-- The value of `(*big.Int).Bytes()`: the minimal big-endian encoding of the absolute value
(the empty string for zero). -/
def bigBytes (n : Nat) : Bytes := bigBytesAux n n []

/-- Multiplication of two `uint64` values. -/
def u64mul (a b : Nat) : Nat := (a * b) % 2 ^ 64

/-- Addition of two `uint64` values. -/
def u64add (a b : Nat) : Nat := (a + b) % 2 ^ 64

/-- Subtraction of two `uint64` values. -/
def u64sub (a b : Nat) : Nat := (a + 2 ^ 64 - b % 2 ^ 64) % 2 ^ 64

/-! ## Errors -/

/-- The error values of the package.  An error wrapped with `fmt.Errorf("%w, ...")` is identified
with the error it wraps.  `collaborator` stands for an error produced by an injected
collaborator, and `runtimePanic` for a Go run-time panic (nil dereference, index out of range,
`makeslice: len out of range`), which is not a returned error value. -/
inductive Error
  | ErrNilVmInput
  | ErrNilValue
  | ErrBuiltInFunctionCalledWithValue
  | ErrInvalidArguments
  | ErrInvalidRcvAddr
  | ErrNilUserAccount
  | ErrNegativeValue
  | ErrNotEnoughGas
  | ErrInvalidNFTQuantity
  | ErrAccountNotPayable
  | ErrWrongNFTOnDestination
  | ErrDCTIsFrozenForAccount
  | ErrDCTTokenIsPaused
  | ErrCannotWipeAccountNotFrozen
  | ErrAddressIsNotDCTSystemSC
  | ErrNFTDoesNotHaveMetadata
  | ErrNFTTokenDoesNotExist
  | ErrWrongTypeAssertion
  | collaborator (code : Nat)
  | runtimePanic
  deriving DecidableEq, Repr

/-- Outcome of a fallible Go call: the returned value, or the returned error. -/
inductive Result (α : Type) where
  | ok (value : α)
  | error (err : Error)
  deriving DecidableEq, Repr

/-! ## Data model -/

/-- The Go struct `dct.MetaData`. -/
structure MetaData where
  Nonce : Nat
  Name : Bytes
  Creator : Bytes
  Royalties : Nat
  Hash : Bytes
  URIs : List Bytes
  Attributes : Bytes
  deriving DecidableEq, Repr

/-- The Go struct `dct.DCToken` (its field `Type` is named `TokenType` here). -/
structure DCToken where
  TokenType : Nat
  Value : Int
  Properties : Bytes
  TokenMetaData : Option MetaData
  deriving DecidableEq, Repr

/-- The token kind `vmcommon.Fungible`. -/
def Fungible : Nat := 0

/-- The interface `vmcommon.Marshalizer`, restricted to token records. -/
structure Marshalizer where
  Marshal : DCToken → Result Bytes
  Unmarshal : Bytes → Result DCToken

/-- A user account: its address and its data trie.  The interface `AccountDataHandler` is the
in-memory key-value map of the test accounts: `RetrieveValue` yields the stored bytes (empty when
nothing is stored) and `SaveKeyValue` overwrites the entry. -/
structure Account where
  address : Bytes
  data : Bytes → Bytes

/-- The call `AccountDataHandler().RetrieveValue(key)`. -/
def Account.RetrieveValue (a : Account) (key : Bytes) : Bytes := a.data key

/-- The call `AccountDataHandler().SaveKeyValue(key, value)`; a nil value is the empty string. -/
def Account.SaveKeyValue (a : Account) (key value : Bytes) : Account :=
  { a with data := fun k => if k = key then value else a.data k }

/-- The Go struct `vmcommon.ContractCallInput` (with the embedded `VMInput`).  `CallValue` is a
pointer and may be nil. -/
structure ContractCallInput where
  CallerAddr : Bytes
  RecipientAddr : Bytes
  CallValue : Option Int
  Arguments : List Bytes
  GasProvided : Nat
  GasLocked : Nat
  CallType : Nat
  ReturnCallAfterError : Bool

/-- The Go struct `vmcommon.LogEntry`. -/
structure LogEntry where
  Identifier : Bytes
  Address : Bytes
  Topics : List Bytes
  Data : Bytes
  deriving DecidableEq, Repr

/-- The Go struct `vmcommon.OutputTransfer`. -/
structure OutputTransfer where
  Value : Int
  GasLimit : Nat
  GasLocked : Nat
  Data : Bytes
  CallType : Nat
  SenderAddress : Bytes
  deriving DecidableEq, Repr

/-- The Go struct `vmcommon.OutputAccount` (the fields the built-in functions set). -/
structure OutputAccount where
  Address : Bytes
  OutputTransfers : List OutputTransfer
  deriving DecidableEq, Repr

/-- The return code `vmcommon.Ok`, the zero value of the return-code type. -/
def Ok : Nat := 0

/-- The Go struct `vmcommon.VMOutput`; `OutputAccounts` is a map keyed by address. -/
structure VMOutput where
  ReturnCode : Nat
  GasRemaining : Nat
  OutputAccounts : List (Bytes × OutputAccount)
  Logs : List LogEntry
  deriving DecidableEq, Repr

/-! ## Token record store and permission guard -/

/-- Modelled from the spec: the constant `vmcommon.MinLenArgumentsDCTTransfer`, which is not
among the sources; section 4.4 requires at least 2 arguments (tokenID, amount). -/
def MinLenArgumentsDCTTransfer : Nat := 2

/-- The Go struct `DCTUserMetadata`. -/
structure DCTUserMetadata where
  Frozen : Bool
  deriving DecidableEq, Repr

/-- Modelled from the spec: `DCTUserMetadataFromBytes`, which is not among the sources.  The
properties are a bitfield (section 3); the frozen flag is the lowest bit of the first of its two
bytes, and any other length decodes to the zero metadata. -/
def DCTUserMetadataFromBytes (b : Bytes) : DCTUserMetadata :=
  match b with
  | [b0, _] => ⟨b0.val % 2 = 1⟩
  | _ => ⟨false⟩

/-- Modelled from the spec: `DCTUserMetadata.ToBytes`, which is not among the sources; the
inverse of `DCTUserMetadataFromBytes` on two bytes. -/
def DCTUserMetadata.ToBytes (m : DCTUserMetadata) : Bytes :=
  [if m.Frozen then 1 else 0, 0]

/-- Modelled from the spec: `computeDCTNFTTokenKey`, which is not among the sources.  Section 3:
per-nonce NFT key = key(tokenID) || bigEndian(nonce); nonce 0 has the empty encoding, so the
fungible balance lives at key(tokenID) itself. -/
def computeDCTNFTTokenKey (dctTokenKey : Bytes) (nonce : Nat) : Bytes :=
  dctTokenKey ++ bigBytes nonce

/-- The record a getter starts from: `&dct.DCToken{Value: big.NewInt(0), Type: Fungible}`. -/
def emptyDCToken : DCToken :=
  { TokenType := Fungible, Value := 0, Properties := [], TokenMetaData := none }

/-- Modelled from the spec: `checkFrozeAndPause`, which is not among the sources.  Section 4.2:
the check is bypassed when `isReturnWithError` is set; otherwise a frozen record gives
`ErrDCTIsFrozenForAccount` and a paused token the pause error. -/
def checkFrozeAndPause (IsPaused : Bytes → Bool) (_address key : Bytes) (dctData : DCToken)
    (isReturnWithError : Bool) : Result Unit :=
  if isReturnWithError then .ok ()
  else if (DCTUserMetadataFromBytes dctData.Properties).Frozen then .error .ErrDCTIsFrozenForAccount
  else if IsPaused key then .error .ErrDCTTokenIsPaused
  else .ok ()

/-- Modelled from the spec: `getDCTDataFromKey`, which is not among the sources.  Section 4.4:
read the token record at the key; nothing stored reads as the empty fungible record. -/
def getDCTDataFromKey (userAcnt : Account) (key : Bytes) (m : Marshalizer) : Result DCToken :=
  let marshaledData := userAcnt.RetrieveValue key
  if marshaledData = [] then .ok emptyDCToken
  else m.Unmarshal marshaledData

/-- Modelled from the spec: `saveDCTData`, which is not among the sources: the record is
marshaled and written back at the key. -/
def saveDCTData (userAcnt : Account) (dctData : DCToken) (key : Bytes) (m : Marshalizer) :
    Result Account :=
  match m.Marshal dctData with
  | .error err => .error err
  | .ok marshaledData => .ok (userAcnt.SaveKeyValue key marshaledData)

/-- Modelled from the spec: `addToDCTBalance`, which is not among the sources.  Section 4.4: read
the record at key(tokenID), apply the signed amount to its value, write it back; a value that
would go negative is an arguments error.  The pause handler and the return-after-error flag of
the call are those of the frozen/pause guard of section 4.2. -/
def addToDCTBalance (userAcnt : Account) (key : Bytes) (value : Int) (m : Marshalizer)
    (IsPaused : Bytes → Bool) (isReturnWithError : Bool) : Result Account :=
  match getDCTDataFromKey userAcnt key m with
  | .error err => .error err
  | .ok dctData =>
    match checkFrozeAndPause IsPaused userAcnt.address key dctData isReturnWithError with
    | .error err => .error err
    | .ok _ =>
      let dctData := { dctData with Value := dctData.Value + value }
      if dctData.Value < 0 then .error .ErrInvalidArguments
      else saveDCTData userAcnt dctData key m

/-- Modelled from the spec: `addDCTEntryInVMOutput`, which is not among the sources.  Section
4.4: one log entry tagged with the function name, the tokenID and the amount; the first extra
argument is the entry's address and the others are further topics. -/
def addDCTEntryInVMOutput (vmOutput : VMOutput) (identifier tokenID : Bytes) (value : Int)
    (args : List Bytes) : VMOutput :=
  let logEntry : LogEntry :=
    { Identifier := identifier
      Address := args.headD []
      Topics := [tokenID, bigBytes value.natAbs] ++ args.tail
      Data := [] }
  { vmOutput with Logs := vmOutput.Logs ++ [logEntry] }

/-! ## Local burn (`dctLocalBurn.go`) -/

/-- The Go struct `dctLocalBurn`.  `CheckAllowedToExecute` is the roles handler; the role name
`vmcommon.DCTRoleLocalBurn` and the function name `vmcommon.BuiltInFunctionDCTLocalBurn` are
constants declared outside the sources. -/
structure dctLocalBurn where
  keyPrefix : Bytes
  marshalizer : Marshalizer
  IsPaused : Bytes → Bool
  CheckAllowedToExecute : Account → Bytes → Bytes → Option Error
  funcGasCost : Nat
  DCTRoleLocalBurn : Bytes
  BuiltInFunctionDCTLocalBurn : Bytes

/-- The function `checkBasicDCTArguments`; on success the dereferenced input is returned. -/
def checkBasicDCTArguments (vmInput : Option ContractCallInput) : Result ContractCallInput :=
  match vmInput with
  | none => .error .ErrNilVmInput
  | some vmInput =>
    match vmInput.CallValue with
    | none => .error .ErrNilValue
    | some callValue =>
      if callValue ≠ 0 then .error .ErrBuiltInFunctionCalledWithValue
      else if vmInput.Arguments.length < MinLenArgumentsDCTTransfer then .error .ErrInvalidArguments
      else .ok vmInput

/-- The function `checkInputArgumentsForLocalAction`; on success the dereferenced account and
input are returned. -/
def checkInputArgumentsForLocalAction (acntSnd : Option Account)
    (vmInput : Option ContractCallInput) (funcGasCost : Nat) :
    Result (Account × ContractCallInput) :=
  match checkBasicDCTArguments vmInput with
  | .error err => .error err
  | .ok vmInput =>
    if vmInput.CallerAddr ≠ vmInput.RecipientAddr then .error .ErrInvalidRcvAddr
    else
      match acntSnd with
      | none => .error .ErrNilUserAccount
      | some acnt =>
        let value : Int := bigSetBytes (vmInput.Arguments.getD 1 [])
        if value ≤ 0 then .error .ErrNegativeValue
        else if vmInput.GasProvided < funcGasCost then .error .ErrNotEnoughGas
        else .ok (acnt, vmInput)

/-- The method `(*dctLocalBurn).ProcessBuiltinFunction`.  The second component is the sender
account as the call leaves it. -/
def dctLocalBurn.ProcessBuiltinFunction (e : dctLocalBurn) (acntSnd : Option Account)
    (vmInput : Option ContractCallInput) : Result VMOutput × Option Account :=
  match checkInputArgumentsForLocalAction acntSnd vmInput e.funcGasCost with
  | .error err => (.error err, acntSnd)
  | .ok (acnt, vmInput) =>
    let tokenID := vmInput.Arguments.getD 0 []
    match e.CheckAllowedToExecute acnt tokenID e.DCTRoleLocalBurn with
    | some err => (.error err, acntSnd)
    | none =>
      let value : Int := bigSetBytes (vmInput.Arguments.getD 1 [])
      let dctTokenKey := e.keyPrefix ++ tokenID
      match addToDCTBalance acnt dctTokenKey (-value) e.marshalizer e.IsPaused
          vmInput.ReturnCallAfterError with
      | .error err => (.error err, acntSnd)
      | .ok acnt =>
        let vmOutput : VMOutput :=
          { ReturnCode := Ok
            GasRemaining := u64sub vmInput.GasProvided e.funcGasCost
            OutputAccounts := []
            Logs := [] }
        (.ok (addDCTEntryInVMOutput vmOutput e.BuiltInFunctionDCTLocalBurn
          (vmInput.Arguments.getD 0 []) value [vmInput.CallerAddr]), some acnt)

/-! ## Freeze, unfreeze and wipe (`dctFreezeWipe.go`) -/

/-- The Go struct `dctFreezeWipe`.  The system address `vmcommon.DCTSCAddress` and the function
name `vmcommon.BuiltInFunctionDCTWipe` are constants declared outside the sources. -/
structure dctFreezeWipe where
  marshalizer : Marshalizer
  keyPrefix : Bytes
  wipe : Bool
  freeze : Bool
  DCTSCAddress : Bytes
  BuiltInFunctionDCTWipe : Bytes

/-- The method `(*dctFreezeWipe).wipeIfApplicable`. -/
def dctFreezeWipe.wipeIfApplicable (e : dctFreezeWipe) (acntDst : Account) (tokenKey : Bytes) :
    Result Account :=
  match getDCTDataFromKey acntDst tokenKey e.marshalizer with
  | .error err => .error err
  | .ok tokenData =>
    let dctUserMetadata := DCTUserMetadataFromBytes tokenData.Properties
    if !dctUserMetadata.Frozen then .error .ErrCannotWipeAccountNotFrozen
    else .ok (acntDst.SaveKeyValue tokenKey [])

/-- The method `(*dctFreezeWipe).toggleFreeze`. -/
def dctFreezeWipe.toggleFreeze (e : dctFreezeWipe) (acntDst : Account) (tokenKey : Bytes) :
    Result Account :=
  match getDCTDataFromKey acntDst tokenKey e.marshalizer with
  | .error err => .error err
  | .ok tokenData =>
    let dctUserMetadata := DCTUserMetadataFromBytes tokenData.Properties
    let dctUserMetadata := { dctUserMetadata with Frozen := e.freeze }
    let tokenData := { tokenData with Properties := dctUserMetadata.ToBytes }
    saveDCTData acntDst tokenData tokenKey e.marshalizer

/-- The method `(*dctFreezeWipe).ProcessBuiltinFunction`.  The second component is the
destination account as the call leaves it.  A nil `CallValue` is dereferenced by `Cmp`. -/
def dctFreezeWipe.ProcessBuiltinFunction (e : dctFreezeWipe) (acntDst : Option Account)
    (vmInput : Option ContractCallInput) : Result VMOutput × Option Account :=
  match vmInput with
  | none => (.error .ErrNilVmInput, acntDst)
  | some vmInput =>
    match vmInput.CallValue with
    | none => (.error .runtimePanic, acntDst)
    | some callValue =>
      if callValue ≠ 0 then (.error .ErrBuiltInFunctionCalledWithValue, acntDst)
      else if vmInput.Arguments.length ≠ 1 then (.error .ErrInvalidArguments, acntDst)
      else if vmInput.CallerAddr ≠ e.DCTSCAddress then (.error .ErrAddressIsNotDCTSystemSC, acntDst)
      else
        match acntDst with
        | none => (.error .ErrNilUserAccount, acntDst)
        | some acnt =>
          let dctTokenKey := e.keyPrefix ++ vmInput.Arguments.getD 0 []
          let changed :=
            if e.wipe then e.wipeIfApplicable acnt dctTokenKey
            else e.toggleFreeze acnt dctTokenKey
          match changed with
          | .error err => (.error err, acntDst)
          | .ok acnt =>
            let vmOutput : VMOutput :=
              { ReturnCode := Ok, GasRemaining := 0, OutputAccounts := [], Logs := [] }
            let vmOutput :=
              if e.wipe then
                addDCTEntryInVMOutput vmOutput e.BuiltInFunctionDCTWipe
                  (vmInput.Arguments.getD 0 []) 0 [vmInput.CallerAddr, acnt.address]
              else vmOutput
            (.ok vmOutput, some acnt)

/-! ## NFT records of an account -/

/-- Modelled from the spec: `getDCTNFTTokenOnDestination`, which is not among the sources: the
record stored at the per-nonce key, or the empty record (flagged as new) when nothing is stored
there. -/
def getDCTNFTTokenOnDestination (accnt : Account) (dctTokenKey : Bytes) (nonce : Nat)
    (m : Marshalizer) : Result (DCToken × Bool) :=
  let dctNFTTokenKey := computeDCTNFTTokenKey dctTokenKey nonce
  let marshaledData := accnt.RetrieveValue dctNFTTokenKey
  if marshaledData = [] then .ok (emptyDCToken, true)
  else
    match m.Unmarshal marshaledData with
    | .error err => .error err
    | .ok dctData => .ok (dctData, false)

/-- Modelled from the spec: `getDCTNFTTokenOnSender`, which is not among the sources: the record
the sender holds at the per-nonce key; holding nothing there is an error (section 4.7), the
`ErrNFTTokenDoesNotExist` the callers test for. -/
def getDCTNFTTokenOnSender (accnt : Account) (dctTokenKey : Bytes) (nonce : Nat)
    (m : Marshalizer) : Result DCToken :=
  match getDCTNFTTokenOnDestination accnt dctTokenKey nonce m with
  | .error err => .error err
  | .ok (dctData, isNew) =>
    if isNew then .error .ErrNFTTokenDoesNotExist else .ok dctData

/-- Modelled from the spec: `saveDCTNFTToken`, which is not among the sources: the record is
marshaled and stored at the per-nonce key, the nonce being the one of the record's metadata (0
without metadata).  The pause handler and the return-after-error flag of the call are those of
the frozen/pause guard of section 4.2, applied to the record being stored.  The marshaled bytes
are returned with the account. -/
def saveDCTNFTToken (acnt : Account) (dctTokenKey : Bytes) (dctData : DCToken) (m : Marshalizer)
    (IsPaused : Bytes → Bool) (isReturnWithError : Bool) : Result (Bytes × Account) :=
  match checkFrozeAndPause IsPaused acnt.address dctTokenKey dctData isReturnWithError with
  | .error err => .error err
  | .ok _ =>
    let nonce := match dctData.TokenMetaData with
      | some metaData => metaData.Nonce
      | none => 0
    let dctNFTTokenKey := computeDCTNFTTokenKey dctTokenKey nonce
    match m.Marshal dctData with
    | .error err => .error err
    | .ok marshaledData => .ok (marshaledData, acnt.SaveKeyValue dctNFTTokenKey marshaledData)

/-- Modelled from the spec: `newEntryForNFT`, which is not among the sources: a log entry tagged
with the function name, raised by the caller, with the tokenID and the nonce as topics. -/
def newEntryForNFT (identifier caller tokenID : Bytes) (nonce : Nat) : LogEntry :=
  { Identifier := identifier, Address := caller, Topics := [tokenID, bigBytes nonce], Data := [] }

/-! ## NFT attribute update (`updateNFTAttributes.go`) -/

/-- The Go struct `dctNFTupdate`.  `StorePerByte` is the field of `gasConfig` the function
reads; the role name and the function name are constants declared outside the sources. -/
structure dctNFTupdate where
  keyPrefix : Bytes
  marshalizer : Marshalizer
  IsPaused : Bytes → Bool
  CheckAllowedToExecute : Account → Bytes → Bytes → Option Error
  StorePerByte : Nat
  funcGasCost : Nat
  DCTRoleNFTUpdateAttributes : Bytes
  BuiltInFunctionDCTNFTUpdateAttributes : Bytes

/-- Modelled from the spec: `checkDCTNFTCreateBurnAddInput`, which is not among the sources.
Section 4.6 and the order exercised by `TestDctNFTCreate_ProcessBuiltinFunctionInvalidArguments`:
basic checks, caller == recipient, account present, `gasProvided >= funcGasCost`. -/
def checkDCTNFTCreateBurnAddInput (account : Option Account) (vmInput : Option ContractCallInput)
    (funcGasCost : Nat) : Result (Account × ContractCallInput) :=
  match checkBasicDCTArguments vmInput with
  | .error err => .error err
  | .ok vmInput =>
    if vmInput.CallerAddr ≠ vmInput.RecipientAddr then .error .ErrInvalidRcvAddr
    else
      match account with
      | none => .error .ErrNilUserAccount
      | some acnt =>
        if vmInput.GasProvided < funcGasCost then .error .ErrNotEnoughGas
        else .ok (acnt, vmInput)

/-- The method `(*dctNFTupdate).ProcessBuiltinFunction`.  The second component is the sender
account as the call leaves it.  Writing the attributes of a record without metadata dereferences
a nil pointer. -/
def dctNFTupdate.ProcessBuiltinFunction (e : dctNFTupdate) (acntSnd : Option Account)
    (vmInput : Option ContractCallInput) : Result VMOutput × Option Account :=
  match checkDCTNFTCreateBurnAddInput acntSnd vmInput e.funcGasCost with
  | .error err => (.error err, acntSnd)
  | .ok (acnt, vmInput) =>
    if vmInput.Arguments.length ≠ 3 then (.error .ErrInvalidArguments, acntSnd)
    else
      let arg0 := vmInput.Arguments.getD 0 []
      let arg1 := vmInput.Arguments.getD 1 []
      let arg2 := vmInput.Arguments.getD 2 []
      match e.CheckAllowedToExecute acnt arg0 e.DCTRoleNFTUpdateAttributes with
      | some err => (.error err, acntSnd)
      | none =>
        let gasCostForStore := u64mul arg2.length e.StorePerByte
        if vmInput.GasProvided < u64add e.funcGasCost gasCostForStore then
          (.error .ErrNotEnoughGas, acntSnd)
        else
          let dctTokenKey := e.keyPrefix ++ arg0
          let nonce := toUint64 (bigSetBytes arg1)
          if nonce = 0 then (.error .ErrNFTDoesNotHaveMetadata, acntSnd)
          else
            match getDCTNFTTokenOnSender acnt dctTokenKey nonce e.marshalizer with
            | .error err => (.error err, acntSnd)
            | .ok dctData =>
              match dctData.TokenMetaData with
              | none => (.error .runtimePanic, acntSnd)
              | some metaData =>
                let dctData :=
                  { dctData with TokenMetaData := some { metaData with Attributes := arg2 } }
                match saveDCTNFTToken acnt dctTokenKey dctData e.marshalizer e.IsPaused
                    vmInput.ReturnCallAfterError with
                | .error err => (.error err, acntSnd)
                | .ok (_, acnt) =>
                  let logEntry := newEntryForNFT e.BuiltInFunctionDCTNFTUpdateAttributes
                    vmInput.CallerAddr arg0 nonce
                  let vmOutput : VMOutput :=
                    { ReturnCode := Ok
                      GasRemaining :=
                        u64sub (u64sub vmInput.GasProvided e.funcGasCost) gasCostForStore
                      OutputAccounts := []
                      Logs := [logEntry] }
                  (.ok vmOutput, some acnt)

/-! ## Multi-asset transfer (`multiDCTNFTTransfer.go`) -/

/-- What `accounts.LoadAccount` returns: a user account, or an account of another kind, for
which the type assertion to `UserAccountHandler` fails. -/
inductive AccountHandler where
  | user (account : Account)
  | other

/-- The Go struct `dctNFTMultiTransfer`.  `IsPaused`, `IsPayable`, `LoadAccount`/`SaveAccount`
and `ComputeId`/`SelfId` are the pause handler, the payable handler, the accounts adapter and
the shard coordinator; `DataCopyPerByte` is the field of `gasConfig` the function reads.  The
constants `vmcommon.MetachainShardId` and `vmcommon.BuiltInFunctionMultiDCTNFTTransfer` and the
helpers `mustVerifyPayable` and `vmcommon.IsSmartContractAddress` are declared outside the
sources and are taken as they are. -/
structure dctNFTMultiTransfer where
  keyPrefix : Bytes
  marshalizer : Marshalizer
  IsPaused : Bytes → Bool
  IsPayable : Bytes → Result Bool
  funcGasCost : Nat
  LoadAccount : Bytes → Result AccountHandler
  SaveAccount : Account → Option Error
  ComputeId : Bytes → Nat
  SelfId : Nat
  DataCopyPerByte : Nat
  MetachainShardId : Nat
  BuiltInFunctionMultiDCTNFTTransfer : Bytes
  mustVerifyPayable : ContractCallInput → Nat → Bool
  IsSmartContractAddress : Bytes → Bool

/-- The constant `argumentsPerTransfer`. -/
def argumentsPerTransfer : Nat := 3

/-- The Go expression `args[i]`, which panics when the index is out of range. -/
def argAt (args : List Bytes) (i : Nat) : Result Bytes :=
  match args.get? i with
  | some b => .ok b
  | none => .error .runtimePanic

/-- The run-time check of `make([]*T, n)` with a `uint64` length: the size in bytes, `8 * n`,
must not overflow the 64-bit address space (otherwise `makeslice: len out of range`). -/
def makesliceOK (n : Nat) : Bool := n * 8 < 2 ^ 64

/-- Lower-case hexadecimal digit of a nibble. -/
def hexDigit (n : Nat) : Fin 256 :=
  if n < 10 then ⟨(48 + n) % 256, Nat.mod_lt _ (by decide)⟩
  else ⟨(87 + n) % 256, Nat.mod_lt _ (by decide)⟩

/-- The value of `hex.EncodeToString`. -/
def hexEncode (b : Bytes) : Bytes :=
  b.flatMap (fun x => [hexDigit (x.val / 16), hexDigit (x.val % 16)])

/-- The call data `function@hex(arg1)@hex(arg2)...` (section 6, wire format). -/
def callData (function : Bytes) (arguments : List Bytes) : Bytes :=
  function ++ arguments.flatMap (fun arg => (64 : Fin 256) :: hexEncode arg)

/-- Modelled from the spec: `addNFTTransferToVMOutput`, which is not among the sources: one
forwarded call frame towards the recipient, carrying the function name and the hex-encoded
arguments, with the given gas limit. -/
def addNFTTransferToVMOutput (senderAddress recipient funcToCall : Bytes)
    (arguments : List Bytes) (gasLocked gasLimit callType : Nat) (vmOutput : VMOutput) :
    VMOutput :=
  let outTransfer : OutputTransfer :=
    { Value := 0, GasLimit := gasLimit, GasLocked := gasLocked,
      Data := callData funcToCall arguments, CallType := callType,
      SenderAddress := senderAddress }
  { vmOutput with
    OutputAccounts := [(recipient, { Address := recipient, OutputTransfers := [outTransfer] })] }

/-- Modelled from the spec: `addOutputTransferToVMOutput`, which is not among the sources: a
direct output transfer invoking the secondary call (section 4.9).  What it does with the gas is
not stated there: the model forwards the gas left to the call, as the gas limit of the
transfer, so that the output keeps none, which is what lines 394-398 of
`createDCTNFTOutputTransfers` do for the frame sent to another shard. -/
def addOutputTransferToVMOutput (senderAddress function : Bytes) (arguments : List Bytes)
    (recipient : Bytes) (gasLocked callType : Nat) (vmOutput : VMOutput) : VMOutput :=
  let outTransfer : OutputTransfer :=
    { Value := 0, GasLimit := vmOutput.GasRemaining, GasLocked := gasLocked,
      Data := callData function arguments, CallType := callType,
      SenderAddress := senderAddress }
  { vmOutput with
    OutputAccounts := [(recipient, { Address := recipient, OutputTransfers := [outTransfer] })]
    GasRemaining := 0 }

/-- The method `(*dctNFTMultiTransfer).addNFTToDestination`.  Returns the destination account
and the record to transfer as the call leaves them (the record's value is updated in place). -/
def dctNFTMultiTransfer.addNFTToDestination (e : dctNFTMultiTransfer) (dstAddress : Bytes)
    (userAccount : Account) (dctDataToTransfer : DCToken) (dctTokenKey : Bytes)
    (mustVerifyPayable isReturnCallWithError : Bool) : Result (Account × DCToken) :=
  let payable : Result Unit :=
    if mustVerifyPayable then
      match e.IsPayable dstAddress with
      | .error errIsPayable => .error errIsPayable
      | .ok isPayable => if !isPayable then .error .ErrAccountNotPayable else .ok ()
    else .ok ()
  match payable with
  | .error err => .error err
  | .ok _ =>
    let nonce := match dctDataToTransfer.TokenMetaData with
      | some metaData => metaData.Nonce
      | none => 0
    match getDCTNFTTokenOnDestination userAccount dctTokenKey nonce e.marshalizer with
    | .error err =>
      if err = .ErrNFTTokenDoesNotExist then .error .runtimePanic else .error err
    | .ok (currentDCTData, _) =>
      match checkFrozeAndPause e.IsPaused dstAddress dctTokenKey currentDCTData
          isReturnCallWithError with
      | .error err => .error err
      | .ok _ =>
        let merged : Result DCToken :=
          match currentDCTData.TokenMetaData with
          | some currentMetaData =>
            match dctDataToTransfer.TokenMetaData with
            | none => .error .runtimePanic
            | some metaData =>
              if currentMetaData.Hash ≠ metaData.Hash then .error .ErrWrongNFTOnDestination
              else .ok { dctDataToTransfer with
                         Value := dctDataToTransfer.Value + currentDCTData.Value }
          | none => .ok dctDataToTransfer
        match merged with
        | .error err => .error err
        | .ok dctDataToTransfer =>
          match saveDCTNFTToken userAccount dctTokenKey dctDataToTransfer e.marshalizer
              e.IsPaused isReturnCallWithError with
          | .error err => .error err
          | .ok (_, userAccount) => .ok (userAccount, dctDataToTransfer)

/-- The accounts a multi-asset transfer works on, as an invocation leaves them, with its
result.  `acntDst` is the destination account the invocation worked on (on the sender's shard,
the one loaded through the accounts adapter). -/
structure Outcome (α : Type) where
  result : Result α
  acntSnd : Option Account
  acntDst : Option Account

/-- The method `(*dctNFTMultiTransfer).transferOneTokenOnSenderShard`.  A nil sender account is
dereferenced when its record is read. -/
def dctNFTMultiTransfer.transferOneTokenOnSenderShard (e : dctNFTMultiTransfer)
    (acntSnd acntDst : Option Account) (dstAddress tokenID : Bytes) (nonce : Nat)
    (quantityToTransfer : Int) (verifyPayable isReturnCallWithError : Bool) : Outcome DCToken :=
  if quantityToTransfer ≤ 0 then ⟨.error .ErrInvalidNFTQuantity, acntSnd, acntDst⟩
  else
    let dctTokenKey := e.keyPrefix ++ tokenID
    match acntSnd with
    | none => ⟨.error .runtimePanic, acntSnd, acntDst⟩
    | some snd =>
      match getDCTNFTTokenOnSender snd dctTokenKey nonce e.marshalizer with
      | .error err => ⟨.error err, acntSnd, acntDst⟩
      | .ok dctData =>
        if dctData.Value < quantityToTransfer then
          ⟨.error .ErrInvalidNFTQuantity, acntSnd, acntDst⟩
        else
          let dctData := { dctData with Value := dctData.Value - quantityToTransfer }
          match saveDCTNFTToken snd dctTokenKey dctData e.marshalizer e.IsPaused
              isReturnCallWithError with
          | .error err => ⟨.error err, acntSnd, acntDst⟩
          | .ok (_, snd) =>
            let dctData := { dctData with Value := quantityToTransfer }
            match acntDst with
            | none => ⟨.ok dctData, some snd, none⟩
            | some dst =>
              match e.addNFTToDestination dstAddress dst dctData dctTokenKey verifyPayable
                  isReturnCallWithError with
              | .error err => ⟨.error err, some snd, some dst⟩
              | .ok (dst, dctData) => ⟨.ok dctData, some snd, some dst⟩

/-- The method `(*dctNFTMultiTransfer).loadAccountIfInShard`. -/
def dctNFTMultiTransfer.loadAccountIfInShard (e : dctNFTMultiTransfer) (dstAddress : Bytes) :
    Result (Option Account) :=
  if e.SelfId ≠ e.ComputeId dstAddress then .ok none
  else
    match e.LoadAccount dstAddress with
    | .error errLoad => .error errLoad
    | .ok (.user userAccount) => .ok (some userAccount)
    | .ok .other => .error .ErrWrongTypeAssertion

/-- The loop of `createDCTNFTOutputTransfers` over the transferred records: extends the
argument list of the forwarded frame and charges the data-copy gas.  Returns the gas remaining
and the arguments. -/
def dctNFTMultiTransfer.outputTransferArgs (e : dctNFTMultiTransfer) :
    List DCToken → List Bytes → Nat → List Bytes → Result (Nat × List Bytes)
  | [], _, gasRemaining, multiTransferCallArgs => .ok (gasRemaining, multiTransferCallArgs)
  | _ :: _, [], _, _ => .error .runtimePanic
  | dctTransferData :: restData, tokenID :: restIDs, gasRemaining, multiTransferCallArgs =>
    let multiTransferCallArgs := multiTransferCallArgs ++ [tokenID]
    match dctTransferData.TokenMetaData with
    | some metaData =>
      match e.marshalizer.Marshal dctTransferData with
      | .error err => .error err
      | .ok marshaledNFTTransfer =>
        let gasForTransfer := u64mul marshaledNFTTransfer.length e.DataCopyPerByte
        if gasForTransfer > gasRemaining then .error .ErrNotEnoughGas
        else
          e.outputTransferArgs restData restIDs (u64sub gasRemaining gasForTransfer)
            (multiTransferCallArgs ++ [bigBytes metaData.Nonce, marshaledNFTTransfer])
    | none =>
      e.outputTransferArgs restData restIDs gasRemaining
        (multiTransferCallArgs ++ [[0], bigBytes dctTransferData.Value.natAbs])

/-- The method `(*dctNFTMultiTransfer).createDCTNFTOutputTransfers`; returns the updated
output. -/
def dctNFTMultiTransfer.createDCTNFTOutputTransfers (e : dctNFTMultiTransfer)
    (vmInput : ContractCallInput) (vmOutput : VMOutput) (listDCTTransferData : List DCToken)
    (listTokenIDs : List Bytes) (dstAddress : Bytes) : Result VMOutput :=
  let numTokenTransfer := bigBytes listDCTTransferData.length
  match e.outputTransferArgs listDCTTransferData listTokenIDs vmOutput.GasRemaining
      [numTokenTransfer] with
  | .error err => .error err
  | .ok (gasRemaining, multiTransferCallArgs) =>
    let vmOutput := { vmOutput with GasRemaining := gasRemaining }
    let minNumOfArguments := u64add (u64mul listDCTTransferData.length argumentsPerTransfer) 2
    let multiTransferCallArgs :=
      if vmInput.Arguments.length > minNumOfArguments then
        multiTransferCallArgs ++ vmInput.Arguments.drop minNumOfArguments
      else multiTransferCallArgs
    let isSCCallAfter :=
      decide (vmInput.Arguments.length > minNumOfArguments) && e.IsSmartContractAddress dstAddress
    if e.SelfId ≠ e.ComputeId dstAddress then
      let gasToTransfer := if isSCCallAfter then vmOutput.GasRemaining else 0
      let vmOutput := if isSCCallAfter then { vmOutput with GasRemaining := 0 } else vmOutput
      .ok (addNFTTransferToVMOutput vmInput.CallerAddr dstAddress
        e.BuiltInFunctionMultiDCTNFTTransfer multiTransferCallArgs vmInput.GasLocked
        gasToTransfer vmInput.CallType vmOutput)
    else if isSCCallAfter then
      let callArgs :=
        if vmInput.Arguments.length > u64add minNumOfArguments 1 then
          vmInput.Arguments.drop (u64add minNumOfArguments 1)
        else []
      .ok (addOutputTransferToVMOutput vmInput.CallerAddr
        (vmInput.Arguments.getD minNumOfArguments []) callArgs dstAddress vmInput.GasLocked
        vmInput.CallType vmOutput)
    else .ok vmOutput

/-- What the transfer loop of the sender's shard has built so far. -/
structure LoopState where
  acntSnd : Option Account
  acntDst : Option Account
  listDctData : List DCToken
  listTokenID : List Bytes
  logs : List LogEntry

/-- The `for` loop of `processDCTNFTMultiTransferOnSenderShard`: `remaining` iterations from
index `i` on.  Returns the error that stopped the loop, if any, with the state reached. -/
def dctNFTMultiTransfer.senderShardLoop (e : dctNFTMultiTransfer) (vmInput : ContractCallInput)
    (dstAddress : Bytes) (verifyPayable : Bool) :
    Nat → Nat → LoopState → Option Error × LoopState
  | 0, _, st => (none, st)
  | remaining + 1, i, st =>
    let tokenStartIndex := 2 + i * argumentsPerTransfer
    match argAt vmInput.Arguments tokenStartIndex with
    | .error err => (some err, st)
    | .ok tokenID =>
      match argAt vmInput.Arguments (tokenStartIndex + 1) with
      | .error err => (some err, st)
      | .ok nonceBytes =>
        let nonce := toUint64 (bigSetBytes nonceBytes)
        match argAt vmInput.Arguments (tokenStartIndex + 2) with
        | .error err => (some err, st)
        | .ok quantityBytes =>
          let quantityToTransfer : Int := bigSetBytes quantityBytes
          let step := e.transferOneTokenOnSenderShard st.acntSnd st.acntDst dstAddress tokenID
            nonce quantityToTransfer verifyPayable vmInput.ReturnCallAfterError
          match step.result with
          | .error err =>
            (some err, { st with acntSnd := step.acntSnd, acntDst := step.acntDst })
          | .ok dctData =>
            let logEntry := newEntryForNFT e.BuiltInFunctionMultiDCTNFTTransfer
              vmInput.CallerAddr tokenID nonce
            let logEntry := { logEntry with Topics := logEntry.Topics ++ [dstAddress] }
            e.senderShardLoop vmInput dstAddress verifyPayable remaining (i + 1)
              { acntSnd := step.acntSnd, acntDst := step.acntDst,
                listDctData := st.listDctData ++ [dctData],
                listTokenID := st.listTokenID ++ [tokenID],
                logs := st.logs ++ [logEntry] }

/-- The method `(*dctNFTMultiTransfer).processDCTNFTMultiTransferOnSenderShard`. -/
def dctNFTMultiTransfer.processDCTNFTMultiTransferOnSenderShard (e : dctNFTMultiTransfer)
    (acntSnd : Option Account) (vmInput : ContractCallInput) : Outcome VMOutput :=
  match argAt vmInput.Arguments 0 with
  | .error err => ⟨.error err, acntSnd, none⟩
  | .ok dstAddress =>
    if dstAddress.length ≠ vmInput.CallerAddr.length then
      ⟨.error .ErrInvalidArguments, acntSnd, none⟩
    else if dstAddress = vmInput.CallerAddr then ⟨.error .ErrInvalidArguments, acntSnd, none⟩
    else if e.ComputeId dstAddress = e.MetachainShardId then
      ⟨.error .ErrInvalidRcvAddr, acntSnd, none⟩
    else
      match argAt vmInput.Arguments 1 with
      | .error err => ⟨.error err, acntSnd, none⟩
      | .ok countBytes =>
        let numOfTransfers := toUint64 (bigSetBytes countBytes)
        if numOfTransfers = 0 then ⟨.error .ErrInvalidArguments, acntSnd, none⟩
        else
          let minNumOfArguments := u64add (u64mul numOfTransfers argumentsPerTransfer) 2
          if vmInput.Arguments.length < minNumOfArguments then
            ⟨.error .ErrInvalidArguments, acntSnd, none⟩
          else
            let multiTransferCost := u64mul numOfTransfers e.funcGasCost
            if vmInput.GasProvided < multiTransferCost then
              ⟨.error .ErrNotEnoughGas, acntSnd, none⟩
            else
              let verifyPayable := e.mustVerifyPayable vmInput minNumOfArguments
              match e.loadAccountIfInShard dstAddress with
              | .error err => ⟨.error err, acntSnd, none⟩
              | .ok acntDst =>
                if !makesliceOK numOfTransfers then ⟨.error .runtimePanic, acntSnd, acntDst⟩
                else
                  let gasRemaining := u64sub vmInput.GasProvided multiTransferCost
                  match e.senderShardLoop vmInput dstAddress verifyPayable numOfTransfers 0
                      ⟨acntSnd, acntDst, [], [], []⟩ with
                  | (some err, st) => ⟨.error err, st.acntSnd, st.acntDst⟩
                  | (none, st) =>
                    let saved : Option Error :=
                      match st.acntDst with
                      | some dst => e.SaveAccount dst
                      | none => none
                    match saved with
                    | some err => ⟨.error err, st.acntSnd, st.acntDst⟩
                    | none =>
                      let vmOutput : VMOutput :=
                        { ReturnCode := Ok, GasRemaining := gasRemaining,
                          OutputAccounts := [], Logs := st.logs }
                      match e.createDCTNFTOutputTransfers vmInput vmOutput st.listDctData
                          st.listTokenID dstAddress with
                      | .error err => ⟨.error err, st.acntSnd, st.acntDst⟩
                      | .ok vmOutput => ⟨.ok vmOutput, st.acntSnd, st.acntDst⟩

/-- The `for` loop of the cross-shard branch of `ProcessBuiltinFunction`: `remaining`
iterations from index `i` on, working on the destination account.  Returns the error that
stopped the loop, if any, with the account and the log entries reached. -/
def dctNFTMultiTransfer.destinationShardLoop (e : dctNFTMultiTransfer)
    (vmInput : ContractCallInput) (minNumOfArguments : Nat) :
    Nat → Nat → Account → List LogEntry → Option Error × Account × List LogEntry
  | 0, _, acntDst, logs => (none, acntDst, logs)
  | remaining + 1, i, acntDst, logs =>
    let tokenStartIndex := 1 + i * argumentsPerTransfer
    match argAt vmInput.Arguments tokenStartIndex with
    | .error err => (some err, acntDst, logs)
    | .ok tokenID =>
      match argAt vmInput.Arguments (tokenStartIndex + 1) with
      | .error err => (some err, acntDst, logs)
      | .ok nonceBytes =>
        let nonce := toUint64 (bigSetBytes nonceBytes)
        let dctTokenKey := e.keyPrefix ++ tokenID
        match argAt vmInput.Arguments (tokenStartIndex + 2) with
        | .error err => (some err, acntDst, logs)
        | .ok payload =>
          let credited : Result Account :=
            if nonce > 0 then
              match e.marshalizer.Unmarshal payload with
              | .error err => .error err
              | .ok dctTransferData =>
                match e.addNFTToDestination vmInput.RecipientAddr acntDst dctTransferData
                    dctTokenKey (e.mustVerifyPayable vmInput minNumOfArguments)
                    vmInput.ReturnCallAfterError with
                | .error err => .error err
                | .ok (acntDst, _) => .ok acntDst
            else
              addToDCTBalance acntDst dctTokenKey (bigSetBytes payload) e.marshalizer e.IsPaused
                vmInput.ReturnCallAfterError
          match credited with
          | .error err => (some err, acntDst, logs)
          | .ok acntDst =>
            let logEntry := newEntryForNFT e.BuiltInFunctionMultiDCTNFTTransfer
              vmInput.CallerAddr tokenID nonce
            let logEntry := { logEntry with Topics := logEntry.Topics ++ [acntDst.address] }
            e.destinationShardLoop vmInput minNumOfArguments remaining (i + 1) acntDst
              (logs ++ [logEntry])

/-- The method `(*dctNFTMultiTransfer).ProcessBuiltinFunction`. -/
def dctNFTMultiTransfer.ProcessBuiltinFunction (e : dctNFTMultiTransfer)
    (acntSnd acntDst : Option Account) (vmInput : Option ContractCallInput) :
    Outcome VMOutput :=
  match checkBasicDCTArguments vmInput with
  | .error err => ⟨.error err, acntSnd, acntDst⟩
  | .ok vmInput =>
    if vmInput.Arguments.length < 5 then ⟨.error .ErrInvalidArguments, acntSnd, acntDst⟩
    else if vmInput.CallerAddr = vmInput.RecipientAddr then
      e.processDCTNFTMultiTransferOnSenderShard acntSnd vmInput
    else if acntSnd.isSome then ⟨.error .ErrInvalidRcvAddr, acntSnd, acntDst⟩
    else
      match acntDst with
      | none => ⟨.error .ErrInvalidRcvAddr, acntSnd, acntDst⟩
      | some dst =>
        let numOfTransfers := toUint64 (bigSetBytes (vmInput.Arguments.getD 0 []))
        if numOfTransfers = 0 then ⟨.error .ErrInvalidArguments, acntSnd, acntDst⟩
        else
          let minNumOfArguments := u64add (u64mul numOfTransfers argumentsPerTransfer) 1
          if vmInput.Arguments.length < minNumOfArguments then
            ⟨.error .ErrInvalidArguments, acntSnd, acntDst⟩
          else if !makesliceOK numOfTransfers then ⟨.error .runtimePanic, acntSnd, acntDst⟩
          else
            match e.destinationShardLoop vmInput minNumOfArguments numOfTransfers 0 dst [] with
            | (some err, dst, _) => ⟨.error err, acntSnd, some dst⟩
            | (none, dst, logs) =>
              let vmOutput : VMOutput :=
                { ReturnCode := Ok, GasRemaining := vmInput.GasProvided, OutputAccounts := [],
                  Logs := logs }
              if vmInput.Arguments.length > minNumOfArguments
                  && e.IsSmartContractAddress vmInput.RecipientAddr then
                let callArgs :=
                  if vmInput.Arguments.length > minNumOfArguments + 1 then
                    vmInput.Arguments.drop (minNumOfArguments + 1)
                  else []
                ⟨.ok (addOutputTransferToVMOutput vmInput.CallerAddr
                  (vmInput.Arguments.getD minNumOfArguments []) callArgs vmInput.RecipientAddr
                  vmInput.GasLocked vmInput.CallType vmOutput), acntSnd, some dst⟩
              else ⟨.ok vmOutput, acntSnd, some dst⟩

/-! ## A concrete marshalizer

The marshalizer is an injected service.  The concrete instances below use a length-prefixed
binary codec: every byte-string field is written as its length (one byte) followed by its
content, integers are written as the byte strings `bigBytes` gives them. -/

/-- One length-prefixed field. -/
def putField (b : Bytes) : Bytes :=
  (⟨b.length % 256, Nat.mod_lt _ (by decide)⟩ : Fin 256) :: b

/-- Reads one length-prefixed field; returns it with the bytes that follow. -/
def getField (b : Bytes) : Option (Bytes × Bytes) :=
  match b with
  | [] => none
  | n :: rest => if rest.length < n.val then none else some (rest.take n.val, rest.drop n.val)

/-- Reads `count` length-prefixed fields. -/
def getFields : Nat → Bytes → Option (List Bytes × Bytes)
  | 0, b => some ([], b)
  | count + 1, b =>
    match getField b with
    | none => none
    | some (field, rest) =>
      match getFields count rest with
      | none => none
      | some (fields, rest) => some (field :: fields, rest)

/-- The fields of a record in the order the codec writes them. -/
def codecFields (d : DCToken) : List Bytes :=
  [bigBytes d.TokenType, if d.Value < 0 then [1] else [0], bigBytes d.Value.natAbs, d.Properties] ++
  match d.TokenMetaData with
  | none => [[0]]
  | some md =>
    [[1], bigBytes md.Nonce, md.Name, md.Creator, bigBytes md.Royalties, md.Hash, md.Attributes,
      bigBytes md.URIs.length] ++ md.URIs

/-- The codec's `Marshal`: fails on a field longer than 255 bytes. -/
def codecMarshal (d : DCToken) : Result Bytes :=
  if (codecFields d).all (fun field => field.length < 256) then
    .ok ((codecFields d).flatMap putField)
  else .error (.collaborator 1)

/-- The signed value written as a sign field and a magnitude field. -/
def codecValue (sign magnitude : Bytes) : Int :=
  if sign = [1] then -(bigSetBytes magnitude : Int) else (bigSetBytes magnitude : Int)

/-- The codec's `Unmarshal`. -/
def codecUnmarshal (b : Bytes) : Result DCToken :=
  match getFields 5 b with
  | some ([tokenType, sign, magnitude, properties, hasMeta], rest) =>
    if hasMeta = [0] then
      if rest = [] then
        .ok { TokenType := bigSetBytes tokenType, Value := codecValue sign magnitude,
              Properties := properties, TokenMetaData := none }
      else .error (.collaborator 2)
    else
      match getFields 7 rest with
      | some ([nonce, name, creator, royalties, hash, attributes, count], rest) =>
        match getFields (bigSetBytes count) rest with
        | some (uris, []) =>
          .ok { TokenType := bigSetBytes tokenType, Value := codecValue sign magnitude,
                Properties := properties,
                TokenMetaData := some
                  { Nonce := bigSetBytes nonce, Name := name, Creator := creator,
                    Royalties := bigSetBytes royalties, Hash := hash, URIs := uris,
                    Attributes := attributes } }
        | _ => .error (.collaborator 2)
      | _ => .error (.collaborator 2)
  | _ => .error (.collaborator 2)

/-- The length-prefixed codec as a marshalizer. -/
def codecMarshalizer : Marshalizer :=
  { Marshal := codecMarshal, Unmarshal := codecUnmarshal }

/-! ## Concrete instances -/

/-- A token identifier used by the concrete instances. -/
def tokenA : Bytes := [116, 107]

/-- The key prefix used by the concrete instances. -/
def prefixA : Bytes := [100, 99, 116]

/-- An account holding `marshaled` at `key` and nothing else. -/
def accountWith (address key marshaled : Bytes) : Account :=
  { address := address, data := fun k => if k = key then marshaled else [] }

/-- A fungible record with the given balance and properties. -/
def fungibleRecord (value : Int) (properties : Bytes) : DCToken :=
  { TokenType := Fungible, Value := value, Properties := properties, TokenMetaData := none }

/-- The marshaled form of a record under the length-prefixed codec (empty if it fails). -/
def codecBytes (d : DCToken) : Bytes :=
  match codecMarshal d with
  | .ok b => b
  | .error _ => []

/-- A local-burn instance with function cost 50 and a roles handler that allows everything. -/
def burnA : dctLocalBurn :=
  { keyPrefix := prefixA, marshalizer := codecMarshalizer, IsPaused := fun _ => false,
    CheckAllowedToExecute := fun _ _ _ => none, funcGasCost := 50,
    DCTRoleLocalBurn := [1], BuiltInFunctionDCTLocalBurn := [2] }

/-- A self-call with the given arguments and gas. -/
def selfCall (arguments : List Bytes) (gas : Nat) : ContractCallInput :=
  { CallerAddr := [2, 2], RecipientAddr := [2, 2], CallValue := some 0, Arguments := arguments,
    GasProvided := gas, GasLocked := 0, CallType := 0, ReturnCallAfterError := false }

/-- A wipe instance; the system address is `[255]`. -/
def wipeA : dctFreezeWipe :=
  { marshalizer := codecMarshalizer, keyPrefix := prefixA, wipe := true, freeze := false,
    DCTSCAddress := [255], BuiltInFunctionDCTWipe := [3] }

/-- A call from the system address with one argument. -/
def systemCall (arguments : List Bytes) : ContractCallInput :=
  { CallerAddr := [255], RecipientAddr := [1, 0], CallValue := some 0, Arguments := arguments,
    GasProvided := 0, GasLocked := 0, CallType := 0, ReturnCallAfterError := false }

/-- A non-fungible record with the given quantity, nonce, hash and attributes. -/
def nftRecord (value : Int) (nonce : Nat) (hash attributes : Bytes) : DCToken :=
  { TokenType := 1, Value := value, Properties := [],
    TokenMetaData := some { Nonce := nonce, Name := [], Creator := [], Royalties := 0,
                            Hash := hash, URIs := [], Attributes := attributes } }

/-- An attribute-update instance whose per-byte store cost is 2^63 and whose base cost is 0. -/
def updateWrap : dctNFTupdate :=
  { keyPrefix := prefixA, marshalizer := codecMarshalizer, IsPaused := fun _ => false,
    CheckAllowedToExecute := fun _ _ _ => none, StorePerByte := 2 ^ 63, funcGasCost := 0,
    DCTRoleNFTUpdateAttributes := [4], BuiltInFunctionDCTNFTUpdateAttributes := [5] }

/-- An attribute-update instance with base cost 10 and per-byte store cost 3. -/
def updateA : dctNFTupdate :=
  { updateWrap with StorePerByte := 3, funcGasCost := 10 }

/-- An account holding one NFT of `tokenA` at nonce 1. -/
def nftHolder : Account :=
  accountWith [2, 2] (computeDCTNFTTokenKey (prefixA ++ tokenA) 1) (codecBytes (nftRecord 3 1 [9] [5]))

/-- A destination account holding a fungible balance of 5 of `tokenA`. -/
def destinationA : Account :=
  accountWith [1, 0] (prefixA ++ tokenA) (codecBytes (fungibleRecord 5 []))

/-- A sender account holding a fungible balance of 3 of `tokenA`. -/
def senderA : Account :=
  accountWith [2, 2] (prefixA ++ tokenA) (codecBytes (fungibleRecord 3 []))

/-- A multi-transfer instance on a single shard (every address is in shard 0): function cost 1,
no data-copy cost, nothing paused, every destination payable, and an accounts adapter that
holds `destinationA`. -/
def transferA : dctNFTMultiTransfer :=
  { keyPrefix := prefixA, marshalizer := codecMarshalizer, IsPaused := fun _ => false,
    IsPayable := fun _ => .ok true, funcGasCost := 1,
    LoadAccount := fun _ => .ok (.user destinationA), SaveAccount := fun _ => none,
    ComputeId := fun _ => 0, SelfId := 0, DataCopyPerByte := 0,
    MetachainShardId := 4294967295, BuiltInFunctionMultiDCTNFTTransfer := [6],
    mustVerifyPayable := fun _ _ => false, IsSmartContractAddress := fun _ => false }

/-- The instance `transferA` with function cost 3. -/
def transferWrap : dctNFTMultiTransfer :=
  { transferA with funcGasCost := 3 }

/-- A destination account holding 1000 units of the NFT of `tokenA` at nonce 1, hash `[9]`. -/
def nftDestination : Account :=
  accountWith [1, 0] (computeDCTNFTTokenKey (prefixA ++ tokenA) 1)
    (codecBytes (nftRecord 1000 1 [9] [5]))

/-! ## The preconditions of local burn, in the words of the specification -/

/-- Section 4.4, "checked in order, first failure wins": zero call value, at least 2 arguments,
caller == recipient, caller account present, positive amount, sufficient gas, and then the
local-burn role.  Returns the error of the first check that fails. -/
def localBurnFirstFailure (e : dctLocalBurn) (acntSnd : Option Account)
    (vmInput : ContractCallInput) (callValue : Int) : Option Error :=
  if callValue ≠ 0 then some .ErrBuiltInFunctionCalledWithValue
  else if vmInput.Arguments.length < 2 then some .ErrInvalidArguments
  else if vmInput.CallerAddr ≠ vmInput.RecipientAddr then some .ErrInvalidRcvAddr
  else
    match acntSnd with
    | none => some .ErrNilUserAccount
    | some acnt =>
      if bigSetBytes (vmInput.Arguments.getD 1 []) = 0 then some .ErrNegativeValue
      else if vmInput.GasProvided < e.funcGasCost then some .ErrNotEnoughGas
      else e.CheckAllowedToExecute acnt (vmInput.Arguments.getD 0 []) e.DCTRoleLocalBurn

/-! ## The validation of a same-shard initiation -/

/-- The checks `processDCTNFTMultiTransferOnSenderShard` makes on its input before it loads the
destination account and enters the transfer loop (destination length, self-transfer, metachain
shard, zero transfer count, argument count, gas for `n` transfers), as one function returning
the error of the first check that fails. -/
def senderShardValidationFailure (e : dctNFTMultiTransfer) (vmInput : ContractCallInput) :
    Option Error :=
  let dstAddress := vmInput.Arguments.getD 0 []
  let numOfTransfers := toUint64 (bigSetBytes (vmInput.Arguments.getD 1 []))
  if dstAddress.length ≠ vmInput.CallerAddr.length then some .ErrInvalidArguments
  else if dstAddress = vmInput.CallerAddr then some .ErrInvalidArguments
  else if e.ComputeId dstAddress = e.MetachainShardId then some .ErrInvalidRcvAddr
  else if numOfTransfers = 0 then some .ErrInvalidArguments
  else if vmInput.Arguments.length < u64add (u64mul numOfTransfers argumentsPerTransfer) 2 then
    some .ErrInvalidArguments
  else if vmInput.GasProvided < u64mul numOfTransfers e.funcGasCost then some .ErrNotEnoughGas
  else none

/-! ## Gas accounting of a same-shard initiation -/

/-- The gas limit attached to the forwarded frames of an output: the sum of the gas limits of
its output transfers. -/
def forwardedGasLimit (out : VMOutput) : Nat :=
  (out.OutputAccounts.map
    (fun entry => (entry.2.OutputTransfers.map (fun transfer => transfer.GasLimit)).sum)).sum

/-- The length of the marshaled form of a record (0 when marshaling fails). -/
def marshaledLength (e : dctNFTMultiTransfer) (d : DCToken) : Nat :=
  match e.marshalizer.Marshal d with
  | .ok marshaled => marshaled.length
  | .error _ => 0

/-- The data-copy cost over the natural numbers: the sum, over the records carrying NFT
metadata, of `len(marshaled record) * DataCopyPerByte`. -/
def dataCopyCost (e : dctNFTMultiTransfer) (records : List DCToken) : Nat :=
  (records.map (fun d =>
    match d.TokenMetaData with
    | some _ => marshaledLength e d * e.DataCopyPerByte
    | none => 0)).sum

/-- The records a same-shard initiation hands to `createDCTNFTOutputTransfers`: the list
`listDctData` built by the transfer loop. -/
def dctNFTMultiTransfer.transferredRecords (e : dctNFTMultiTransfer) (acntSnd : Option Account)
    (vmInput : ContractCallInput) : List DCToken :=
  let dstAddress := vmInput.Arguments.getD 0 []
  let numOfTransfers := toUint64 (bigSetBytes (vmInput.Arguments.getD 1 []))
  let minNumOfArguments := u64add (u64mul numOfTransfers argumentsPerTransfer) 2
  match e.loadAccountIfInShard dstAddress with
  | .error _ => []
  | .ok acntDst =>
    (e.senderShardLoop vmInput dstAddress (e.mustVerifyPayable vmInput minNumOfArguments)
      numOfTransfers 0 ⟨acntSnd, acntDst, [], [], []⟩).2.listDctData

/-- The instance `transferA` with function cost 2^63. -/
def transferCostly : dctNFTMultiTransfer :=
  { transferA with funcGasCost := 2 ^ 63 }

/-- A multi-transfer instance on shard 2 of several (the shard of an address is its first
byte): function cost 10, data-copy cost 2 per byte, every address a smart contract. -/
def transferB : dctNFTMultiTransfer :=
  { transferA with
    funcGasCost := 10, DataCopyPerByte := 2, SelfId := 2,
    ComputeId := fun address => (address.headD 0).val,
    IsSmartContractAddress := fun _ => true }

/-- The output of a successful call (a given fallback otherwise). -/
def Result.getD {α : Type} (r : Result α) (fallback : α) : α :=
  match r with
  | .ok value => value
  | .error _ => fallback

/-- An output with no gas, no output account and no log entry. -/
def emptyOutput : VMOutput :=
  { ReturnCode := Ok, GasRemaining := 0, OutputAccounts := [], Logs := [] }

/-- A call of `transferB`: one NFT of `tokenA` (nonce 1, quantity 1) sent from shard 2 to the
address `[1, 0]` of shard 1, followed by a secondary call, with 1000 units of gas. -/
def inputB : ContractCallInput :=
  selfCall [[1, 0], [1], tokenA, [1], [1], [102], [7]] 1000

/-! ## Further concrete instances -/

/-- A freeze instance (target state frozen); the system address is `[255]`. -/
def freezeA : dctFreezeWipe :=
  { wipeA with wipe := false, freeze := true }

/-- An account holding, at the key of nonce 1 of `tokenA`, a record without metadata. -/
def plainHolder : Account :=
  accountWith [2, 2] (computeDCTNFTTokenKey (prefixA ++ tokenA) 1)
    (codecBytes (fungibleRecord 3 []))

/-- The log entry a wipe emits: the wipe function, the caller, and as topics the tokenID, the
zero amount and the wiped account's address. -/
def wipeLogEntry (e : dctFreezeWipe) (caller tokenID address : Bytes) : LogEntry :=
  { Identifier := e.BuiltInFunctionDCTWipe, Address := caller,
    Topics := [tokenID, bigBytes 0, address], Data := [] }

/-- A record with its properties replaced by the user metadata of the given frozen state: value,
kind and metadata are kept. -/
def withFrozen (dctData : DCToken) (frozen : Bool) : DCToken :=
  { TokenType := dctData.TokenType, Value := dctData.Value,
    Properties := (DCTUserMetadata.mk frozen).ToBytes, TokenMetaData := dctData.TokenMetaData }

/-- The nonce under which a record is stored: the nonce of its metadata, 0 without metadata
(the computation at the head of `addNFTToDestination`, lines 446-449). -/
def recordNonce (dctData : DCToken) : Nat :=
  match dctData.TokenMetaData with
  | some metaData => metaData.Nonce
  | none => 0

/-- A cross-shard delivery call from `[2, 2]` to `[1, 0]` with the given arguments. -/
def crossCall (arguments : List Bytes) : ContractCallInput :=
  { CallerAddr := [2, 2], RecipientAddr := [1, 0], CallValue := some 0, Arguments := arguments,
    GasProvided := 0, GasLocked := 0, CallType := 0, ReturnCallAfterError := false }

/-- The instance `transferB` as it runs on shard 1, the shard of the address `[1, 0]`. -/
def transferDest : dctNFTMultiTransfer :=
  { transferB with SelfId := 1 }

/-- The log entry a multi-asset transfer emits for one asset. -/
def transferLogEntry (e : dctNFTMultiTransfer) (caller tokenID : Bytes) (nonce : Nat)
    (address : Bytes) : LogEntry :=
  { Identifier := e.BuiltInFunctionMultiDCTNFTTransfer, Address := caller,
    Topics := [tokenID, bigBytes nonce, address], Data := [] }

/-- The record `addNFTToDestination` stores (lines 460-465): the incoming record, its value
increased by the existing value when the existing record carries metadata. -/
def mergedRecord (incoming current : DCToken) : DCToken :=
  match current.TokenMetaData with
  | some _ => { incoming with Value := incoming.Value + current.Value }
  | none => incoming

/-- A destination account holding, at the key of nonce 1 of `tokenA`, a frozen record of value 0
without metadata. -/
def frozenDestination : Account :=
  accountWith [1, 0] (computeDCTNFTTokenKey (prefixA ++ tokenA) 1)
    (codecBytes (fungibleRecord 0 (DCTUserMetadata.mk true).ToBytes))

/-- The instance `transferA` with an accounts adapter that holds `frozenDestination`. -/
def transferFrozen : dctNFTMultiTransfer :=
  { transferA with LoadAccount := fun _ => .ok (.user frozenDestination) }

/-- A call from the system address with the given arguments and gas. -/
def systemCallWithGas (arguments : List Bytes) (gas : Nat) : ContractCallInput :=
  { systemCall arguments with GasProvided := gas }

/-- A destination account holding a frozen fungible balance of 7 of `tokenA`. -/
def frozenHolder : Account :=
  accountWith [1, 0] (prefixA ++ tokenA) (codecBytes (fungibleRecord 7 [1, 0]))

/-- A cross-shard delivery call from `[2, 2]` to `[1, 0]` with the given arguments and gas. -/
def crossCallWithGas (arguments : List Bytes) (gas : Nat) : ContractCallInput :=
  { crossCall arguments with GasProvided := gas }

/-! ## Gas configuration (`SetNewGasConfig`) -/

/-- The Go struct `vmcommon.BaseOperationCost`, declared outside the sources: the per-byte costs
the functions read. -/
structure BaseOperationCost where
  StorePerByte : Nat
  DataCopyPerByte : Nat

/-- The Go struct `vmcommon.BuiltInCost`, declared outside the sources: the entries the
functions read. -/
structure BuiltInCost where
  DCTLocalBurn : Nat
  DCTNFTUpdateAttributes : Nat
  DCTNFTMultiTransfer : Nat

/-- The Go struct `vmcommon.GasCost`, declared outside the sources. -/
structure GasCost where
  BaseOperationCost : BaseOperationCost
  BuiltInCost : BuiltInCost

/-- The method `(*dctLocalBurn).SetNewGasConfig`; a nil configuration is `none`. -/
def dctLocalBurn.SetNewGasConfig (e : dctLocalBurn) (gasCost : Option GasCost) : dctLocalBurn :=
  match gasCost with
  | none => e
  | some gasCost => { e with funcGasCost := gasCost.BuiltInCost.DCTLocalBurn }

/-- The method `(*dctNFTupdate).SetNewGasConfig`.  The assignment
`e.gasConfig = gasCost.BaseOperationCost` replaces the whole per-byte configuration, of which
the struct keeps the field the function reads, `StorePerByte`. -/
def dctNFTupdate.SetNewGasConfig (e : dctNFTupdate) (gasCost : Option GasCost) : dctNFTupdate :=
  match gasCost with
  | none => e
  | some gasCost =>
    { e with funcGasCost := gasCost.BuiltInCost.DCTNFTUpdateAttributes
             StorePerByte := gasCost.BaseOperationCost.StorePerByte }

/-- The method `(*dctNFTMultiTransfer).SetNewGasConfig`.  The assignment
`e.gasConfig = gasCost.BaseOperationCost` replaces the whole per-byte configuration, of which
the struct keeps the field the function reads, `DataCopyPerByte`. -/
def dctNFTMultiTransfer.SetNewGasConfig (e : dctNFTMultiTransfer) (gasCost : Option GasCost) :
    dctNFTMultiTransfer :=
  match gasCost with
  | none => e
  | some gasCost =>
    { e with funcGasCost := gasCost.BuiltInCost.DCTNFTMultiTransfer
             DataCopyPerByte := gasCost.BaseOperationCost.DataCopyPerByte }

/-- The method `(*dctFreezeWipe).SetNewGasConfig`, whose body is empty. -/
def dctFreezeWipe.SetNewGasConfig (e : dctFreezeWipe) (_gasCost : Option GasCost) :
    dctFreezeWipe := e

/-! ## Call-frame codec (`atArgumentParser`) -/

/-- The separator `@`. -/
def atSeparator : Fin 256 := 64

/-- The value of `strings.Split(data, "@")`: the segments between the separators, in order;
there is always at least one (the empty string has the single empty segment). -/
def stringsSplit : Bytes → List Bytes
  | [] => [[]]
  | c :: rest =>
    if c = atSeparator then [] :: stringsSplit rest
    else
      match stringsSplit rest with
      | [] => [[c]]
      | segment :: segments => (c :: segment) :: segments

/-- The string made of the given segments joined by `@`. -/
def joinSegments : List Bytes → Bytes
  | [] => []
  | [segment] => segment
  | segment :: rest => segment ++ atSeparator :: joinSegments rest

/-- The error values of the package of the parser. -/
inductive ParserError
  | ErrStringSplitFailed
  | ErrNilArguments
  | ErrNilCode
  | ErrNilFunction
  | ErrInvalidDataString
  deriving DecidableEq, Repr

/-- Modelled from the spec: the Go struct `atArgumentParser`, which is not among the sources
(only its tests are): the code and the arguments of the last successful parse, nil before. -/
structure atArgumentParser where
  arguments : Option (List Bytes)
  code : Option Bytes
  deriving DecidableEq, Repr

/-- Modelled from the spec: `NewAtArgumentParser`, which is not among the sources: a parser
that has parsed nothing yet. -/
def NewAtArgumentParser : atArgumentParser := { arguments := none, code := none }

/-- Modelled from the spec: `ParseData`, which is not among the sources.  Section 4.1: the
input is split on `@`; the first segment is the code and the segments after it are the
arguments; the parse fails with `ErrStringSplitFailed` when there is no segment or the first
one is empty, and then leaves the parser as it was (`TestAtArgumentParser_GetCodeEmpty`).  The
segments are kept as they are written, as the tests require: `GetCode` of `bbbbbbbb@aaaa` is
the text `bbbbbbbb`, and the segments `a` and `d` of `aaaa@a@bb@bc@d`, which are no
hexadecimal encodings, count as arguments. -/
def atArgumentParser.ParseData (p : atArgumentParser) (data : Bytes) :
    Option ParserError × atArgumentParser :=
  match stringsSplit data with
  | [] => (some .ErrStringSplitFailed, p)
  | code :: arguments =>
    if code = [] then (some .ErrStringSplitFailed, p)
    else (none, { arguments := some arguments, code := some code })

/-- Modelled from the spec: `GetArguments`, which is not among the sources: the arguments of
the last successful parse, or nil and `ErrNilArguments` before one.  The two components are the
two values the Go method returns. -/
def atArgumentParser.GetArguments (p : atArgumentParser) :
    Option (List Bytes) × Option ParserError :=
  match p.arguments with
  | none => (none, some .ErrNilArguments)
  | some arguments => (some arguments, none)

/-! ## NFT create-role transfer (`dctNFTCreateRoleTransfer.go`) -/

/-- The Go struct `dct.DCTRoles`: the role tags an account holds for a token. -/
structure DCTRoles where
  Roles : List Bytes
  deriving DecidableEq, Repr

/-- The interface `vmcommon.Marshalizer`, restricted to role lists. -/
structure RolesMarshalizer where
  Marshal : DCTRoles → Result Bytes
  Unmarshal : Bytes → Result DCTRoles

/-- The Go struct `dctNFTCreateRoleTransfer`.  `LoadAccount`/`SaveAccount` and
`ComputeId`/`SelfId` are the accounts adapter and the shard coordinator.  The constants
`vmcommon.DCTSCAddress`, `roleKeyPrefix`, `vmcommon.DCTRoleNFTCreate` and
`vmcommon.BuiltInFunctionDCTNFTCreateRoleTransfer` and the key function `getNonceKey` are
declared outside the sources and are taken as they are.  `sameObjectPerAddress` says whether
the accounts adapter keeps one account object per address, as the adapter of the tests does
(`multiDCTNFTTransfer_test.go`, lines 40-48): `LoadAccount` of the address of the account
passed in then hands out that very object, and not a separate copy of it. -/
structure dctNFTCreateRoleTransfer where
  keyPrefix : Bytes
  marshalizer : RolesMarshalizer
  LoadAccount : Bytes → Result AccountHandler
  SaveAccount : Account → Option Error
  sameObjectPerAddress : Bool
  ComputeId : Bytes → Nat
  SelfId : Nat
  DCTSCAddress : Bytes
  roleKeyPrefix : Bytes
  getNonceKey : Bytes → Bytes
  DCTRoleNFTCreate : Bytes
  BuiltInFunctionDCTNFTCreateRoleTransfer : Bytes

/-- Modelled from the spec: `getLatestNonce`, which is not among the sources.  Section 3 and
`readNFTData` of the tests: the latest-nonce counter is stored at the nonce key as the
big-endian bytes of the nonce; nothing stored reads as 0. -/
def getLatestNonce (getNonceKey : Bytes → Bytes) (acnt : Account) (tokenID : Bytes) :
    Result Nat :=
  let nonceData := acnt.RetrieveValue (getNonceKey tokenID)
  if nonceData = [] then .ok 0 else .ok (toUint64 (bigSetBytes nonceData))

/-- Modelled from the spec: `saveLatestNonce`, which is not among the sources: the big-endian
bytes of the nonce are written at the nonce key (the write of the in-memory map cannot fail). -/
def saveLatestNonce (getNonceKey : Bytes → Bytes) (acnt : Account) (tokenID : Bytes)
    (nonce : Nat) : Account :=
  acnt.SaveKeyValue (getNonceKey tokenID) (bigBytes nonce)

/-- Modelled from the spec: `getDCTRolesForAcnt`, which is not among the sources: the role list
stored at the role key, or the empty list (flagged as new) when nothing is stored there. -/
def getDCTRolesForAcnt (m : RolesMarshalizer) (acnt : Account) (key : Bytes) :
    Result (DCTRoles × Bool) :=
  let marshaledData := acnt.RetrieveValue key
  if marshaledData = [] then .ok ({ Roles := [] }, true)
  else
    match m.Unmarshal marshaledData with
    | .error err => .error err
    | .ok roles => .ok (roles, false)

/-- Modelled from the spec: `deleteRoles`, which is not among the sources.  Section 4.8,
"strip the create-role": each role to delete is taken out of the list, where a role set holds
it once (section 3). -/
def deleteRoles (roles : DCTRoles) (toDelete : List Bytes) : DCTRoles :=
  { Roles := toDelete.foldl (fun remaining role => remaining.erase role) roles.Roles }

/-- The function `saveRolesToAccount`. -/
def saveRolesToAccount (acntDst : Account) (dctTokenRoleKey : Bytes) (roles : DCTRoles)
    (marshalizer : RolesMarshalizer) : Result Account :=
  match marshalizer.Marshal roles with
  | .error err => .error err
  | .ok marshaledData => .ok (acntDst.SaveKeyValue dctTokenRoleKey marshaledData)

/-- The method `(*dctNFTCreateRoleTransfer).deleteCreateRoleFromAccount`. -/
def dctNFTCreateRoleTransfer.deleteCreateRoleFromAccount (e : dctNFTCreateRoleTransfer)
    (acntDst : Account) (dctTokenRoleKey : Bytes) : Result Account :=
  match getDCTRolesForAcnt e.marshalizer acntDst dctTokenRoleKey with
  | .error err => .error err
  | .ok (roles, _) =>
    saveRolesToAccount acntDst dctTokenRoleKey (deleteRoles roles [e.DCTRoleNFTCreate])
      e.marshalizer

/-- The method `(*dctNFTCreateRoleTransfer).addCreateRoleToAccount`. -/
def dctNFTCreateRoleTransfer.addCreateRoleToAccount (e : dctNFTCreateRoleTransfer)
    (acntDst : Account) (dctTokenRoleKey : Bytes) : Result Account :=
  match getDCTRolesForAcnt e.marshalizer acntDst dctTokenRoleKey with
  | .error err => .error err
  | .ok (roles, _) =>
    if e.DCTRoleNFTCreate ∈ roles.Roles then .ok acntDst
    else
      saveRolesToAccount acntDst dctTokenRoleKey
        { Roles := roles.Roles ++ [e.DCTRoleNFTCreate] } e.marshalizer

/-- The forwarded frame of the role transfer: the function name, the tokenID and the nonce. -/
def roleTransferFrame (e : dctNFTCreateRoleTransfer) (caller destAddress tokenID : Bytes)
    (nonce : Nat) : OutputAccount :=
  { Address := destAddress,
    OutputTransfers :=
      [{ Value := 0, GasLimit := 0, GasLocked := 0,
         Data := e.BuiltInFunctionDCTNFTCreateRoleTransfer ++ [atSeparator] ++ hexEncode tokenID
           ++ [atSeparator] ++ hexEncode (bigBytes nonce),
         CallType := 0, SenderAddress := caller }] }

/-- The method `(*dctNFTCreateRoleTransfer).executeTransferNFTCreateChangeAtCurrentOwner`.
Returns, with the result, the account passed in as the call leaves it and the account handed
out by the accounts adapter, if one was loaded.  When the adapter keeps one object per address
and the destination is the address of the account passed in, the account handed out is the
account passed in itself, as the steps before left it, and what lines 125-135 write to it is
written to the account passed in. -/
def dctNFTCreateRoleTransfer.executeTransferNFTCreateChangeAtCurrentOwner
    (e : dctNFTCreateRoleTransfer) (acntDst : Account) (vmInput : ContractCallInput) :
    Result OutputAccount × Account × Option Account :=
  if vmInput.Arguments.length ≠ 2 then (.error .ErrInvalidArguments, acntDst, none)
  else if (vmInput.Arguments.getD 1 []).length ≠ vmInput.CallerAddr.length then
    (.error .ErrInvalidArguments, acntDst, none)
  else
    let tokenID := vmInput.Arguments.getD 0 []
    match getLatestNonce e.getNonceKey acntDst tokenID with
    | .error err => (.error err, acntDst, none)
    | .ok nonce =>
      let zeroed := saveLatestNonce e.getNonceKey acntDst tokenID 0
      let dctTokenRoleKey := e.roleKeyPrefix ++ tokenID
      match e.deleteCreateRoleFromAccount zeroed dctTokenRoleKey with
      | .error err => (.error err, zeroed, none)
      | .ok stripped =>
        let destAddress := vmInput.Arguments.getD 1 []
        if e.ComputeId destAddress = e.SelfId then
          match e.LoadAccount destAddress with
          | .error errLoad => (.error errLoad, stripped, none)
          | .ok .other => (.error .ErrWrongTypeAssertion, stripped, none)
          | .ok (.user loaded) =>
            let newDestUserAcc := saveLatestNonce e.getNonceKey
              (if e.sameObjectPerAddress = true ∧ destAddress = acntDst.address then stripped
               else loaded) tokenID nonce
            match e.addCreateRoleToAccount newDestUserAcc dctTokenRoleKey with
            | .error err =>
              (.error err,
               if e.sameObjectPerAddress = true ∧ destAddress = acntDst.address then
                 newDestUserAcc
               else stripped,
               some newDestUserAcc)
            | .ok credited =>
              match e.SaveAccount credited with
              | some err =>
                (.error err,
                 if e.sameObjectPerAddress = true ∧ destAddress = acntDst.address then credited
                 else stripped,
                 some credited)
              | none =>
                (.ok (roleTransferFrame e vmInput.CallerAddr destAddress tokenID nonce),
                 if e.sameObjectPerAddress = true ∧ destAddress = acntDst.address then credited
                 else stripped,
                 some credited)
        else
          (.ok (roleTransferFrame e vmInput.CallerAddr destAddress tokenID nonce), stripped,
            none)

/-- The method `(*dctNFTCreateRoleTransfer).executeTransferNFTCreateChangeAtNextOwner`; returns
the error, if any, with the account as the call leaves it. -/
def dctNFTCreateRoleTransfer.executeTransferNFTCreateChangeAtNextOwner
    (e : dctNFTCreateRoleTransfer) (acntDst : Account) (vmInput : ContractCallInput) :
    Option Error × Account :=
  if vmInput.Arguments.length ≠ 2 then (some .ErrInvalidArguments, acntDst)
  else
    let tokenID := vmInput.Arguments.getD 0 []
    let nonce := toUint64 (bigSetBytes (vmInput.Arguments.getD 1 []))
    let acntDst := saveLatestNonce e.getNonceKey acntDst tokenID nonce
    let dctTokenRoleKey := e.roleKeyPrefix ++ tokenID
    match e.addCreateRoleToAccount acntDst dctTokenRoleKey with
    | .error err => (some err, acntDst)
    | .ok acntDst => (none, acntDst)

/-- The accounts an NFT create-role transfer works on, as an invocation leaves them, with its
result: `acntDst` is the account passed in and `newDestination` the account loaded through the
accounts adapter, if one was loaded. -/
structure RoleTransferOutcome where
  result : Result VMOutput
  acntDst : Option Account
  newDestination : Option Account

/-- The method `(*dctNFTCreateRoleTransfer).ProcessBuiltinFunction`. -/
def dctNFTCreateRoleTransfer.ProcessBuiltinFunction (e : dctNFTCreateRoleTransfer)
    (acntSnd acntDst : Option Account) (vmInput : Option ContractCallInput) :
    RoleTransferOutcome :=
  match checkBasicDCTArguments vmInput with
  | .error err => ⟨.error err, acntDst, none⟩
  | .ok vmInput =>
    if acntSnd.isSome then ⟨.error .ErrInvalidArguments, acntDst, none⟩
    else
      match acntDst with
      | none => ⟨.error .ErrNilUserAccount, none, none⟩
      | some acnt =>
        if vmInput.CallerAddr = e.DCTSCAddress then
          match e.executeTransferNFTCreateChangeAtCurrentOwner acnt vmInput with
          | (.error errExec, acnt, newDestination) =>
            ⟨.error errExec, some acnt, newDestination⟩
          | (.ok outAcc, acnt, newDestination) =>
            ⟨.ok { ReturnCode := Ok, GasRemaining := 0,
                   OutputAccounts := [(outAcc.Address, outAcc)], Logs := [] },
             some acnt, newDestination⟩
        else
          match e.executeTransferNFTCreateChangeAtNextOwner acnt vmInput with
          | (some err, acnt) => ⟨.error err, some acnt, none⟩
          | (none, acnt) =>
            ⟨.ok { ReturnCode := Ok, GasRemaining := 0, OutputAccounts := [], Logs := [] },
             some acnt, none⟩

/-- An account holds the NFT-create role for a token: the role list stored at the role key
decodes and contains the role. -/
def dctNFTCreateRoleTransfer.holdsCreateRole (e : dctNFTCreateRoleTransfer) (acnt : Account)
    (tokenID : Bytes) : Prop :=
  ∃ roles isNew, getDCTRolesForAcnt e.marshalizer acnt (e.roleKeyPrefix ++ tokenID)
      = .ok (roles, isNew) ∧ e.DCTRoleNFTCreate ∈ roles.Roles

/-! ## Concrete instances of the role transfer -/

/-- Reads length-prefixed fields until the input is used up. -/
def getAllFields : Nat → Bytes → Option (List Bytes)
  | 0, b => if b = [] then some [] else none
  | fuel + 1, b =>
    if b = [] then some []
    else
      match getField b with
      | none => none
      | some (field, rest) =>
        match getAllFields fuel rest with
        | none => none
        | some fields => some (field :: fields)

/-- A marshalizer of role lists: the roles as length-prefixed fields, one after the other. -/
def rolesCodec : RolesMarshalizer :=
  { Marshal := fun roles =>
      if roles.Roles.all (fun role => role.length < 256) then
        .ok (roles.Roles.flatMap putField)
      else .error (.collaborator 1),
    Unmarshal := fun b =>
      match getAllFields b.length b with
      | some fields => .ok { Roles := fields }
      | none => .error (.collaborator 2) }

/-- An account holding nothing. -/
def emptyAccount (address : Bytes) : Account :=
  { address := address, data := fun _ => [] }

/-- A role-transfer instance on shard 1 (the shard of an address is its first byte); the system
address is `[255, 255]`, the accounts adapter holds an empty account at every address and hands
out separate copies. -/
def roleTransferA : dctNFTCreateRoleTransfer :=
  { keyPrefix := prefixA, marshalizer := rolesCodec,
    LoadAccount := fun address => .ok (.user (emptyAccount address)),
    SaveAccount := fun _ => none, sameObjectPerAddress := false,
    ComputeId := fun address => (address.headD 0).val, SelfId := 1,
    DCTSCAddress := [255, 255], roleKeyPrefix := [114],
    getNonceKey := fun tokenID => [110] ++ tokenID,
    DCTRoleNFTCreate := [99], BuiltInFunctionDCTNFTCreateRoleTransfer := [8] }

/-- The marshaled form of a role list under `rolesCodec` (empty if it fails). -/
def rolesBytes (roles : List Bytes) : Bytes :=
  match rolesCodec.Marshal { Roles := roles } with
  | .ok b => b
  | .error _ => []

/-- An account of shard 1 whose latest nonce for `tokenA` is 5 and whose roles for it are a
mint role `[109]` and the NFT-create role `[99]`. -/
def roleHolder : Account :=
  (accountWith [1, 7] ([110] ++ tokenA) (bigBytes 5)).SaveKeyValue ([114] ++ tokenA)
    (rolesBytes [[109], [99]])

/-- A call of the role transfer from the system address, naming the token and the new owner. -/
def roleTransferCall (destAddress : Bytes) : ContractCallInput :=
  { CallerAddr := [255, 255], RecipientAddr := [1, 7], CallValue := some 0,
    Arguments := [tokenA, destAddress], GasProvided := 0, GasLocked := 0, CallType := 0,
    ReturnCallAfterError := false }

/-- A call of the role transfer on the peer path, carrying the token and the nonce. -/
def rolePeerCall (nonce : Nat) : ContractCallInput :=
  { CallerAddr := [1, 7], RecipientAddr := [3, 0], CallValue := some 0,
    Arguments := [tokenA, bigBytes nonce], GasProvided := 0, GasLocked := 0, CallType := 0,
    ReturnCallAfterError := false }

/-- The account `roleHolder` after it lost the NFT-create role: nonce 0 and the mint role. -/
def roleHolderStripped : Account :=
  (roleHolder.SaveKeyValue ([110] ++ tokenA) []).SaveKeyValue ([114] ++ tokenA)
    (rolesBytes [[109]])

/-- The empty account at `address` after it gained the NFT-create role with nonce 5. -/
def newOwnerCredited (address : Bytes) : Account :=
  ((emptyAccount address).SaveKeyValue ([110] ++ tokenA) (bigBytes 5)).SaveKeyValue
    ([114] ++ tokenA) (rolesBytes [[99]])

/-! ## Call-frame codec: the getters and the storage-update codec -/

/-- Modelled from the spec: `GetCode`, which is not among the sources: the code of the last
successful parse, that is the first segment as it was written, or nil and `ErrNilCode` before
one (`TestAtArgumentParser_GetCode`, `TestAtArgumentParser_GetCodeEmpty`). -/
def atArgumentParser.GetCode (p : atArgumentParser) : Option Bytes × Option ParserError :=
  match p.code with
  | none => (none, some .ErrNilCode)
  | some code => (some code, none)

/-- Modelled from the spec: `GetFunction`, which is not among the sources: the empty text and
`ErrNilFunction` before a successful parse; after one, the text the test
`TestAtArgumentParser_GetFunction` expects, which for `bbbbbbbb@aaaa` is `bbbbbbbb`: the stored
code read as text. -/
def atArgumentParser.GetFunction (p : atArgumentParser) : Bytes × Option ParserError :=
  match p.code with
  | none => ([], some .ErrNilFunction)
  | some code => (code, none)

/-- The value of a hexadecimal digit, as `hex.DecodeString` reads it: `0`-`9`, `a`-`f` and
`A`-`F`; nothing for any other character. -/
def hexValue (c : Fin 256) : Option Nat :=
  if 48 ≤ c.val ∧ c.val ≤ 57 then some (c.val - 48)
  else if 97 ≤ c.val ∧ c.val ≤ 102 then some (c.val - 87)
  else if 65 ≤ c.val ∧ c.val ≤ 70 then some (c.val - 55)
  else none

/-- The value of `hex.DecodeString`: the bytes written by the pairs of digits, or nothing
(the error) when the length is odd or a character is no hexadecimal digit. -/
def hexDecode : Bytes → Option Bytes
  | [] => some []
  | [_] => none
  | high :: low :: rest =>
    match hexValue high, hexValue low, hexDecode rest with
    | some h, some l, some decoded =>
      some (⟨(h * 16 + l) % 256, Nat.mod_lt _ (by decide)⟩ :: decoded)
    | _, _, _ => none

/-- Modelled from the spec: the Go struct `StorageUpdate`, which is not among the sources: an
offset and the data stored at it. -/
structure StorageUpdate where
  Offset : Bytes
  Data : Bytes
  deriving DecidableEq, Repr

/-- Modelled from the spec: `CreateDataFromStorageUpdate`, which is not among the sources.
Section 4.1: `hex(offset)@hex(data)` for each update, joined by `@` in order; the empty string
for an empty or nil list. -/
def CreateDataFromStorageUpdate (storageUpdates : List StorageUpdate) : Bytes :=
  joinSegments (storageUpdates.flatMap (fun update =>
    [hexEncode update.Offset, hexEncode update.Data]))

/-- The updates written by successive offset/data pairs of segments, or nothing when a segment
fails to decode or one is left unpaired. -/
def decodeStorageUpdates : List Bytes → Option (List StorageUpdate)
  | [] => some []
  | [_] => none
  | offset :: data :: rest =>
    match hexDecode offset, hexDecode data, decodeStorageUpdates rest with
    | some o, some d, some updates => some ({ Offset := o, Data := d } :: updates)
    | _, _, _ => none

/-- Modelled from the spec: `GetStorageUpdates`, which is not among the sources.  Section 4.1:
the inverse of the encoder; it fails with `ErrStringSplitFailed` on the empty input and with
`ErrInvalidDataString` when the number of segments is not even or a segment fails to decode;
otherwise the updates are the successive offset/data pairs.  The two components are the two
values the Go method returns. -/
def GetStorageUpdates (data : Bytes) : Option (List StorageUpdate) × Option ParserError :=
  if data = [] then (none, some .ErrStringSplitFailed)
  else if (stringsSplit data).length % 2 ≠ 0 then (none, some .ErrInvalidDataString)
  else
    match decodeStorageUpdates (stringsSplit data) with
    | none => (none, some .ErrInvalidDataString)
    | some updates => (some updates, none)

/-! ## The checks of the NFT attribute update, in the words of the specification -/

/-- Section 4.7 with the order of `ProcessBuiltinFunction` (lines 91-124) as the specification
states it: the basic input checks (with `gasProvided < funcGasCost`), an argument count
different from 3, the update-attributes role, `gasProvided < funcGasCost + len(attributes) *
StorePerByte` over the natural numbers, a nonce equal to 0, and the lookup of the record.
Returns the error of the first check that fails. -/
def updateFirstFailure (e : dctNFTupdate) (acntSnd : Option Account)
    (vmInput : ContractCallInput) : Option Error :=
  match checkDCTNFTCreateBurnAddInput acntSnd (some vmInput) e.funcGasCost with
  | .error err => some err
  | .ok (acnt, _) =>
    if vmInput.Arguments.length ≠ 3 then some .ErrInvalidArguments
    else
      match e.CheckAllowedToExecute acnt (vmInput.Arguments.getD 0 [])
          e.DCTRoleNFTUpdateAttributes with
      | some err => some err
      | none =>
        if vmInput.GasProvided
            < e.funcGasCost + (vmInput.Arguments.getD 2 []).length * e.StorePerByte then
          some .ErrNotEnoughGas
        else if toUint64 (bigSetBytes (vmInput.Arguments.getD 1 [])) = 0 then
          some .ErrNFTDoesNotHaveMetadata
        else
          match getDCTNFTTokenOnSender acnt (e.keyPrefix ++ vmInput.Arguments.getD 0 [])
              (toUint64 (bigSetBytes (vmInput.Arguments.getD 1 []))) e.marshalizer with
          | .error err => some err
          | .ok _ => none

/-! ## The transfer loop of a same-shard initiation, triple by triple -/

/-- The state of the transfer loop of a same-shard initiation after its first `j` triples, with
the error that stopped it, if any: the loop of `processDCTNFTMultiTransferOnSenderShard` run for
`j` iterations from the sender account and the loaded destination. -/
def dctNFTMultiTransfer.stateAfter (e : dctNFTMultiTransfer) (acntSnd loaded : Option Account)
    (vmInput : ContractCallInput) (j : Nat) : Option Error × LoopState :=
  e.senderShardLoop vmInput (vmInput.Arguments.getD 0 [])
    (e.mustVerifyPayable vmInput
      (u64add (u64mul (toUint64 (bigSetBytes (vmInput.Arguments.getD 1 [])))
        argumentsPerTransfer) 2))
    j 0 ⟨acntSnd, loaded, [], [], []⟩

/-- The tokenID of the triple of index `j` of a same-shard initiation. -/
def tripleTokenID (vmInput : ContractCallInput) (j : Nat) : Bytes :=
  vmInput.Arguments.getD (2 + j * argumentsPerTransfer) []

/-- The nonce of the triple of index `j` of a same-shard initiation. -/
def tripleNonce (vmInput : ContractCallInput) (j : Nat) : Nat :=
  toUint64 (bigSetBytes (vmInput.Arguments.getD (2 + j * argumentsPerTransfer + 1) []))

/-- The quantity of the triple of index `j` of a same-shard initiation. -/
def tripleQuantity (vmInput : ContractCallInput) (j : Nat) : Int :=
  bigSetBytes (vmInput.Arguments.getD (2 + j * argumentsPerTransfer + 2) [])

/-- A same-shard call of two transfers that both name the NFT of `tokenA` at nonce 1, with the
given quantity bytes, towards the address `[1, 0]`. -/
def twoTriples (first second : Bytes) : ContractCallInput :=
  selfCall [[1, 0], [2], tokenA, [1], first, tokenA, [1], second] 100

/-! ## Local mint (`dctLocalMint.go`, of which only the tests are among the sources) -/

/-- Modelled from the spec: the Go struct `dctLocalMint`, which is not among the sources (its
tests are), with the fields of `dctLocalBurn`; `MaxLenForDCTIssueMint` is the longest amount,
in bytes, a mint accepts (the test rejects an amount of 101 bytes). -/
structure dctLocalMint where
  keyPrefix : Bytes
  marshalizer : Marshalizer
  IsPaused : Bytes → Bool
  CheckAllowedToExecute : Account → Bytes → Bytes → Option Error
  funcGasCost : Nat
  DCTRoleLocalMint : Bytes
  BuiltInFunctionDCTLocalMint : Bytes
  MaxLenForDCTIssueMint : Nat

/-- Modelled from the spec: `(*dctLocalMint).ProcessBuiltinFunction`, which is not among the
sources.  Section 4.4: the preconditions in order (zero call value, at least 2 arguments, a
positive amount, sufficient gas - checked by `checkInputArgumentsForLocalAction` of the
sources, the check of the local actions, which also wants caller == recipient and a present
account), then the local-mint role; an over-sized amount is an arguments error
(`TestDctLocalMint_ProcessBuiltinFunction_ShouldWork`); the effect is the amount added to the
value of the record at key(tokenID), and one log entry tagged with the function name, the
tokenID and the amount; the gas remaining is the gas provided less the function cost (section
4.3).  The second component is the sender account as the call leaves it. -/
def dctLocalMint.ProcessBuiltinFunction (e : dctLocalMint) (acntSnd : Option Account)
    (vmInput : Option ContractCallInput) : Result VMOutput × Option Account :=
  match checkInputArgumentsForLocalAction acntSnd vmInput e.funcGasCost with
  | .error err => (.error err, acntSnd)
  | .ok (acnt, vmInput) =>
    let tokenID := vmInput.Arguments.getD 0 []
    match e.CheckAllowedToExecute acnt tokenID e.DCTRoleLocalMint with
    | some err => (.error err, acntSnd)
    | none =>
      if (vmInput.Arguments.getD 1 []).length > e.MaxLenForDCTIssueMint then
        (.error .ErrInvalidArguments, acntSnd)
      else
        let value : Int := bigSetBytes (vmInput.Arguments.getD 1 [])
        let dctTokenKey := e.keyPrefix ++ tokenID
        match addToDCTBalance acnt dctTokenKey value e.marshalizer e.IsPaused
            vmInput.ReturnCallAfterError with
        | .error err => (.error err, acntSnd)
        | .ok acnt =>
          let vmOutput : VMOutput :=
            { ReturnCode := Ok
              GasRemaining := u64sub vmInput.GasProvided e.funcGasCost
              OutputAccounts := []
              Logs := [] }
          (.ok (addDCTEntryInVMOutput vmOutput e.BuiltInFunctionDCTLocalMint
            (vmInput.Arguments.getD 0 []) value [vmInput.CallerAddr]), some acnt)

/-- A local-mint instance with function cost 50, amounts of at most 100 bytes and a roles
handler that allows everything. -/
def mintA : dctLocalMint :=
  { keyPrefix := prefixA, marshalizer := codecMarshalizer, IsPaused := fun _ => false,
    CheckAllowedToExecute := fun _ _ _ => none, funcGasCost := 50,
    DCTRoleLocalMint := [10], BuiltInFunctionDCTLocalMint := [11],
    MaxLenForDCTIssueMint := 100 }

/-! ## NFT create (`dctNFTCreate.go`, of which only the tests are among the sources) -/

/-- The token kind `vmcommon.NonFungible`, declared outside the sources (the kinds are numbered
in the order Fungible, NonFungible, SemiFungible). -/
def NonFungible : Nat := 1

/-- Modelled from the spec: the Go struct `dctNFTCreate`, which is not among the sources (its
tests are).  `StorePerByte` is the per-byte cost of its gas configuration, `getNonceKey` the
key of the latest-nonce counter of a token, `MaxRoyalty` the upper bound of the royalties
(10000 in section 4.6). -/
structure dctNFTCreate where
  keyPrefix : Bytes
  marshalizer : Marshalizer
  IsPaused : Bytes → Bool
  CheckAllowedToExecute : Account → Bytes → Bytes → Option Error
  funcGasCost : Nat
  StorePerByte : Nat
  getNonceKey : Bytes → Bytes
  DCTRoleNFTCreate : Bytes
  MaxRoyalty : Nat

/-- Modelled from the spec: `(*dctNFTCreate).ProcessBuiltinFunction`, which is not among the
sources.  Section 4.6 and the order the tests exercise: the input checks of
`checkDCTNFTCreateBurnAddInput` (caller == recipient, account present, gas for the base cost),
at least 7 arguments, the NFT-create role, the gas for the base cost and the per-byte cost over
all arguments, royalties out of range being an arguments error; the effect is the latest-nonce
counter of the tokenID incremented (a 64-bit value) and a fresh record of kind NonFungible
stored at (tokenID, new nonce) with value = quantity and metadata from the arguments (name,
royalties, hash, attributes, URIs) with creator = caller.  The second component is the sender
account as the call leaves it. -/
def dctNFTCreate.ProcessBuiltinFunction (e : dctNFTCreate) (acntSnd : Option Account)
    (vmInput : Option ContractCallInput) : Result VMOutput × Option Account :=
  match checkDCTNFTCreateBurnAddInput acntSnd vmInput e.funcGasCost with
  | .error err => (.error err, acntSnd)
  | .ok (acnt, vmInput) =>
    if vmInput.Arguments.length < 7 then (.error .ErrInvalidArguments, acntSnd)
    else
      let tokenID := vmInput.Arguments.getD 0 []
      match e.CheckAllowedToExecute acnt tokenID e.DCTRoleNFTCreate with
      | some err => (.error err, acntSnd)
      | none =>
        match getLatestNonce e.getNonceKey acnt tokenID with
        | .error err => (.error err, acntSnd)
        | .ok nonce =>
          let totalLength := (vmInput.Arguments.map List.length).sum
          let gasToUse := u64add (u64mul totalLength e.StorePerByte) e.funcGasCost
          if vmInput.GasProvided < gasToUse then (.error .ErrNotEnoughGas, acntSnd)
          else
            let royalties := bigSetBytes (vmInput.Arguments.getD 3 [])
            if royalties > e.MaxRoyalty then (.error .ErrInvalidArguments, acntSnd)
            else
              let nextNonce := u64add nonce 1
              let dctData : DCToken :=
                { TokenType := NonFungible
                  Value := bigSetBytes (vmInput.Arguments.getD 1 [])
                  Properties := []
                  TokenMetaData := some
                    { Nonce := nextNonce
                      Name := vmInput.Arguments.getD 2 []
                      Creator := vmInput.CallerAddr
                      Royalties := royalties
                      Hash := vmInput.Arguments.getD 4 []
                      URIs := vmInput.Arguments.drop 6
                      Attributes := vmInput.Arguments.getD 5 [] } }
              match saveDCTNFTToken acnt (e.keyPrefix ++ tokenID) dctData e.marshalizer
                  e.IsPaused vmInput.ReturnCallAfterError with
              | .error err => (.error err, acntSnd)
              | .ok (_, acnt) =>
                let acnt := saveLatestNonce e.getNonceKey acnt tokenID nextNonce
                (.ok { ReturnCode := Ok
                       GasRemaining := u64sub vmInput.GasProvided gasToUse
                       OutputAccounts := []
                       Logs := [] }, some acnt)

/-- The record an NFT creation with the given input stores at the given nonce (section 4.6):
kind NonFungible, value = quantity, no properties, metadata from the arguments with
creator = caller. -/
def createdRecord (vmInput : ContractCallInput) (nonce : Nat) : DCToken :=
  { TokenType := NonFungible
    Value := bigSetBytes (vmInput.Arguments.getD 1 [])
    Properties := []
    TokenMetaData := some
      { Nonce := nonce
        Name := vmInput.Arguments.getD 2 []
        Creator := vmInput.CallerAddr
        Royalties := bigSetBytes (vmInput.Arguments.getD 3 [])
        Hash := vmInput.Arguments.getD 4 []
        URIs := vmInput.Arguments.drop 6
        Attributes := vmInput.Arguments.getD 5 [] } }

/-- Successive NFT creations on one account, each on the account the one before left; nothing
when one of them fails. -/
def dctNFTCreate.createAll (e : dctNFTCreate) : Account → List ContractCallInput → Option Account
  | acnt, [] => some acnt
  | acnt, vmInput :: rest =>
    match e.ProcessBuiltinFunction (some acnt) (some vmInput) with
    | (.ok _, some created) => e.createAll created rest
    | _ => none

/-- An NFT-create instance without gas costs, with a roles handler that allows everything and
royalties of at most 10000. -/
def createA : dctNFTCreate :=
  { keyPrefix := prefixA, marshalizer := codecMarshalizer, IsPaused := fun _ => false,
    CheckAllowedToExecute := fun _ _ _ => none, funcGasCost := 0, StorePerByte := 0,
    getNonceKey := fun tokenID => [110] ++ tokenID, DCTRoleNFTCreate := [99],
    MaxRoyalty := 10000 }

/-- A creation call on `tokenA` by the account `[2, 2]`: the given quantity, the name `[7]`,
royalties 100, the hash `[9]`, the attributes `[5]` and one URI. -/
def createCall (quantity : Bytes) : ContractCallInput :=
  selfCall [tokenA, quantity, [7], [100], [9], [5], [117]] 0

/-- The empty account `[2, 2]` after the creations `createCall [2]` and `createCall [3]`. -/
def createdTwice : Account :=
  ((((emptyAccount [2, 2]).SaveKeyValue (computeDCTNFTTokenKey (prefixA ++ tokenA) 1)
      (codecBytes (createdRecord (createCall [2]) 1))).SaveKeyValue ([110] ++ tokenA)
      (bigBytes 1)).SaveKeyValue (computeDCTNFTTokenKey (prefixA ++ tokenA) 2)
      (codecBytes (createdRecord (createCall [3]) 2))).SaveKeyValue ([110] ++ tokenA)
      (bigBytes 2)

/-! ## Instances of the guarded paths -/

/-- The instance `transferA` with a payable handler that refuses every destination. -/
def transferUnpayable : dctNFTMultiTransfer :=
  { transferA with IsPayable := fun _ => .ok false }

/-- A call by `[2, 2]` on `tokenA` whose `CallValue` is nil. -/
def nilValueCall : ContractCallInput :=
  { selfCall [tokenA] 0 with CallValue := none }

/-- A same-shard call of one transfer: 1 unit of the NFT of `tokenA` at nonce 2, towards the
address `[1, 0]`. -/
def absentTriple : ContractCallInput :=
  selfCall [[1, 0], [1], tokenA, [2], [1]] 100

/-- The instance `roleTransferA` with an accounts adapter that keeps one object per address. -/
def roleTransferShared : dctNFTCreateRoleTransfer :=
  { roleTransferA with sameObjectPerAddress := true }

/-! # Theorems -/

/-! ## Arithmetic of `uint64` -/

theorem u64sub_of_le {a b : Nat} (hb : b ≤ a) (ha : a < 2 ^ 64) : u64sub a b = a - b := by
  unfold u64sub
  have hb' : b % 2 ^ 64 = b := Nat.mod_eq_of_lt (by omega)
  rw [hb']
  have : a + 2 ^ 64 - b = (a - b) + 2 ^ 64 := by omega
  rw [this, Nat.add_mod_right]
  exact Nat.mod_eq_of_lt (by omega)

theorem u64mul_of_lt {a b : Nat} (h : a * b < 2 ^ 64) : u64mul a b = a * b := by
  unfold u64mul
  exact Nat.mod_eq_of_lt h

theorem u64add_of_lt {a b : Nat} (h : a + b < 2 ^ 64) : u64add a b = a + b := by
  unfold u64add
  exact Nat.mod_eq_of_lt h

/-! ## The shared input checks -/

theorem checkBasicDCTArguments_ok (vmInput : ContractCallInput)
    (hvalue : vmInput.CallValue = some 0) (hlen : 2 ≤ vmInput.Arguments.length) :
    checkBasicDCTArguments (some vmInput) = .ok vmInput := by
  have h : ¬ vmInput.Arguments.length < 2 := by omega
  simp [checkBasicDCTArguments, MinLenArgumentsDCTTransfer, hvalue, h]

theorem checkInputArgumentsForLocalAction_ok (acnt : Account) (vmInput : ContractCallInput)
    (funcGasCost : Nat)
    (hvalue : vmInput.CallValue = some 0) (hlen : 2 ≤ vmInput.Arguments.length)
    (haddr : vmInput.CallerAddr = vmInput.RecipientAddr)
    (hpos : 0 < bigSetBytes (vmInput.Arguments.getD 1 []))
    (hgas : funcGasCost ≤ vmInput.GasProvided) :
    checkInputArgumentsForLocalAction (some acnt) (some vmInput) funcGasCost
      = .ok (acnt, vmInput) := by
  have hg : ¬ vmInput.GasProvided < funcGasCost := by omega
  have hp : ¬ ((bigSetBytes (vmInput.Arguments.getD 1 []) : Nat) : Int) ≤ 0 := by omega
  simp only [checkInputArgumentsForLocalAction, checkBasicDCTArguments_ok vmInput hvalue hlen,
    haddr, ne_eq, not_true_eq_false, if_false, hg, hp]

/-! ## Wipe -/

/-- C6: a local-burn call that passes all checks, with held balance `b`, amount `a` with
`0 < a <= b`, function cost `c` and gas provided `g >= c`, succeeds, stores at key(tokenID) the
record with balance `b - a` (its marshaled form) and returns `gasRemaining = g - c`. -/
theorem localBurn_balance_and_gas (e : dctLocalBurn) (acnt : Account)
    (vmInput : ContractCallInput) (tokenID amount : Bytes) (rest : List Bytes)
    (dctData : DCToken) (marshaled : Bytes)
    (hvalue : vmInput.CallValue = some 0)
    (hargs : vmInput.Arguments = tokenID :: amount :: rest)
    (haddr : vmInput.CallerAddr = vmInput.RecipientAddr)
    (hrole : e.CheckAllowedToExecute acnt tokenID e.DCTRoleLocalBurn = none)
    (hread : getDCTDataFromKey acnt (e.keyPrefix ++ tokenID) e.marshalizer = .ok dctData)
    (hguard : checkFrozeAndPause e.IsPaused acnt.address (e.keyPrefix ++ tokenID) dctData
      vmInput.ReturnCallAfterError = .ok ())
    (hpos : 0 < bigSetBytes amount)
    (hle : (bigSetBytes amount : Int) ≤ dctData.Value)
    (hgas : e.funcGasCost ≤ vmInput.GasProvided)
    (hu64 : vmInput.GasProvided < 2 ^ 64)
    (hmarshal : e.marshalizer.Marshal
      { dctData with Value := dctData.Value - (bigSetBytes amount : Int) } = .ok marshaled) :
    e.ProcessBuiltinFunction (some acnt) (some vmInput)
      = (.ok (addDCTEntryInVMOutput
            { ReturnCode := Ok, GasRemaining := vmInput.GasProvided - e.funcGasCost,
              OutputAccounts := [], Logs := [] }
            e.BuiltInFunctionDCTLocalBurn tokenID (bigSetBytes amount) [vmInput.CallerAddr]),
         some (acnt.SaveKeyValue (e.keyPrefix ++ tokenID) marshaled)) := by
  have hneg : dctData.Value + -(bigSetBytes amount : Int)
      = dctData.Value - (bigSetBytes amount : Int) := by omega
  have hnn : ¬ dctData.Value - (bigSetBytes amount : Int) < 0 := by omega
  have hcheck := checkInputArgumentsForLocalAction_ok acnt vmInput e.funcGasCost hvalue
    (by simp [hargs]) haddr (by simpa [hargs] using hpos) hgas
  have h0 : vmInput.Arguments.getD 0 [] = tokenID := by simp [hargs]
  have h1 : vmInput.Arguments.getD 1 [] = amount := by simp [hargs]
  simp only [dctLocalBurn.ProcessBuiltinFunction, hcheck, h0, h1, hrole, addToDCTBalance, hread,
    hguard, hneg, hnn, saveDCTData, hmarshal, if_false, u64sub_of_le hgas hu64]

theorem localBurn_balance_and_gas_witness :
    (burnA.ProcessBuiltinFunction
        (some (accountWith [2, 2] (prefixA ++ tokenA) (codecBytes (fungibleRecord 100 []))))
        (some (selfCall [tokenA, [1]] 500)))
      = (.ok (addDCTEntryInVMOutput
            { ReturnCode := Ok, GasRemaining := 500 - 50, OutputAccounts := [], Logs := [] }
            burnA.BuiltInFunctionDCTLocalBurn tokenA (bigSetBytes [1]) [[2, 2]]),
         some ((accountWith [2, 2] (prefixA ++ tokenA) (codecBytes (fungibleRecord 100 []))).SaveKeyValue
            (prefixA ++ tokenA) (codecBytes (fungibleRecord 99 [])))) :=
  localBurn_balance_and_gas burnA
    (accountWith [2, 2] (prefixA ++ tokenA) (codecBytes (fungibleRecord 100 [])))
    (selfCall [tokenA, [1]] 500) tokenA [1] [] (fungibleRecord 100 [])
    (codecBytes (fungibleRecord 99 []))
    rfl rfl rfl rfl (by decide) (by decide) (by decide) (by decide) (by decide) (by decide)
    (by decide)

/-- C8: local burn checks its preconditions in a fixed order and returns the error of the first
one that fails: non-zero call value, fewer than 2 arguments, caller != recipient, absent caller
account, amount not positive, gasProvided < funcGasCost, and only then the local-burn role
check; the account is left as it was. -/
theorem localBurn_first_failure (e : dctLocalBurn) (acntSnd : Option Account)
    (vmInput : ContractCallInput) (callValue : Int) (err : Error)
    (hvalue : vmInput.CallValue = some callValue)
    (hfail : localBurnFirstFailure e acntSnd vmInput callValue = some err) :
    e.ProcessBuiltinFunction acntSnd (some vmInput) = (.error err, acntSnd) := by
  have hcast : ∀ n : Nat, ((n : Int) ≤ 0) = (n = 0) := fun n => by
    simp only [eq_iff_iff]; omega
  unfold localBurnFirstFailure at hfail
  unfold dctLocalBurn.ProcessBuiltinFunction checkInputArgumentsForLocalAction
    checkBasicDCTArguments
  simp only [hvalue, MinLenArgumentsDCTTransfer, hcast]
  by_cases h1 : callValue ≠ 0
  · rw [if_pos h1] at hfail ⊢
    cases hfail; rfl
  · rw [if_neg h1] at hfail ⊢
    by_cases h2 : vmInput.Arguments.length < 2
    · rw [if_pos h2] at hfail ⊢
      cases hfail; rfl
    · rw [if_neg h2] at hfail ⊢
      by_cases h3 : vmInput.CallerAddr ≠ vmInput.RecipientAddr
      · rw [if_pos h3] at hfail
        simp only [if_pos h3]
        cases hfail; rfl
      · rw [if_neg h3] at hfail
        simp only [if_neg h3]
        cases acntSnd with
        | none => cases hfail; rfl
        | some acnt =>
          simp only at hfail ⊢
          by_cases h4 : bigSetBytes (vmInput.Arguments.getD 1 []) = 0
          · rw [if_pos h4] at hfail
            simp only [if_pos h4]
            cases hfail; rfl
          · rw [if_neg h4] at hfail
            simp only [if_neg h4]
            by_cases h5 : vmInput.GasProvided < e.funcGasCost
            · rw [if_pos h5] at hfail
              simp only [if_pos h5]
              cases hfail; rfl
            · rw [if_neg h5] at hfail
              simp only [if_neg h5, hfail]

theorem localBurn_first_failure_witness :
    localBurnFirstFailure burnA
        (some (accountWith [2, 2] (prefixA ++ tokenA) (codecBytes (fungibleRecord 100 []))))
        (selfCall [tokenA, [1]] 49) 0 = some .ErrNotEnoughGas ∧
    burnA.ProcessBuiltinFunction
        (some (accountWith [2, 2] (prefixA ++ tokenA) (codecBytes (fungibleRecord 100 []))))
        (some (selfCall [tokenA, [1]] 49))
      = (.error .ErrNotEnoughGas,
         some (accountWith [2, 2] (prefixA ++ tokenA) (codecBytes (fungibleRecord 100 [])))) :=
  ⟨by decide,
   localBurn_first_failure burnA
    (some (accountWith [2, 2] (prefixA ++ tokenA) (codecBytes (fungibleRecord 100 []))))
    (selfCall [tokenA, [1]] 49) 0 .ErrNotEnoughGas rfl (by decide)⟩

/-! ## NFT attribute update -/

theorem checkDCTNFTCreateBurnAddInput_eq_ok {account : Option Account}
    {vmInput v : ContractCallInput} {funcGasCost : Nat} {acnt : Account}
    (h : checkDCTNFTCreateBurnAddInput account (some vmInput) funcGasCost = .ok (acnt, v)) :
    v = vmInput ∧ account = some acnt ∧ funcGasCost ≤ vmInput.GasProvided := by
  unfold checkDCTNFTCreateBurnAddInput checkBasicDCTArguments at h
  cases hv : vmInput.CallValue with
  | none => simp [hv] at h
  | some callValue =>
    simp only [hv] at h
    by_cases h1 : callValue ≠ 0
    · simp [h1] at h
    · by_cases h2 : vmInput.Arguments.length < MinLenArgumentsDCTTransfer
      · simp [h1, h2] at h
      · by_cases h3 : vmInput.CallerAddr ≠ vmInput.RecipientAddr
        · simp [h1, h2, h3] at h
        · cases account with
          | none => simp [h1, h2, h3] at h
          | some a =>
            by_cases h4 : vmInput.GasProvided < funcGasCost
            · simp [h1, h2, h3, h4] at h
            · simp only [h1, h2, h3, h4, if_false, Result.ok.injEq, Prod.mk.injEq] at h
              obtain ⟨rfl, rfl⟩ := h
              exact ⟨rfl, rfl, by omega⟩

/-- C9 fails on the code: with a per-byte store cost of 2^63 and two attribute bytes the
product wraps to 0, so a call with 10 units of gas succeeds with `gasRemaining = 10` although
the cost over the natural numbers is 2^64. -/
theorem updateAttributes_gas_wraps :
    (updateWrap.ProcessBuiltinFunction (some nftHolder)
        (some (selfCall [tokenA, [1], [7, 7]] 10))).1
      = .ok { ReturnCode := Ok, GasRemaining := 10, OutputAccounts := [],
              Logs := [newEntryForNFT [5] [2, 2] tokenA 1] } ∧
    10 + updateWrap.funcGasCost + ([7, 7] : Bytes).length * updateWrap.StorePerByte ≠ 10 ∧
    10 < updateWrap.funcGasCost + ([7, 7] : Bytes).length * updateWrap.StorePerByte := by
  decide

/-- C9, amended: when `funcGasCost + len(newAttributes) * StorePerByte` is below 2^64, every
successful NFT attribute update satisfies
`gasRemaining + funcGasCost + len(newAttributes) * StorePerByte = gasProvided` over the natural
numbers, and a call with zero call value, caller == recipient, a present account, exactly 3
arguments and the role granted fails with `ErrNotEnoughGas`, writing nothing, whenever
`gasProvided` is smaller than that cost. -/
theorem updateAttributes_gas_exact (e : dctNFTupdate) (acntSnd : Option Account)
    (vmInput : ContractCallInput) (tokenID nonce attributes : Bytes)
    (hargs : vmInput.Arguments = [tokenID, nonce, attributes])
    (hnowrap : e.funcGasCost + attributes.length * e.StorePerByte < 2 ^ 64)
    (hu64 : vmInput.GasProvided < 2 ^ 64) :
    (∀ out acnt', e.ProcessBuiltinFunction acntSnd (some vmInput) = (.ok out, acnt') →
        out.GasRemaining + e.funcGasCost + attributes.length * e.StorePerByte
          = vmInput.GasProvided) ∧
    (∀ acnt, acntSnd = some acnt → vmInput.CallValue = some 0 →
        vmInput.CallerAddr = vmInput.RecipientAddr →
        e.CheckAllowedToExecute acnt tokenID e.DCTRoleNFTUpdateAttributes = none →
        vmInput.GasProvided < e.funcGasCost + attributes.length * e.StorePerByte →
        e.ProcessBuiltinFunction acntSnd (some vmInput) = (.error .ErrNotEnoughGas, acntSnd)) := by
  have hmul : u64mul attributes.length e.StorePerByte = attributes.length * e.StorePerByte :=
    u64mul_of_lt (by omega)
  have hadd : u64add e.funcGasCost (attributes.length * e.StorePerByte)
      = e.funcGasCost + attributes.length * e.StorePerByte := u64add_of_lt hnowrap
  have h2 : vmInput.Arguments.getD 2 [] = attributes := by simp [hargs]
  have h0 : vmInput.Arguments.getD 0 [] = tokenID := by simp [hargs]
  have hlen : vmInput.Arguments.length = 3 := by simp [hargs]
  constructor
  · intro out acnt' h
    unfold dctNFTupdate.ProcessBuiltinFunction at h
    cases hc : checkDCTNFTCreateBurnAddInput acntSnd (some vmInput) e.funcGasCost with
    | error err => simp [hc] at h
    | ok p =>
      obtain ⟨acnt, v⟩ := p
      obtain ⟨rfl, -, hge⟩ := checkDCTNFTCreateBurnAddInput_eq_ok hc
      simp only [hc, hlen, ne_eq, not_true_eq_false, if_false, h2, h0, hmul, hadd] at h
      split at h
      · simp at h
      · split at h
        · simp at h
        · rename_i hgas
          split at h
          · simp at h
          · split at h
            · simp at h
            · split at h
              · simp at h
              · split at h
                · simp at h
                · simp only [Prod.mk.injEq, Result.ok.injEq] at h
                  obtain ⟨rfl, -⟩ := h
                  simp only
                  rw [u64sub_of_le hge hu64, u64sub_of_le (by omega) (by omega)]
                  omega
  · intro acnt hsome hvalue haddr hrole hlt
    subst hsome
    unfold dctNFTupdate.ProcessBuiltinFunction
    by_cases hbase : vmInput.GasProvided < e.funcGasCost
    · have hc : checkDCTNFTCreateBurnAddInput (some acnt) (some vmInput) e.funcGasCost
          = .error .ErrNotEnoughGas := by
        simp [checkDCTNFTCreateBurnAddInput, checkBasicDCTArguments_ok vmInput hvalue
          (by omega), haddr, hbase]
      simp only [hc]
    · have hc : checkDCTNFTCreateBurnAddInput (some acnt) (some vmInput) e.funcGasCost
          = .ok (acnt, vmInput) := by
        simp [checkDCTNFTCreateBurnAddInput, checkBasicDCTArguments_ok vmInput hvalue
          (by omega), haddr, hbase]
      simp only [hc, hlen, ne_eq, not_true_eq_false, if_false, h2, h0, hmul, hadd, hrole, hlt,
        if_true]

theorem updateAttributes_gas_exact_witness :
    (updateA.ProcessBuiltinFunction (some nftHolder)
        (some (selfCall [tokenA, [1], [7, 7]] 40))).1
      = .ok { ReturnCode := Ok, GasRemaining := 24, OutputAccounts := [],
              Logs := [newEntryForNFT [5] [2, 2] tokenA 1] } ∧
    24 + updateA.funcGasCost + ([7, 7] : Bytes).length * updateA.StorePerByte = 40 ∧
    updateA.ProcessBuiltinFunction (some nftHolder) (some (selfCall [tokenA, [1], [7, 7]] 15))
      = (.error .ErrNotEnoughGas, some nftHolder) :=
  ⟨by decide,
   (updateAttributes_gas_exact updateA (some nftHolder) (selfCall [tokenA, [1], [7, 7]] 40)
      tokenA [1] [7, 7] rfl (by decide) (by decide)).1
      { ReturnCode := Ok, GasRemaining := 24, OutputAccounts := [],
        Logs := [newEntryForNFT [5] [2, 2] tokenA 1] }
      (updateA.ProcessBuiltinFunction (some nftHolder)
        (some (selfCall [tokenA, [1], [7, 7]] 40))).2
      (Prod.ext (by decide) rfl),
   (updateAttributes_gas_exact updateA (some nftHolder) (selfCall [tokenA, [1], [7, 7]] 15)
      tokenA [1] [7, 7] rfl (by decide) (by decide)).2
      nftHolder rfl rfl rfl rfl (by decide)⟩

/-! ## Multi-asset transfer -/

/-- C1 does not hold on the code: a same-shard transfer of 1 unit of a fungible token (nonce 0)
from a sender holding 3 to a destination holding 5 succeeds, leaves the sender with 2 and the
destination with 1.  The sender's record decreases by 1 while the destination's record
decreases by 4: `addNFTToDestination` adds the existing value only when the existing record
carries metadata. -/
theorem sameShard_fungible_credit_overwrites :
    (transferA.ProcessBuiltinFunction (some senderA) none
        (some (selfCall [[1, 0], [1], tokenA, [], [1]] 100))).result
      = .ok { ReturnCode := Ok, GasRemaining := 99, OutputAccounts := [],
              Logs := [{ Identifier := [6], Address := [2, 2], Topics := [tokenA, [], [1, 0]],
                         Data := [] }] } ∧
    getDCTDataFromKey senderA (prefixA ++ tokenA) codecMarshalizer = .ok (fungibleRecord 3 []) ∧
    getDCTDataFromKey destinationA (prefixA ++ tokenA) codecMarshalizer
      = .ok (fungibleRecord 5 []) ∧
    (transferA.ProcessBuiltinFunction (some senderA) none
        (some (selfCall [[1, 0], [1], tokenA, [], [1]] 100))).acntSnd.map
        (fun acnt => getDCTDataFromKey acnt (prefixA ++ tokenA) codecMarshalizer)
      = some (.ok (fungibleRecord 2 [])) ∧
    (transferA.ProcessBuiltinFunction (some senderA) none
        (some (selfCall [[1, 0], [1], tokenA, [], [1]] 100))).acntDst.map
        (fun acnt => getDCTDataFromKey acnt (prefixA ++ tokenA) codecMarshalizer)
      = some (.ok (fungibleRecord 1 [])) := by
  decide

/-- C2 does not hold on the code: with the transfer count 0x5555555555555556 the product
`3 * n` wraps around 2^64, so the required minimum `3 * n + 2` is computed as 4 and a call with
5 arguments passes the argument-count validation although it carries fewer than `2 + 3 * n`
arguments; the call then panics when the per-transfer slices are allocated. -/
theorem senderShard_count_wraps :
    (selfCall [[1, 0], [85, 85, 85, 85, 85, 85, 85, 86], tokenA, [], [1]] 100).Arguments.length
      < 2 + 3 * toUint64 (bigSetBytes [85, 85, 85, 85, 85, 85, 85, 86]) ∧
    u64add (u64mul (toUint64 (bigSetBytes [85, 85, 85, 85, 85, 85, 85, 86]))
      argumentsPerTransfer) 2 = 4 ∧
    (transferWrap.ProcessBuiltinFunction (some senderA) none
        (some (selfCall [[1, 0], [85, 85, 85, 85, 85, 85, 85, 86], tokenA, [], [1]] 100))).result
      = .error .runtimePanic := by
  decide

theorem checkFrozeAndPause_value (IsPaused : Bytes → Bool) (address key : Bytes)
    (dctData : DCToken) (value : Int) (isReturnWithError : Bool) :
    checkFrozeAndPause IsPaused address key { dctData with Value := value } isReturnWithError
      = checkFrozeAndPause IsPaused address key dctData isReturnWithError := rfl

/-- C3 as stated does not hold on the code: the destination holds a record with metadata at
(tokenA, 1) with hash `[9]`, the payable check is required and the payable handler refuses the
destination.  `addNFTToDestination` returns `ErrAccountNotPayable` (lines 436-444) before it
reads the destination's record: for an incoming record with the other hash `[8]` the error is
not `ErrWrongNFTOnDestination`, and for an incoming record with the same hash nothing is
stored. -/
theorem addNFTToDestination_not_payable :
    getDCTNFTTokenOnDestination nftDestination (prefixA ++ tokenA) 1
        transferUnpayable.marshalizer = .ok (nftRecord 1000 1 [9] [5], false) ∧
    transferUnpayable.addNFTToDestination [1, 0] nftDestination (nftRecord 1 1 [8] [5])
        (prefixA ++ tokenA) true false = .error .ErrAccountNotPayable ∧
    transferUnpayable.addNFTToDestination [1, 0] nftDestination (nftRecord 1 1 [9] [5])
        (prefixA ++ tokenA) true false = .error .ErrAccountNotPayable :=
  ⟨by decide, rfl, rfl⟩

/-- C3, amended: when an NFT is credited to a destination that already holds a record with
metadata at the same (tokenID, nonce), and the destination passes the payable check (where one
is required) and the frozen/pause guards (on the record it holds and on the record to store),
`addNFTToDestination` fails with `ErrWrongNFTOnDestination` if the existing record's hash
differs from the incoming record's hash, and otherwise stores at the per-nonce key the incoming
record with value = existing value + incoming quantity. -/
theorem addNFTToDestination_existing_metadata (e : dctNFTMultiTransfer) (dstAddress : Bytes)
    (userAccount : Account) (dctDataToTransfer currentDCTData : DCToken)
    (metaData currentMetaData : MetaData) (dctTokenKey : Bytes)
    (mustVerifyPayable isReturnCallWithError : Bool)
    (hmeta : dctDataToTransfer.TokenMetaData = some metaData)
    (hpayable : mustVerifyPayable = true → e.IsPayable dstAddress = .ok true)
    (hcurrent : getDCTNFTTokenOnDestination userAccount dctTokenKey metaData.Nonce e.marshalizer
      = .ok (currentDCTData, false))
    (hcurrentMeta : currentDCTData.TokenMetaData = some currentMetaData)
    (hguard : checkFrozeAndPause e.IsPaused dstAddress dctTokenKey currentDCTData
      isReturnCallWithError = .ok ())
    (hguardSave : checkFrozeAndPause e.IsPaused userAccount.address dctTokenKey
      dctDataToTransfer isReturnCallWithError = .ok ()) :
    (currentMetaData.Hash ≠ metaData.Hash →
      e.addNFTToDestination dstAddress userAccount dctDataToTransfer dctTokenKey
        mustVerifyPayable isReturnCallWithError = .error .ErrWrongNFTOnDestination) ∧
    (currentMetaData.Hash = metaData.Hash → ∀ marshaled,
      e.marshalizer.Marshal
        { dctDataToTransfer with Value := dctDataToTransfer.Value + currentDCTData.Value }
        = .ok marshaled →
      e.addNFTToDestination dstAddress userAccount dctDataToTransfer dctTokenKey
        mustVerifyPayable isReturnCallWithError
        = .ok (userAccount.SaveKeyValue (computeDCTNFTTokenKey dctTokenKey metaData.Nonce)
                marshaled,
               { dctDataToTransfer with
                 Value := dctDataToTransfer.Value + currentDCTData.Value })) := by
  have hpay : (if mustVerifyPayable = true then
        match e.IsPayable dstAddress with
        | .error errIsPayable => Result.error errIsPayable
        | .ok isPayable => if (!isPayable) = true then .error .ErrAccountNotPayable else .ok ()
      else Result.ok ()) = .ok () := by
    cases mustVerifyPayable with
    | false => rfl
    | true => simp [hpayable rfl]
  obtain ⟨tokenType, value, properties, tokenMetaData⟩ := dctDataToTransfer
  simp only at hmeta
  subst hmeta
  have hguardMerged : checkFrozeAndPause e.IsPaused userAccount.address dctTokenKey
      { TokenType := tokenType, Value := value + currentDCTData.Value, Properties := properties,
        TokenMetaData := some metaData } isReturnCallWithError = .ok () := hguardSave
  constructor
  · intro hne
    unfold dctNFTMultiTransfer.addNFTToDestination
    simp only [hpay, hcurrent, hguard, hcurrentMeta, ne_eq, hne, not_false_eq_true, if_true]
  · intro heq marshaled hmarshal
    simp only at hmarshal
    unfold dctNFTMultiTransfer.addNFTToDestination
    simp only [hpay, hcurrent, hguard, hcurrentMeta, ne_eq, heq, not_true_eq_false,
      if_false, saveDCTNFTToken, hguardMerged, hmarshal]

theorem addNFTToDestination_existing_metadata_witness :
    getDCTNFTTokenOnDestination nftDestination (prefixA ++ tokenA) 1 transferA.marshalizer
      = .ok (nftRecord 1000 1 [9] [5], false) ∧
    transferA.addNFTToDestination [1, 0] nftDestination (nftRecord 1 1 [8] [5])
        (prefixA ++ tokenA) true false = .error .ErrWrongNFTOnDestination ∧
    transferA.addNFTToDestination [1, 0] nftDestination (nftRecord 1 1 [9] [5])
        (prefixA ++ tokenA) true false
      = .ok (nftDestination.SaveKeyValue (computeDCTNFTTokenKey (prefixA ++ tokenA) 1)
              (codecBytes (nftRecord 1001 1 [9] [5])),
             nftRecord 1001 1 [9] [5]) :=
  ⟨by decide,
   (addNFTToDestination_existing_metadata transferA [1, 0] nftDestination (nftRecord 1 1 [8] [5])
      (nftRecord 1000 1 [9] [5])
      { Nonce := 1, Name := [], Creator := [], Royalties := 0, Hash := [8], URIs := [],
        Attributes := [5] }
      { Nonce := 1, Name := [], Creator := [], Royalties := 0, Hash := [9], URIs := [],
        Attributes := [5] }
      (prefixA ++ tokenA) true false rfl (fun _ => rfl) (by decide) rfl (by decide)
      (by decide)).1 (by decide),
   (addNFTToDestination_existing_metadata transferA [1, 0] nftDestination (nftRecord 1 1 [9] [5])
      (nftRecord 1000 1 [9] [5])
      { Nonce := 1, Name := [], Creator := [], Royalties := 0, Hash := [9], URIs := [],
        Attributes := [5] }
      { Nonce := 1, Name := [], Creator := [], Royalties := 0, Hash := [9], URIs := [],
        Attributes := [5] }
      (prefixA ++ tokenA) true false rfl (fun _ => rfl) (by decide) rfl (by decide)
      (by decide)).2 rfl (codecBytes (nftRecord 1001 1 [9] [5])) (by decide)⟩

theorem argAt_eq_getD (args : List Bytes) (i : Nat) (h : i < args.length) :
    argAt args i = .ok (args.getD i []) := by
  unfold argAt
  rw [List.get?_eq_get h]
  simp [List.getElem?_eq_getElem h]

theorem ProcessBuiltinFunction_senderShard (e : dctNFTMultiTransfer)
    (acntSnd acntDst : Option Account) (vmInput : ContractCallInput)
    (hvalue : vmInput.CallValue = some 0) (hlen : 5 ≤ vmInput.Arguments.length)
    (haddr : vmInput.CallerAddr = vmInput.RecipientAddr) :
    e.ProcessBuiltinFunction acntSnd acntDst (some vmInput)
      = e.processDCTNFTMultiTransferOnSenderShard acntSnd vmInput := by
  have h5 : ¬ vmInput.Arguments.length < 5 := by omega
  unfold dctNFTMultiTransfer.ProcessBuiltinFunction
  simp only [checkBasicDCTArguments_ok vmInput hvalue (by omega), h5, if_false, haddr, if_true]

theorem transferOne_error_of_debit_error (e : dctNFTMultiTransfer)
    (acntSnd acntDst : Option Account) (dstAddress tokenID : Bytes) (nonce : Nat)
    (quantityToTransfer : Int) (verifyPayable isReturnCallWithError : Bool) (err : Error)
    (h : (e.transferOneTokenOnSenderShard acntSnd none dstAddress tokenID nonce
      quantityToTransfer verifyPayable isReturnCallWithError).result = .error err) :
    e.transferOneTokenOnSenderShard acntSnd acntDst dstAddress tokenID nonce
      quantityToTransfer verifyPayable isReturnCallWithError = ⟨.error err, acntSnd, acntDst⟩ := by
  unfold dctNFTMultiTransfer.transferOneTokenOnSenderShard at h ⊢
  by_cases hq : quantityToTransfer ≤ 0
  · simp only [hq, if_true] at h ⊢
    cases h; rfl
  · simp only [hq, if_false] at h ⊢
    cases acntSnd with
    | none =>
      simp only at h ⊢
      cases h; rfl
    | some snd =>
      simp only at h ⊢
      cases hget : getDCTNFTTokenOnSender snd (e.keyPrefix ++ tokenID) nonce e.marshalizer with
      | error err' =>
        simp only [hget] at h ⊢
        cases h; rfl
      | ok dctData =>
        simp only [hget] at h ⊢
        by_cases hv : dctData.Value < quantityToTransfer
        · simp only [hv, if_true] at h ⊢
          cases h; rfl
        · simp only [hv, if_false] at h ⊢
          cases hsave : saveDCTNFTToken snd (e.keyPrefix ++ tokenID)
              { dctData with Value := dctData.Value - quantityToTransfer } e.marshalizer
              e.IsPaused isReturnCallWithError with
          | error err' =>
            simp only [hsave] at h ⊢
            cases h; rfl
          | ok p =>
            simp only [hsave] at h
            cases h

/-- C4, amended: a same-shard-initiated multi-asset transfer that returns an error from its
validation (destination length, self-transfer, metachain shard, zero count, argument count, gas
for `n` transfers), from loading the destination account, or from the debit of its first triple
(zero quantity, sender record missing or unreadable, holding smaller than the quantity, sender
record frozen or paused, marshaling failure) has written nothing to the sender's token
records. -/
theorem senderShard_error_before_first_debit (e : dctNFTMultiTransfer)
    (acntSnd acntDst : Option Account) (vmInput : ContractCallInput)
    (hvalue : vmInput.CallValue = some 0) (hlen : 5 ≤ vmInput.Arguments.length)
    (haddr : vmInput.CallerAddr = vmInput.RecipientAddr) :
    (∀ err, senderShardValidationFailure e vmInput = some err →
      (e.ProcessBuiltinFunction acntSnd acntDst (some vmInput)).result = .error err ∧
      (e.ProcessBuiltinFunction acntSnd acntDst (some vmInput)).acntSnd = acntSnd) ∧
    (senderShardValidationFailure e vmInput = none → ∀ err,
      e.loadAccountIfInShard (vmInput.Arguments.getD 0 []) = .error err →
      (e.ProcessBuiltinFunction acntSnd acntDst (some vmInput)).result = .error err ∧
      (e.ProcessBuiltinFunction acntSnd acntDst (some vmInput)).acntSnd = acntSnd) ∧
    (senderShardValidationFailure e vmInput = none → ∀ loaded err,
      e.loadAccountIfInShard (vmInput.Arguments.getD 0 []) = .ok loaded →
      makesliceOK (toUint64 (bigSetBytes (vmInput.Arguments.getD 1 []))) = true →
      (e.transferOneTokenOnSenderShard acntSnd none (vmInput.Arguments.getD 0 [])
        (vmInput.Arguments.getD 2 []) (toUint64 (bigSetBytes (vmInput.Arguments.getD 3 [])))
        (bigSetBytes (vmInput.Arguments.getD 4 []))
        (e.mustVerifyPayable vmInput
          (u64add (u64mul (toUint64 (bigSetBytes (vmInput.Arguments.getD 1 [])))
            argumentsPerTransfer) 2))
        vmInput.ReturnCallAfterError).result = .error err →
      (e.ProcessBuiltinFunction acntSnd acntDst (some vmInput)).result = .error err ∧
      (e.ProcessBuiltinFunction acntSnd acntDst (some vmInput)).acntSnd = acntSnd) := by
  rw [ProcessBuiltinFunction_senderShard e acntSnd acntDst vmInput hvalue hlen haddr]
  have ha0 := argAt_eq_getD vmInput.Arguments 0 (by omega)
  have ha1 := argAt_eq_getD vmInput.Arguments 1 (by omega)
  have ha2 := argAt_eq_getD vmInput.Arguments 2 (by omega)
  have ha3 := argAt_eq_getD vmInput.Arguments 3 (by omega)
  have ha4 := argAt_eq_getD vmInput.Arguments 4 (by omega)
  unfold senderShardValidationFailure
  unfold dctNFTMultiTransfer.processDCTNFTMultiTransferOnSenderShard
  simp only [ha0, ha1]
  generalize vmInput.Arguments.getD 0 [] = dstAddress at *
  generalize vmInput.Arguments.getD 1 [] = countBytes at *
  generalize vmInput.Arguments.getD 2 [] = tokenID at *
  generalize vmInput.Arguments.getD 3 [] = nonceBytes at *
  generalize vmInput.Arguments.getD 4 [] = quantityBytes at *
  by_cases c1 : dstAddress.length ≠ vmInput.CallerAddr.length
  · simp [c1]
  · by_cases c2 : dstAddress = vmInput.CallerAddr
    · simp [c1, c2]
    · by_cases c3 : e.ComputeId dstAddress = e.MetachainShardId
      · simp [c1, c2, c3]
      · by_cases c4 : toUint64 (bigSetBytes countBytes) = 0
        · simp [c1, c2, c3, c4]
        · by_cases c5 : vmInput.Arguments.length
              < u64add (u64mul (toUint64 (bigSetBytes countBytes)) argumentsPerTransfer) 2
          · simp [c1, c2, c3, c4, c5]
          · by_cases c6 : vmInput.GasProvided
                < u64mul (toUint64 (bigSetBytes countBytes)) e.funcGasCost
            · simp [c1, c2, c3, c4, c5, c6]
            · simp only [c1, c2, c3, c4, c5, c6, if_false]
              refine ⟨fun err h => (by cases h), fun _ err hload => ?_,
                fun _ loaded err hload hmake hdebit => ?_⟩
              · simp only [hload, and_self]
              · obtain ⟨k, hk⟩ := Nat.exists_eq_succ_of_ne_zero c4
                have hstep := transferOne_error_of_debit_error e acntSnd loaded _ _ _ _ _ _ err
                  hdebit
                simp only [hload, hmake, Bool.not_true, Bool.false_eq_true, if_false]
                rw [hk] at hstep ⊢
                simp only [argumentsPerTransfer] at hstep
                simp only [dctNFTMultiTransfer.senderShardLoop, argumentsPerTransfer,
                  Nat.zero_mul, Nat.add_zero, ha2, ha3, ha4, hstep, and_self]

/-- C4 does not hold on the code: with two triples of which the second has quantity zero, the
call returns `ErrInvalidNFTQuantity` after the first triple was processed, and the sender's
record holds 2 instead of 3. -/
theorem senderShard_error_after_debit :
    (transferA.ProcessBuiltinFunction (some senderA) none
        (some (selfCall [[1, 0], [2], tokenA, [], [1], tokenA, [], []] 100))).result
      = .error .ErrInvalidNFTQuantity ∧
    senderA.data (prefixA ++ tokenA) = codecBytes (fungibleRecord 3 []) ∧
    (transferA.ProcessBuiltinFunction (some senderA) none
        (some (selfCall [[1, 0], [2], tokenA, [], [1], tokenA, [], []] 100))).acntSnd.map
        (fun acnt => acnt.data (prefixA ++ tokenA))
      = some (codecBytes (fungibleRecord 2 [])) := by
  decide

theorem outputTransferArgs_gas (e : dctNFTMultiTransfer) :
    ∀ (records : List DCToken) (ids : List Bytes) (gas : Nat) (args : List Bytes)
      (gas' : Nat) (args' : List Bytes),
      e.outputTransferArgs records ids gas args = .ok (gas', args') →
      (∀ d ∈ records, marshaledLength e d * e.DataCopyPerByte < 2 ^ 64) →
      gas < 2 ^ 64 →
      gas' + dataCopyCost e records = gas := by
  intro records
  induction records with
  | nil =>
    intro ids gas args gas' args' h _ _
    simp only [dctNFTMultiTransfer.outputTransferArgs, Result.ok.injEq, Prod.mk.injEq] at h
    simp [dataCopyCost, h.1]
  | cons d rest ih =>
    intro ids gas args gas' args' h hwrap hgas
    cases ids with
    | nil => simp [dctNFTMultiTransfer.outputTransferArgs] at h
    | cons tokenID restIDs =>
      have hrest : ∀ d' ∈ rest, marshaledLength e d' * e.DataCopyPerByte < 2 ^ 64 :=
        fun d' hd' => hwrap d' (List.mem_cons_of_mem _ hd')
      have hd := hwrap d (List.mem_cons_self _ _)
      unfold dctNFTMultiTransfer.outputTransferArgs at h
      cases hmeta : d.TokenMetaData with
      | none =>
        simp only [hmeta] at h
        have := ih _ _ _ _ _ h hrest hgas
        simp only [dataCopyCost, List.map_cons, List.sum_cons, hmeta] at this ⊢
        omega
      | some metaData =>
        simp only [hmeta] at h
        cases hm : e.marshalizer.Marshal d with
        | error err => simp [hm] at h
        | ok marshaled =>
          simp only [hm] at h
          have hlenEq : marshaledLength e d = marshaled.length := by
            simp [marshaledLength, hm]
          rw [hlenEq] at hd
          rw [u64mul_of_lt hd] at h
          by_cases hgt : marshaled.length * e.DataCopyPerByte > gas
          · simp [hgt] at h
          · simp only [hgt, if_false] at h
            have hsub : u64sub gas (marshaled.length * e.DataCopyPerByte)
                = gas - marshaled.length * e.DataCopyPerByte :=
              u64sub_of_le (by omega) hgas
            rw [hsub] at h
            have := ih _ _ _ _ _ h hrest (by omega)
            simp only [dataCopyCost, List.map_cons, List.sum_cons, hmeta, hlenEq] at this ⊢
            omega

theorem createDCTNFTOutputTransfers_gas (e : dctNFTMultiTransfer)
    (vmInput : ContractCallInput) (vmOutput out : VMOutput) (records : List DCToken)
    (ids : List Bytes) (dstAddress : Bytes)
    (h : e.createDCTNFTOutputTransfers vmInput vmOutput records ids dstAddress = .ok out)
    (hempty : vmOutput.OutputAccounts = [])
    (hwrap : ∀ d ∈ records, marshaledLength e d * e.DataCopyPerByte < 2 ^ 64)
    (hgas : vmOutput.GasRemaining < 2 ^ 64) :
    out.GasRemaining + forwardedGasLimit out + dataCopyCost e records
      = vmOutput.GasRemaining := by
  unfold dctNFTMultiTransfer.createDCTNFTOutputTransfers at h
  cases hargs : e.outputTransferArgs records ids vmOutput.GasRemaining
      [bigBytes records.length] with
  | error err => simp [hargs] at h
  | ok p =>
    obtain ⟨gas', args'⟩ := p
    have hg := outputTransferArgs_gas e _ _ _ _ _ _ hargs hwrap hgas
    simp only [hargs] at h
    generalize hsc : (decide (vmInput.Arguments.length
        > u64add (u64mul records.length argumentsPerTransfer) 2)
      && e.IsSmartContractAddress dstAddress) = isSCCallAfter at h
    cases isSCCallAfter <;> split at h <;>
      simp only [Bool.false_eq_true, if_false, if_true, Result.ok.injEq] at h <;>
      subst h <;>
      simp [forwardedGasLimit, addNFTTransferToVMOutput, addOutputTransferToVMOutput, hempty] <;>
      omega

theorem outputTransferArgs_notEnoughGas (e : dctNFTMultiTransfer) (d : DCToken)
    (rest : List DCToken) (metaData : MetaData) (marshaled : Bytes)
    (hmeta : d.TokenMetaData = some metaData)
    (hmarshal : e.marshalizer.Marshal d = .ok marshaled)
    (hd : marshaled.length * e.DataCopyPerByte < 2 ^ 64) :
    ∀ (pre : List DCToken) (ids : List Bytes) (gas : Nat) (args : List Bytes),
      (∀ p ∈ pre, p.TokenMetaData ≠ none → ∃ b, e.marshalizer.Marshal p = .ok b) →
      (∀ p ∈ pre, marshaledLength e p * e.DataCopyPerByte < 2 ^ 64) →
      pre.length < ids.length →
      gas < 2 ^ 64 →
      dataCopyCost e pre ≤ gas →
      gas - dataCopyCost e pre < marshaled.length * e.DataCopyPerByte →
      e.outputTransferArgs (pre ++ d :: rest) ids gas args = .error .ErrNotEnoughGas := by
  intro pre
  induction pre with
  | nil =>
    intro ids gas args _ _ hids _ _ hlt
    cases ids with
    | nil => simp at hids
    | cons tokenID restIDs =>
      simp only [dataCopyCost, List.map_nil, List.sum_nil, Nat.sub_zero] at hlt
      have hgt : marshaled.length * e.DataCopyPerByte > gas := hlt
      simp only [List.nil_append, dctNFTMultiTransfer.outputTransferArgs, hmeta, hmarshal,
        u64mul_of_lt hd, hgt, if_true]
  | cons p pre ih =>
    intro ids gas args hok hwrap hids hgas hle hlt
    cases ids with
    | nil => simp at hids
    | cons tokenID restIDs =>
      have hids' : pre.length < restIDs.length := by simpa using hids
      have hok' : ∀ q ∈ pre, q.TokenMetaData ≠ none → ∃ b, e.marshalizer.Marshal q = .ok b :=
        fun q hq => hok q (List.mem_cons_of_mem _ hq)
      have hwrap' : ∀ q ∈ pre, marshaledLength e q * e.DataCopyPerByte < 2 ^ 64 :=
        fun q hq => hwrap q (List.mem_cons_of_mem _ hq)
      have hp := hwrap p (List.mem_cons_self _ _)
      simp only [List.cons_append, dctNFTMultiTransfer.outputTransferArgs]
      cases hpm : p.TokenMetaData with
      | none =>
        simp only [dataCopyCost, List.map_cons, List.sum_cons, hpm, Nat.zero_add] at hle hlt
        exact ih _ _ _ hok' hwrap' hids' hgas hle hlt
      | some pm =>
        obtain ⟨b, hb⟩ := hok p (List.mem_cons_self _ _) (by simp [hpm])
        have hlenEq : marshaledLength e p = b.length := by simp [marshaledLength, hb]
        rw [hlenEq] at hp
        simp only [dataCopyCost, List.map_cons, List.sum_cons, hpm, hlenEq] at hle hlt
        have hle' : dataCopyCost e pre ≤ gas - b.length * e.DataCopyPerByte := by
          simp only [dataCopyCost]; omega
        have hlt' : gas - b.length * e.DataCopyPerByte - dataCopyCost e pre
            < marshaled.length * e.DataCopyPerByte := by
          simp only [dataCopyCost]; omega
        have hngt : ¬ b.length * e.DataCopyPerByte > gas := by omega
        simp only [hb, u64mul_of_lt hp, hngt, if_false,
          u64sub_of_le (show b.length * e.DataCopyPerByte ≤ gas by omega) hgas]
        exact ih _ _ _ hok' hwrap' hids' (by omega) hle' hlt'

/-- C10 does not hold on the code: with a function cost of 2^63 and two transfers the product
`n * funcGasCost` wraps to 0, so a call with 100 units of gas succeeds with
`gasRemaining = 100`, while `n * funcGasCost` over the natural numbers is 2^64. -/
theorem senderShard_gas_wraps :
    (transferCostly.ProcessBuiltinFunction (some senderA) none
        (some (selfCall [[1, 0], [2], tokenA, [], [1], tokenA, [], [1]] 100))).result
      = .ok { ReturnCode := Ok, GasRemaining := 100, OutputAccounts := [],
              Logs := [{ Identifier := [6], Address := [2, 2], Topics := [tokenA, [], [1, 0]],
                         Data := [] },
                       { Identifier := [6], Address := [2, 2], Topics := [tokenA, [], [1, 0]],
                         Data := [] }] } ∧
    100 + forwardedGasLimit { ReturnCode := Ok, GasRemaining := 100, OutputAccounts := [],
                              Logs := [] }
      ≠ 100 - 2 * transferCostly.funcGasCost
          - dataCopyCost transferCostly (transferCostly.transferredRecords (some senderA)
              (selfCall [[1, 0], [2], tokenA, [], [1], tokenA, [], [1]] 100)) ∧
    100 + forwardedGasLimit { ReturnCode := Ok, GasRemaining := 100, OutputAccounts := [],
                              Logs := [] }
        + 2 * transferCostly.funcGasCost
        + dataCopyCost transferCostly (transferCostly.transferredRecords (some senderA)
              (selfCall [[1, 0], [2], tokenA, [], [1], tokenA, [], [1]] 100))
      ≠ 100 := by
  decide

/-- C10, amended: when `n * funcGasCost` and every `len(marshaled record) * DataCopyPerByte`
are below 2^64, every successful same-shard initiation with `n` transfers satisfies
`gasRemaining + forwarded gas limit + n * funcGasCost + data-copy cost = gasProvided` over the
natural numbers, the data-copy cost being summed over the transferred records that carry NFT
metadata; and `createDCTNFTOutputTransfers` fails with `ErrNotEnoughGas` when, after the
records before it were charged, the data-copy cost of a record exceeds the gas still
remaining. -/
theorem senderShard_gas_exact (e : dctNFTMultiTransfer) (acntSnd acntDst : Option Account)
    (vmInput : ContractCallInput) (out : VMOutput) (snd' dst' : Option Account)
    (hvalue : vmInput.CallValue = some 0) (hlen : 5 ≤ vmInput.Arguments.length)
    (haddr : vmInput.CallerAddr = vmInput.RecipientAddr)
    (hu64 : vmInput.GasProvided < 2 ^ 64)
    (hcost : toUint64 (bigSetBytes (vmInput.Arguments.getD 1 [])) * e.funcGasCost < 2 ^ 64)
    (hcopy : ∀ d ∈ e.transferredRecords acntSnd vmInput,
      marshaledLength e d * e.DataCopyPerByte < 2 ^ 64)
    (hok : e.ProcessBuiltinFunction acntSnd acntDst (some vmInput) = ⟨.ok out, snd', dst'⟩) :
    out.GasRemaining + forwardedGasLimit out
        + toUint64 (bigSetBytes (vmInput.Arguments.getD 1 [])) * e.funcGasCost
        + dataCopyCost e (e.transferredRecords acntSnd vmInput) = vmInput.GasProvided ∧
    (∀ (input : ContractCallInput) (vmOutput : VMOutput) (pre rest : List DCToken) (d : DCToken)
        (ids : List Bytes) (dstAddress : Bytes) (metaData : MetaData) (marshaled : Bytes),
      d.TokenMetaData = some metaData → e.marshalizer.Marshal d = .ok marshaled →
      marshaled.length * e.DataCopyPerByte < 2 ^ 64 →
      (∀ p ∈ pre, p.TokenMetaData ≠ none → ∃ b, e.marshalizer.Marshal p = .ok b) →
      (∀ p ∈ pre, marshaledLength e p * e.DataCopyPerByte < 2 ^ 64) →
      pre.length < ids.length → vmOutput.GasRemaining < 2 ^ 64 →
      dataCopyCost e pre ≤ vmOutput.GasRemaining →
      vmOutput.GasRemaining - dataCopyCost e pre < marshaled.length * e.DataCopyPerByte →
      e.createDCTNFTOutputTransfers input vmOutput (pre ++ d :: rest) ids dstAddress
        = .error .ErrNotEnoughGas) := by
  constructor
  · rw [ProcessBuiltinFunction_senderShard e acntSnd acntDst vmInput hvalue hlen haddr] at hok
    have ha0 := argAt_eq_getD vmInput.Arguments 0 (by omega)
    have ha1 := argAt_eq_getD vmInput.Arguments 1 (by omega)
    unfold dctNFTMultiTransfer.processDCTNFTMultiTransferOnSenderShard at hok
    unfold dctNFTMultiTransfer.transferredRecords at hcopy ⊢
    simp only [ha0, ha1] at hok
    generalize vmInput.Arguments.getD 0 [] = dstAddress at *
    generalize vmInput.Arguments.getD 1 [] = countBytes at *
    by_cases c1 : dstAddress.length ≠ vmInput.CallerAddr.length
    · simp [c1] at hok
    · by_cases c2 : dstAddress = vmInput.CallerAddr
      · simp [c1, c2] at hok
      · by_cases c3 : e.ComputeId dstAddress = e.MetachainShardId
        · simp [c1, c2, c3] at hok
        · by_cases c4 : toUint64 (bigSetBytes countBytes) = 0
          · simp [c1, c2, c3, c4] at hok
          · by_cases c5 : vmInput.Arguments.length
                < u64add (u64mul (toUint64 (bigSetBytes countBytes)) argumentsPerTransfer) 2
            · simp [c1, c2, c3, c4, c5] at hok
            · by_cases c6 : vmInput.GasProvided
                  < u64mul (toUint64 (bigSetBytes countBytes)) e.funcGasCost
              · simp [c1, c2, c3, c4, c5, c6] at hok
              · simp only [c1, c2, c3, c4, c5, c6, if_false] at hok
                rw [u64mul_of_lt hcost] at c6 hok
                cases hload : e.loadAccountIfInShard dstAddress with
                | error err => simp [hload] at hok
                | ok loaded =>
                  simp only [hload] at hok hcopy ⊢
                  by_cases hmake : (!makesliceOK (toUint64 (bigSetBytes countBytes))) = true
                  · simp [hmake] at hok
                  · simp only [hmake, if_false] at hok
                    generalize e.senderShardLoop vmInput dstAddress
                      (e.mustVerifyPayable vmInput
                        (u64add (u64mul (toUint64 (bigSetBytes countBytes))
                          argumentsPerTransfer) 2))
                      (toUint64 (bigSetBytes countBytes)) 0
                      ⟨acntSnd, loaded, [], [], []⟩ = looped at *
                    obtain ⟨stopped, st⟩ := looped
                    cases stopped with
                    | some err =>
                      simp only [Bool.false_eq_true, if_false] at hok
                      injection hok with hres
                      cases hres
                    | none =>
                      simp only [Bool.false_eq_true, if_false] at hok hcopy ⊢
                      split at hok
                      · injection hok with hres
                        cases hres
                      · split at hok
                        · injection hok with hres
                          cases hres
                        · rename_i vmOutput hcreate
                          simp only [Outcome.mk.injEq, Result.ok.injEq] at hok
                          obtain ⟨rfl, -, -⟩ := hok
                          have hsub := u64sub_of_le (Nat.le_of_not_lt c6) hu64
                          have := createDCTNFTOutputTransfers_gas e vmInput _ _ _ _ _ hcreate rfl
                            hcopy (by simp only; omega)
                          simp only [hsub] at this
                          omega
  · intro input vmOutput pre rest d ids dstAddress metaData marshaled hmeta hmarshal hd hpre
      hwrap hids hgas hle hlt
    simp only [dctNFTMultiTransfer.createDCTNFTOutputTransfers,
      outputTransferArgs_notEnoughGas e d rest metaData marshaled hmeta hmarshal hd pre ids
        vmOutput.GasRemaining _ hpre hwrap hids hgas hle hlt]

theorem Outcome.eq_of_result {α : Type} (o : Outcome α) (r : Result α) (h : o.result = r) :
    o = ⟨r, o.acntSnd, o.acntDst⟩ := by
  cases o
  simp only at h
  subst h
  rfl

theorem senderShard_gas_exact_witness :
    (transferB.ProcessBuiltinFunction (some nftHolder) none (some inputB)).result
      = .ok ((transferB.ProcessBuiltinFunction (some nftHolder) none (some inputB)).result.getD
          emptyOutput) ∧
    ((transferB.ProcessBuiltinFunction (some nftHolder) none (some inputB)).result.getD
      emptyOutput).GasRemaining = 0 ∧
    forwardedGasLimit ((transferB.ProcessBuiltinFunction (some nftHolder) none
      (some inputB)).result.getD emptyOutput) = 952 ∧
    dataCopyCost transferB (transferB.transferredRecords (some nftHolder) inputB) = 38 ∧
    ((transferB.ProcessBuiltinFunction (some nftHolder) none (some inputB)).result.getD
        emptyOutput).GasRemaining
      + forwardedGasLimit ((transferB.ProcessBuiltinFunction (some nftHolder) none
          (some inputB)).result.getD emptyOutput)
      + toUint64 (bigSetBytes (inputB.Arguments.getD 1 [])) * transferB.funcGasCost
      + dataCopyCost transferB (transferB.transferredRecords (some nftHolder) inputB)
      = inputB.GasProvided :=
  ⟨by decide, by decide, by decide, by decide,
   (senderShard_gas_exact transferB (some nftHolder) none inputB
      ((transferB.ProcessBuiltinFunction (some nftHolder) none (some inputB)).result.getD
        emptyOutput)
      (transferB.ProcessBuiltinFunction (some nftHolder) none (some inputB)).acntSnd
      (transferB.ProcessBuiltinFunction (some nftHolder) none (some inputB)).acntDst
      rfl (by decide) rfl (by decide) (by decide) (by decide)
      (Outcome.eq_of_result _ _ (by decide))).1⟩

theorem senderShard_error_before_first_debit_witness :
    senderShardValidationFailure transferA (selfCall [[1, 0], [1], tokenA, [], [1]] 0)
      = some .ErrNotEnoughGas ∧
    ((transferA.ProcessBuiltinFunction (some senderA) none
        (some (selfCall [[1, 0], [1], tokenA, [], [1]] 0))).result = .error .ErrNotEnoughGas ∧
     (transferA.ProcessBuiltinFunction (some senderA) none
        (some (selfCall [[1, 0], [1], tokenA, [], [1]] 0))).acntSnd = some senderA) ∧
    ((transferA.ProcessBuiltinFunction (some senderA) none
        (some (selfCall [[1, 0], [1], tokenA, [], []] 100))).result
        = .error .ErrInvalidNFTQuantity ∧
     (transferA.ProcessBuiltinFunction (some senderA) none
        (some (selfCall [[1, 0], [1], tokenA, [], []] 100))).acntSnd = some senderA) :=
  ⟨by decide,
   (senderShard_error_before_first_debit transferA (some senderA) none
      (selfCall [[1, 0], [1], tokenA, [], [1]] 0) rfl (by decide) rfl).1
      .ErrNotEnoughGas (by decide),
   (senderShard_error_before_first_debit transferA (some senderA) none
      (selfCall [[1, 0], [1], tokenA, [], []] 100) rfl (by decide) rfl).2.2
      (by decide) (some destinationA) .ErrInvalidNFTQuantity rfl (by decide) (by decide)⟩

/-! ## Freeze, unfreeze and wipe: effects and caller restriction -/

/-- C18: for every successful freeze or unfreeze call, the record stored afterwards at
key(tokenID) is the record read before with its properties replaced by the user metadata of
the configured target state - so its frozen flag is the target state and its value, kind and
metadata are those of before - and the output carries no log entry. -/
theorem toggleFreeze_effect (e : dctFreezeWipe) (acntDst acntDst' : Option Account)
    (vmInput : ContractCallInput) (out : VMOutput)
    (hwipe : e.wipe = false)
    (hok : e.ProcessBuiltinFunction acntDst (some vmInput) = (.ok out, acntDst')) :
    ∃ acnt tokenID tokenData marshaled,
      acntDst = some acnt ∧ vmInput.Arguments = [tokenID] ∧
      getDCTDataFromKey acnt (e.keyPrefix ++ tokenID) e.marshalizer = .ok tokenData ∧
      e.marshalizer.Marshal (withFrozen tokenData e.freeze) = .ok marshaled ∧
      acntDst' = some (acnt.SaveKeyValue (e.keyPrefix ++ tokenID) marshaled) ∧
      (DCTUserMetadataFromBytes (withFrozen tokenData e.freeze).Properties).Frozen = e.freeze ∧
      (withFrozen tokenData e.freeze).Value = tokenData.Value ∧
      (withFrozen tokenData e.freeze).TokenType = tokenData.TokenType ∧
      (withFrozen tokenData e.freeze).TokenMetaData = tokenData.TokenMetaData ∧
      out.Logs = [] := by
  unfold dctFreezeWipe.ProcessBuiltinFunction at hok
  cases hv : vmInput.CallValue with
  | none => simp [hv] at hok
  | some callValue =>
    simp only [hv] at hok
    by_cases h1 : callValue ≠ 0
    · simp [h1] at hok
    · by_cases h2 : vmInput.Arguments.length ≠ 1
      · simp [h1, h2] at hok
      · by_cases h3 : vmInput.CallerAddr ≠ e.DCTSCAddress
        · simp [h1, h2, h3] at hok
        · cases acntDst with
          | none => simp [h1, h2, h3] at hok
          | some acnt =>
            obtain ⟨tokenID, hargs⟩ : ∃ tokenID, vmInput.Arguments = [tokenID] := by
              cases hl : vmInput.Arguments with
              | nil => simp [hl] at h2
              | cons a rest =>
                cases rest with
                | nil => exact ⟨a, rfl⟩
                | cons b rest' => simp [hl] at h2
            have h0 : vmInput.Arguments.getD 0 [] = tokenID := by simp [hargs]
            simp only [h1, h2, h3, if_false, hwipe, Bool.false_eq_true, h0,
              dctFreezeWipe.toggleFreeze] at hok
            cases hread : getDCTDataFromKey acnt (e.keyPrefix ++ tokenID) e.marshalizer with
            | error err => simp [hread] at hok
            | ok tokenData =>
              simp only [hread, saveDCTData] at hok
              cases hm : e.marshalizer.Marshal (withFrozen tokenData e.freeze) with
              | error err =>
                simp only [withFrozen] at hm
                simp [hm] at hok
              | ok marshaled =>
                have hm' := hm
                simp only [withFrozen] at hm'
                simp only [hm', Prod.mk.injEq, Result.ok.injEq] at hok
                obtain ⟨hout, hacnt⟩ := hok
                refine ⟨acnt, tokenID, tokenData, marshaled, rfl, hargs, hread, hm, hacnt.symm, ?_,
                  rfl, rfl, rfl, ?_⟩
                · cases hf : e.freeze <;> simp [withFrozen, DCTUserMetadata.ToBytes,
                    DCTUserMetadataFromBytes]
                · rw [← hout]

theorem toggleFreeze_effect_witness :
    freezeA.ProcessBuiltinFunction (some destinationA) (some (systemCall [tokenA]))
      = (.ok emptyOutput,
         some (destinationA.SaveKeyValue (prefixA ++ tokenA)
           (codecBytes (fungibleRecord 5 [1, 0])))) ∧
    ∃ acnt tokenID tokenData marshaled,
      some destinationA = some acnt ∧ (systemCall [tokenA]).Arguments = [tokenID] ∧
      getDCTDataFromKey acnt (freezeA.keyPrefix ++ tokenID) freezeA.marshalizer = .ok tokenData ∧
      freezeA.marshalizer.Marshal (withFrozen tokenData freezeA.freeze) = .ok marshaled ∧
      some (destinationA.SaveKeyValue (prefixA ++ tokenA) (codecBytes (fungibleRecord 5 [1, 0])))
        = some (acnt.SaveKeyValue (freezeA.keyPrefix ++ tokenID) marshaled) ∧
      (DCTUserMetadataFromBytes (withFrozen tokenData freezeA.freeze).Properties).Frozen
        = freezeA.freeze ∧
      (withFrozen tokenData freezeA.freeze).Value = tokenData.Value ∧
      (withFrozen tokenData freezeA.freeze).TokenType = tokenData.TokenType ∧
      (withFrozen tokenData freezeA.freeze).TokenMetaData = tokenData.TokenMetaData ∧
      emptyOutput.Logs = [] :=
  ⟨rfl,
   toggleFreeze_effect freezeA (some destinationA)
    (some (destinationA.SaveKeyValue (prefixA ++ tokenA) (codecBytes (fungibleRecord 5 [1, 0]))))
    (systemCall [tokenA]) emptyOutput rfl rfl⟩

/-- C19 does not hold on the code for an input whose `CallValue` is nil: the caller `[2, 2]` is
not the system address, and both the wipe and the freeze function dereference the nil pointer
in `vmInput.CallValue.Cmp(zero)` (line 51) and panic instead of returning an error, whereas
`checkBasicDCTArguments` (dctLocalBurn.go, line 104) answers the same input with
`ErrNilValue`. -/
theorem freezeWipe_nil_call_value_panics :
    nilValueCall.CallerAddr ≠ wipeA.DCTSCAddress ∧
    nilValueCall.CallValue = none ∧
    (wipeA.ProcessBuiltinFunction (some destinationA) (some nilValueCall)).1
      = .error .runtimePanic ∧
    (freezeA.ProcessBuiltinFunction (some destinationA) (some nilValueCall)).1
      = .error .runtimePanic ∧
    checkBasicDCTArguments (some nilValueCall) = .error .ErrNilValue :=
  ⟨by decide, rfl, by decide, by decide, rfl⟩

/-- C19, for an input with a call value: freeze, unfreeze and wipe are restricted to the system
caller.  For every call input with a non-nil call value whose caller differs from the system
address the call returns an error (none of them a crash) and leaves the destination account as
it was; the error is `ErrAddressIsNotDCTSystemSC` when the call value is zero and exactly one
argument is given. -/
theorem freezeWipe_system_caller_only (e : dctFreezeWipe) (acntDst : Option Account)
    (vmInput : ContractCallInput) (callValue : Int)
    (hvalue : vmInput.CallValue = some callValue)
    (hcaller : vmInput.CallerAddr ≠ e.DCTSCAddress) :
    (∃ err, err ≠ .runtimePanic ∧
      e.ProcessBuiltinFunction acntDst (some vmInput) = (.error err, acntDst)) ∧
    (callValue = 0 → vmInput.Arguments.length = 1 →
      e.ProcessBuiltinFunction acntDst (some vmInput)
        = (.error .ErrAddressIsNotDCTSystemSC, acntDst)) := by
  unfold dctFreezeWipe.ProcessBuiltinFunction
  simp only [hvalue]
  by_cases h1 : callValue ≠ 0
  · exact ⟨⟨.ErrBuiltInFunctionCalledWithValue, by decide, by simp [h1]⟩,
      fun h0 => absurd h0 h1⟩
  · by_cases h2 : vmInput.Arguments.length ≠ 1
    · exact ⟨⟨.ErrInvalidArguments, by decide, by simp [h1, h2]⟩, fun _ hl => absurd hl h2⟩
    · exact ⟨⟨.ErrAddressIsNotDCTSystemSC, by decide, by simp [h1, h2, hcaller]⟩,
        fun _ _ => by simp [h1, h2, hcaller]⟩

theorem freezeWipe_system_caller_only_witness :
    (selfCall [tokenA] 0).CallerAddr ≠ wipeA.DCTSCAddress ∧
    (∃ err, err ≠ .runtimePanic ∧
      wipeA.ProcessBuiltinFunction (some destinationA) (some (selfCall [tokenA] 0))
        = (.error err, some destinationA)) ∧
    wipeA.ProcessBuiltinFunction (some destinationA) (some (selfCall [tokenA] 0))
      = (.error .ErrAddressIsNotDCTSystemSC, some destinationA) :=
  ⟨by decide,
   (freezeWipe_system_caller_only wipeA (some destinationA) (selfCall [tokenA] 0) 0 rfl
      (by decide)).1,
   (freezeWipe_system_caller_only wipeA (some destinationA) (selfCall [tokenA] 0) 0 rfl
      (by decide)).2 rfl rfl⟩

/-- C20: for every successful wipe call the destination account is the one of before with a
nil value written at key(tokenID) - the entry at that key is empty and every other entry is
untouched - and the output's log is exactly one entry, identified as the wipe function,
carrying the tokenID and a zero amount. -/
theorem wipe_deletes_and_logs (e : dctFreezeWipe) (acntDst acntDst' : Option Account)
    (vmInput : ContractCallInput) (out : VMOutput)
    (hwipe : e.wipe = true)
    (hok : e.ProcessBuiltinFunction acntDst (some vmInput) = (.ok out, acntDst')) :
    ∃ acnt tokenID,
      acntDst = some acnt ∧ vmInput.Arguments = [tokenID] ∧
      acntDst' = some (acnt.SaveKeyValue (e.keyPrefix ++ tokenID) []) ∧
      (acnt.SaveKeyValue (e.keyPrefix ++ tokenID) []).data (e.keyPrefix ++ tokenID) = [] ∧
      (∀ k, k ≠ e.keyPrefix ++ tokenID →
        (acnt.SaveKeyValue (e.keyPrefix ++ tokenID) []).data k = acnt.data k) ∧
      out.Logs = [wipeLogEntry e vmInput.CallerAddr tokenID acnt.address] := by
  unfold dctFreezeWipe.ProcessBuiltinFunction at hok
  cases hv : vmInput.CallValue with
  | none => simp [hv] at hok
  | some callValue =>
    simp only [hv] at hok
    by_cases h1 : callValue ≠ 0
    · simp [h1] at hok
    · by_cases h2 : vmInput.Arguments.length ≠ 1
      · simp [h1, h2] at hok
      · by_cases h3 : vmInput.CallerAddr ≠ e.DCTSCAddress
        · simp [h1, h2, h3] at hok
        · cases acntDst with
          | none => simp [h1, h2, h3] at hok
          | some acnt =>
            obtain ⟨tokenID, hargs⟩ : ∃ tokenID, vmInput.Arguments = [tokenID] := by
              cases hl : vmInput.Arguments with
              | nil => simp [hl] at h2
              | cons a rest =>
                cases rest with
                | nil => exact ⟨a, rfl⟩
                | cons b rest' => simp [hl] at h2
            have h0 : vmInput.Arguments.getD 0 [] = tokenID := by simp [hargs]
            simp only [h1, h2, h3, if_false, hwipe, if_true, h0,
              dctFreezeWipe.wipeIfApplicable] at hok
            cases hread : getDCTDataFromKey acnt (e.keyPrefix ++ tokenID) e.marshalizer with
            | error err => simp [hread] at hok
            | ok tokenData =>
              simp only [hread] at hok
              by_cases hf : (!(DCTUserMetadataFromBytes tokenData.Properties).Frozen) = true
              · simp [hf] at hok
              · simp only [hf, if_false, Prod.mk.injEq, Result.ok.injEq] at hok
                obtain ⟨hout, hacnt⟩ := hok
                refine ⟨acnt, tokenID, rfl, hargs, rfl, ?_, ?_, ?_⟩
                · simp [Account.SaveKeyValue]
                · intro k hk
                  simp [Account.SaveKeyValue, hk]
                · simp [addDCTEntryInVMOutput, wipeLogEntry, Account.SaveKeyValue]

theorem wipe_deletes_and_logs_witness :
    (wipeA.ProcessBuiltinFunction
        (some (accountWith [1, 0] (prefixA ++ tokenA) (codecBytes (fungibleRecord 7 [1, 0]))))
        (some (systemCall [tokenA]))).1
      = .ok { ReturnCode := Ok, GasRemaining := 0, OutputAccounts := [],
              Logs := [wipeLogEntry wipeA [255] tokenA [1, 0]] } ∧
    ∃ acnt tokenID,
      some (accountWith [1, 0] (prefixA ++ tokenA) (codecBytes (fungibleRecord 7 [1, 0])))
        = some acnt ∧ (systemCall [tokenA]).Arguments = [tokenID] ∧
      (wipeA.ProcessBuiltinFunction
        (some (accountWith [1, 0] (prefixA ++ tokenA) (codecBytes (fungibleRecord 7 [1, 0]))))
        (some (systemCall [tokenA]))).2
        = some (acnt.SaveKeyValue (wipeA.keyPrefix ++ tokenID) []) ∧
      (acnt.SaveKeyValue (wipeA.keyPrefix ++ tokenID) []).data (wipeA.keyPrefix ++ tokenID)
        = [] ∧
      (∀ k, k ≠ wipeA.keyPrefix ++ tokenID →
        (acnt.SaveKeyValue (wipeA.keyPrefix ++ tokenID) []).data k = acnt.data k) ∧
      ({ ReturnCode := Ok, GasRemaining := 0, OutputAccounts := [],
         Logs := [wipeLogEntry wipeA [255] tokenA [1, 0]] } : VMOutput).Logs
        = [wipeLogEntry wipeA (systemCall [tokenA]).CallerAddr tokenID acnt.address] :=
  ⟨by decide,
   wipe_deletes_and_logs wipeA
    (some (accountWith [1, 0] (prefixA ++ tokenA) (codecBytes (fungibleRecord 7 [1, 0]))))
    (wipeA.ProcessBuiltinFunction
        (some (accountWith [1, 0] (prefixA ++ tokenA) (codecBytes (fungibleRecord 7 [1, 0]))))
        (some (systemCall [tokenA]))).2
    (systemCall [tokenA])
    { ReturnCode := Ok, GasRemaining := 0, OutputAccounts := [],
      Logs := [wipeLogEntry wipeA [255] tokenA [1, 0]] }
    rfl (Prod.ext (by decide) rfl)⟩

/-! ## The record accessors -/

theorem saveDCTNFTToken_eq_ok {acnt acnt' : Account} {dctTokenKey marshaled : Bytes}
    {dctData : DCToken} {m : Marshalizer} {IsPaused : Bytes → Bool} {isReturnWithError : Bool}
    (h : saveDCTNFTToken acnt dctTokenKey dctData m IsPaused isReturnWithError
      = .ok (marshaled, acnt')) :
    checkFrozeAndPause IsPaused acnt.address dctTokenKey dctData isReturnWithError = .ok () ∧
    m.Marshal dctData = .ok marshaled ∧
    acnt' = acnt.SaveKeyValue (computeDCTNFTTokenKey dctTokenKey (recordNonce dctData))
      marshaled := by
  unfold saveDCTNFTToken at h
  cases hg : checkFrozeAndPause IsPaused acnt.address dctTokenKey dctData isReturnWithError with
  | error err => simp [hg] at h
  | ok u =>
    simp only [hg] at h
    cases hm : m.Marshal dctData with
    | error err => simp [hm] at h
    | ok b =>
      simp only [hm, Result.ok.injEq, Prod.mk.injEq] at h
      obtain ⟨rfl, rfl⟩ := h
      exact ⟨rfl, rfl, rfl⟩

theorem saveDCTNFTToken_ok (acnt : Account) (dctTokenKey marshaled : Bytes) (dctData : DCToken)
    (m : Marshalizer) (IsPaused : Bytes → Bool) (isReturnWithError : Bool)
    (hg : checkFrozeAndPause IsPaused acnt.address dctTokenKey dctData isReturnWithError
      = .ok ())
    (hm : m.Marshal dctData = .ok marshaled) :
    saveDCTNFTToken acnt dctTokenKey dctData m IsPaused isReturnWithError
      = .ok (marshaled,
          acnt.SaveKeyValue (computeDCTNFTTokenKey dctTokenKey (recordNonce dctData))
            marshaled) := by
  unfold saveDCTNFTToken
  simp only [hg, hm]
  rfl

/-! ## NFT attribute update: effect and failures -/

/-- C16 does not hold on the code: when the record the sender holds at (tokenID, nonce) has no
metadata the call passes every check and then writes the attributes through the nil metadata
pointer, which is a run-time panic, not a returned error.  (When the sender holds no record
there the call does return an error.) -/
theorem updateAttributes_without_metadata_panics :
    getDCTNFTTokenOnSender plainHolder (prefixA ++ tokenA) 1 codecMarshalizer
      = .ok (fungibleRecord 3 []) ∧
    (fungibleRecord 3 []).TokenMetaData = none ∧
    (updateA.ProcessBuiltinFunction (some plainHolder)
        (some (selfCall [tokenA, [1], [7, 7]] 40))).1 = .error .runtimePanic ∧
    (updateA.ProcessBuiltinFunction (some senderA)
        (some (selfCall [tokenA, [1], [7, 7]] 40))).1 = .error .ErrNFTTokenDoesNotExist := by
  decide

/-- C17: an NFT attribute update (zero call value, caller == recipient, account present, gas
covering the base cost) with exactly 3 arguments, the role granted and enough gas fails with
`ErrNFTDoesNotHaveMetadata` whenever the nonce argument decodes to zero, and writes nothing; a
call with a number of arguments other than 3 fails with `ErrInvalidArguments`. -/
theorem updateAttributes_zero_nonce (e : dctNFTupdate) (acnt : Account)
    (vmInput : ContractCallInput)
    (hvalue : vmInput.CallValue = some 0)
    (haddr : vmInput.CallerAddr = vmInput.RecipientAddr)
    (hbase : e.funcGasCost ≤ vmInput.GasProvided) :
    (∀ tokenID nonce attributes, vmInput.Arguments = [tokenID, nonce, attributes] →
      e.CheckAllowedToExecute acnt tokenID e.DCTRoleNFTUpdateAttributes = none →
      e.funcGasCost + attributes.length * e.StorePerByte ≤ vmInput.GasProvided →
      vmInput.GasProvided < 2 ^ 64 →
      toUint64 (bigSetBytes nonce) = 0 →
      e.ProcessBuiltinFunction (some acnt) (some vmInput)
        = (.error .ErrNFTDoesNotHaveMetadata, some acnt)) ∧
    (vmInput.Arguments.length ≠ 3 →
      e.ProcessBuiltinFunction (some acnt) (some vmInput)
        = (.error .ErrInvalidArguments, some acnt)) := by
  have hg : ¬ vmInput.GasProvided < e.funcGasCost := by omega
  constructor
  · intro tokenID nonce attributes hargs hrole hgas hu64 hzero
    have hc : checkDCTNFTCreateBurnAddInput (some acnt) (some vmInput) e.funcGasCost
        = .ok (acnt, vmInput) := by
      simp [checkDCTNFTCreateBurnAddInput, checkBasicDCTArguments_ok vmInput hvalue
        (by simp [hargs]), haddr, hg]
    have hlen : vmInput.Arguments.length = 3 := by simp [hargs]
    have h0 : vmInput.Arguments.getD 0 [] = tokenID := by simp [hargs]
    have h1 : vmInput.Arguments.getD 1 [] = nonce := by simp [hargs]
    have h2 : vmInput.Arguments.getD 2 [] = attributes := by simp [hargs]
    have hmul : u64mul attributes.length e.StorePerByte = attributes.length * e.StorePerByte :=
      u64mul_of_lt (by omega)
    have hadd : u64add e.funcGasCost (attributes.length * e.StorePerByte)
        = e.funcGasCost + attributes.length * e.StorePerByte := u64add_of_lt (by omega)
    have hngas : ¬ vmInput.GasProvided < e.funcGasCost + attributes.length * e.StorePerByte := by
      omega
    unfold dctNFTupdate.ProcessBuiltinFunction
    simp only [hc, hlen, ne_eq, not_true_eq_false, if_false, h0, h1, h2, hrole, hmul, hadd,
      hngas, hzero, if_true]
  · intro hne
    unfold dctNFTupdate.ProcessBuiltinFunction
    by_cases h2 : 2 ≤ vmInput.Arguments.length
    · have hc : checkDCTNFTCreateBurnAddInput (some acnt) (some vmInput) e.funcGasCost
          = .ok (acnt, vmInput) := by
        simp [checkDCTNFTCreateBurnAddInput, checkBasicDCTArguments_ok vmInput hvalue h2, haddr,
          hg]
      simp only [hc, ne_eq, hne, not_false_eq_true, if_true]
    · have hlt : vmInput.Arguments.length < MinLenArgumentsDCTTransfer := by
        simp only [MinLenArgumentsDCTTransfer]; omega
      have hc : checkDCTNFTCreateBurnAddInput (some acnt) (some vmInput) e.funcGasCost
          = .error .ErrInvalidArguments := by
        simp [checkDCTNFTCreateBurnAddInput, checkBasicDCTArguments, hvalue, hlt]
      simp only [hc]

theorem updateAttributes_zero_nonce_witness :
    updateA.ProcessBuiltinFunction (some nftHolder) (some (selfCall [tokenA, [], [7, 7]] 40))
      = (.error .ErrNFTDoesNotHaveMetadata, some nftHolder) ∧
    updateA.ProcessBuiltinFunction (some nftHolder) (some (selfCall [tokenA, [1]] 40))
      = (.error .ErrInvalidArguments, some nftHolder) :=
  ⟨(updateAttributes_zero_nonce updateA nftHolder (selfCall [tokenA, [], [7, 7]] 40) rfl rfl
      (by decide)).1 tokenA [] [7, 7] rfl rfl (by decide) (by decide) (by decide),
   (updateAttributes_zero_nonce updateA nftHolder (selfCall [tokenA, [1]] 40) rfl rfl
      (by decide)).2 (by decide)⟩

/-! ## Cross-shard delivery -/

/-- C13 does not hold on the code: a cross-shard delivery frame with transfer count 1 and exactly
1 + 3 * 1 = 4 arguments is rejected with `ErrInvalidArguments`, because the function requires at
least 5 arguments before it looks at the count, whereas the same frame followed by one more
argument is accepted; and a frame with count 0x5555555555555556 and 5 arguments passes the
argument-count check, `3 * n + 1` wrapping to 3, and then panics. -/
theorem crossShard_exact_argument_count_rejected :
    toUint64 (bigSetBytes [1]) = 1 ∧
    (crossCall [[1], tokenA, [0], [1]]).Arguments.length = 1 + 3 * 1 ∧
    (transferDest.ProcessBuiltinFunction none (some destinationA)
        (some (crossCall [[1], tokenA, [0], [1]]))).result = .error .ErrInvalidArguments ∧
    (transferDest.ProcessBuiltinFunction none (some destinationA)
        (some (crossCall [[1], tokenA, [0], [1], [102]]))).result
      = .ok (addOutputTransferToVMOutput [2, 2] [102] [] [1, 0] 0 0
          { ReturnCode := Ok, GasRemaining := 0, OutputAccounts := [],
            Logs := [transferLogEntry transferDest [2, 2] tokenA 0 [1, 0]] }) ∧
    toUint64 (bigSetBytes (bigBytes 6148914691236517206)) = 6148914691236517206 ∧
    (transferDest.ProcessBuiltinFunction none (some destinationA)
        (some (crossCall [bigBytes 6148914691236517206, tokenA, [0], [1], [102]]))).result
      = .error .runtimePanic := by
  decide

/-- C12 does not hold on the code: the same-shard initiation of one fungible transfer (n = 1, no
secondary call) towards another shard succeeds and emits the frame with the 4 arguments
`(1, tokenID, 0, quantity)`; cross-shard delivery of exactly these arguments to a destination
that is neither frozen nor paused fails with `ErrInvalidArguments` and credits nothing. -/
theorem sameShard_frame_not_deliverable :
    (transferB.ProcessBuiltinFunction (some senderA) none
        (some (selfCall [[1, 0], [1], tokenA, [], [1]] 1000))).result
      = .ok { ReturnCode := Ok, GasRemaining := 990,
              OutputAccounts := [([1, 0],
                { Address := [1, 0],
                  OutputTransfers := [{ Value := 0, GasLimit := 0, GasLocked := 0,
                                        Data := callData [6] [[1], tokenA, [0], [1]],
                                        CallType := 0, SenderAddress := [2, 2] }] })],
              Logs := [transferLogEntry transferB [2, 2] tokenA 0 [1, 0]] } ∧
    (transferDest.ProcessBuiltinFunction none (some destinationA)
        (some (crossCall [[1], tokenA, [0], [1]]))).result = .error .ErrInvalidArguments ∧
    (transferDest.ProcessBuiltinFunction none (some destinationA)
        (some (crossCall [[1], tokenA, [0], [1]]))).acntDst = some destinationA :=
  ⟨by decide, by decide, rfl⟩

theorem recordNonce_mergedRecord (incoming current : DCToken) :
    recordNonce (mergedRecord incoming current) = recordNonce incoming := by
  unfold mergedRecord
  cases current.TokenMetaData <;> rfl

theorem addNFTToDestination_eq_ok {e : dctNFTMultiTransfer} {dstAddress : Bytes}
    {userAccount acnt' : Account} {incoming stored : DCToken} {dctTokenKey : Bytes}
    {mustVerifyPayable isReturnCallWithError : Bool}
    (h : e.addNFTToDestination dstAddress userAccount incoming dctTokenKey mustVerifyPayable
      isReturnCallWithError = .ok (acnt', stored)) :
    ∃ current isNew marshaled,
      getDCTNFTTokenOnDestination userAccount dctTokenKey (recordNonce incoming) e.marshalizer
        = .ok (current, isNew) ∧
      stored = mergedRecord incoming current ∧
      e.marshalizer.Marshal stored = .ok marshaled ∧
      acnt' = userAccount.SaveKeyValue
        (computeDCTNFTTokenKey dctTokenKey (recordNonce incoming)) marshaled := by
  unfold dctNFTMultiTransfer.addNFTToDestination at h
  simp only at h
  split at h
  · cases h
  · split at h
    · split at h <;> cases h
    · rename_i current isNew hget
      split at h
      · cases h
      · split at h
        · cases h
        · rename_i merged hmerged
          split at h
          · cases h
          · rename_i marshaled acnt'' hsave
            simp only [Result.ok.injEq, Prod.mk.injEq] at h
            obtain ⟨ha, hs⟩ := h
            subst ha
            subst hs
            obtain ⟨-, hm, hacnt⟩ := saveDCTNFTToken_eq_ok hsave
            have hmergedEq : merged = mergedRecord incoming current := by
              unfold mergedRecord
              cases hc : current.TokenMetaData with
              | none =>
                simp only [hc] at hmerged
                cases hmerged
                rfl
              | some currentMetaData =>
                simp only [hc] at hmerged
                split at hmerged
                · cases hmerged
                · split at hmerged
                  · cases hmerged
                  · cases hmerged
                    rfl
            refine ⟨current, isNew, marshaled, hget, hmergedEq, hm, ?_⟩
            rw [hacnt, hmergedEq, recordNonce_mergedRecord]

theorem addToDCTBalance_eq_ok {userAcnt acnt' : Account} {key : Bytes} {value : Int}
    {m : Marshalizer} {IsPaused : Bytes → Bool} {isReturnWithError : Bool}
    (h : addToDCTBalance userAcnt key value m IsPaused isReturnWithError = .ok acnt') :
    ∃ current marshaled,
      getDCTDataFromKey userAcnt key m = .ok current ∧
      m.Marshal { current with Value := current.Value + value } = .ok marshaled ∧
      acnt' = userAcnt.SaveKeyValue key marshaled := by
  unfold addToDCTBalance at h
  split at h
  · cases h
  · rename_i current hget
    split at h
    · cases h
    · simp only at h
      split at h
      · cases h
      · unfold saveDCTData at h
        split at h
        · cases h
        · rename_i marshaled hm
          simp only [Result.ok.injEq] at h
          exact ⟨current, marshaled, hget, hm, h.symm⟩

/-- The credit of one asset triple of a cross-shard delivery (lines 158-178). -/
theorem destinationShardLoop_succ (e : dctNFTMultiTransfer) (vmInput : ContractCallInput)
    (minNumOfArguments remaining i : Nat) (acntDst : Account) (logs : List LogEntry)
    (tokenID nonceBytes payload : Bytes)
    (h0 : argAt vmInput.Arguments (1 + i * argumentsPerTransfer) = .ok tokenID)
    (h1 : argAt vmInput.Arguments (1 + i * argumentsPerTransfer + 1) = .ok nonceBytes)
    (h2 : argAt vmInput.Arguments (1 + i * argumentsPerTransfer + 2) = .ok payload) :
    e.destinationShardLoop vmInput minNumOfArguments (remaining + 1) i acntDst logs
      = match (if toUint64 (bigSetBytes nonceBytes) > 0 then
            match e.marshalizer.Unmarshal payload with
            | .error err => .error err
            | .ok dctTransferData =>
              match e.addNFTToDestination vmInput.RecipientAddr acntDst dctTransferData
                  (e.keyPrefix ++ tokenID) (e.mustVerifyPayable vmInput minNumOfArguments)
                  vmInput.ReturnCallAfterError with
              | .error err => .error err
              | .ok (credited, _) => .ok credited
          else
            addToDCTBalance acntDst (e.keyPrefix ++ tokenID) (bigSetBytes payload) e.marshalizer
              e.IsPaused vmInput.ReturnCallAfterError : Result Account) with
        | .error err => (some err, acntDst, logs)
        | .ok credited =>
          e.destinationShardLoop vmInput minNumOfArguments remaining (i + 1) credited
            (logs ++ [transferLogEntry e vmInput.CallerAddr tokenID
              (toUint64 (bigSetBytes nonceBytes)) credited.address]) := by
  rw [dctNFTMultiTransfer.destinationShardLoop]
  simp only [h0, h1, h2]
  rfl

/-- C14, amended: in cross-shard delivery the credit of an asset triple (tokenID, nonce,
payload), when it succeeds, does the following.  If the nonce argument decodes to 0, the payload,
read as an amount, is added to the value of the record the destination holds at key(tokenID),
which is written back there.  Otherwise the NFT record unmarshaled from the payload is merged
with the record the destination holds at the key of (tokenID, nonce of the record's metadata)
and stored at that key: the nonce argument does not select the key.  The loop then goes on with
the next triple on the account so written. -/
theorem destinationShard_credit (e : dctNFTMultiTransfer) (vmInput : ContractCallInput)
    (minNumOfArguments i : Nat) (acntDst acntDst' : Account) (logs logs' : List LogEntry)
    (tokenID nonceBytes payload : Bytes)
    (h0 : argAt vmInput.Arguments (1 + i * argumentsPerTransfer) = .ok tokenID)
    (h1 : argAt vmInput.Arguments (1 + i * argumentsPerTransfer + 1) = .ok nonceBytes)
    (h2 : argAt vmInput.Arguments (1 + i * argumentsPerTransfer + 2) = .ok payload)
    (hok : e.destinationShardLoop vmInput minNumOfArguments 1 i acntDst logs
      = (none, acntDst', logs')) :
    (toUint64 (bigSetBytes nonceBytes) = 0 →
      ∃ current marshaled,
        getDCTDataFromKey acntDst (e.keyPrefix ++ tokenID) e.marshalizer = .ok current ∧
        e.marshalizer.Marshal { current with Value := current.Value + bigSetBytes payload }
          = .ok marshaled ∧
        acntDst' = acntDst.SaveKeyValue (e.keyPrefix ++ tokenID) marshaled) ∧
    (toUint64 (bigSetBytes nonceBytes) ≠ 0 →
      ∃ record current isNew marshaled,
        e.marshalizer.Unmarshal payload = .ok record ∧
        getDCTNFTTokenOnDestination acntDst (e.keyPrefix ++ tokenID) (recordNonce record)
          e.marshalizer = .ok (current, isNew) ∧
        e.marshalizer.Marshal (mergedRecord record current) = .ok marshaled ∧
        acntDst' = acntDst.SaveKeyValue
          (computeDCTNFTTokenKey (e.keyPrefix ++ tokenID) (recordNonce record)) marshaled) ∧
    (∀ remaining,
      e.destinationShardLoop vmInput minNumOfArguments (remaining + 1) i acntDst logs
        = e.destinationShardLoop vmInput minNumOfArguments remaining (i + 1) acntDst' logs') := by
  have hstep := destinationShardLoop_succ e vmInput minNumOfArguments 0 i acntDst logs tokenID
    nonceBytes payload h0 h1 h2
  rw [show (0 + 1 : Nat) = 1 from rfl] at hstep
  rw [hstep] at hok
  by_cases hn : toUint64 (bigSetBytes nonceBytes) = 0
  · simp only [hn, gt_iff_lt, lt_self_iff_false, if_false] at hok
    cases hadd : addToDCTBalance acntDst (e.keyPrefix ++ tokenID) (bigSetBytes payload)
        e.marshalizer e.IsPaused vmInput.ReturnCallAfterError with
    | error err => simp [hadd] at hok
    | ok credited =>
      simp only [hadd, dctNFTMultiTransfer.destinationShardLoop, Prod.mk.injEq, true_and] at hok
      obtain ⟨hacnt, hlogs⟩ := hok
      subst hacnt
      subst hlogs
      refine ⟨fun _ => addToDCTBalance_eq_ok hadd, fun h => absurd hn h, fun remaining => ?_⟩
      rw [destinationShardLoop_succ e vmInput minNumOfArguments remaining i acntDst logs tokenID
        nonceBytes payload h0 h1 h2]
      simp only [hn, gt_iff_lt, lt_self_iff_false, if_false, hadd]
  · have hpos : toUint64 (bigSetBytes nonceBytes) > 0 := Nat.pos_of_ne_zero hn
    simp only [hpos, if_true] at hok
    cases hu : e.marshalizer.Unmarshal payload with
    | error err => simp [hu] at hok
    | ok record =>
      simp only [hu] at hok
      cases hadd : e.addNFTToDestination vmInput.RecipientAddr acntDst record
          (e.keyPrefix ++ tokenID) (e.mustVerifyPayable vmInput minNumOfArguments)
          vmInput.ReturnCallAfterError with
      | error err => simp [hadd] at hok
      | ok pair =>
        obtain ⟨credited, stored⟩ := pair
        simp only [hadd, dctNFTMultiTransfer.destinationShardLoop, Prod.mk.injEq, true_and]
          at hok
        obtain ⟨hacnt, hlogs⟩ := hok
        subst hacnt
        subst hlogs
        obtain ⟨current, isNew, marshaled, hget, hstored, hm, hacnt⟩ :=
          addNFTToDestination_eq_ok hadd
        refine ⟨fun h => absurd h hn,
          fun _ => ⟨record, current, isNew, marshaled, rfl, hget, hstored ▸ hm, hacnt⟩,
          fun remaining => ?_⟩
        rw [destinationShardLoop_succ e vmInput minNumOfArguments remaining i acntDst logs
          tokenID nonceBytes payload h0 h1 h2]
        simp only [hpos, if_true, hu, hadd]

theorem destinationShard_credit_witness :
    (∃ record current isNew marshaled,
      transferDest.marshalizer.Unmarshal (codecBytes (nftRecord 1 1 [9] [5])) = .ok record ∧
      getDCTNFTTokenOnDestination nftDestination (transferDest.keyPrefix ++ tokenA)
        (recordNonce record) transferDest.marshalizer = .ok (current, isNew) ∧
      transferDest.marshalizer.Marshal (mergedRecord record current) = .ok marshaled ∧
      (transferDest.destinationShardLoop
          (crossCall [[1], tokenA, [2], codecBytes (nftRecord 1 1 [9] [5]), [102]]) 4 1 0
          nftDestination []).2.1
        = nftDestination.SaveKeyValue
            (computeDCTNFTTokenKey (transferDest.keyPrefix ++ tokenA) (recordNonce record))
            marshaled) ∧
    (∃ current marshaled,
      getDCTDataFromKey destinationA (transferDest.keyPrefix ++ tokenA) transferDest.marshalizer
        = .ok current ∧
      transferDest.marshalizer.Marshal { current with Value := current.Value + bigSetBytes [1] }
        = .ok marshaled ∧
      (transferDest.destinationShardLoop (crossCall [[1], tokenA, [0], [1], [102]]) 4 1 0
          destinationA []).2.1
        = destinationA.SaveKeyValue (transferDest.keyPrefix ++ tokenA) marshaled) :=
  ⟨(destinationShard_credit transferDest
      (crossCall [[1], tokenA, [2], codecBytes (nftRecord 1 1 [9] [5]), [102]]) 4 0
      nftDestination
      (transferDest.destinationShardLoop
        (crossCall [[1], tokenA, [2], codecBytes (nftRecord 1 1 [9] [5]), [102]]) 4 1 0
        nftDestination []).2.1
      []
      (transferDest.destinationShardLoop
        (crossCall [[1], tokenA, [2], codecBytes (nftRecord 1 1 [9] [5]), [102]]) 4 1 0
        nftDestination []).2.2
      tokenA [2] (codecBytes (nftRecord 1 1 [9] [5])) rfl rfl rfl
      (Prod.ext (by decide) rfl)).2.1 (by decide),
   (destinationShard_credit transferDest (crossCall [[1], tokenA, [0], [1], [102]]) 4 0
      destinationA
      (transferDest.destinationShardLoop (crossCall [[1], tokenA, [0], [1], [102]]) 4 1 0
        destinationA []).2.1
      []
      (transferDest.destinationShardLoop (crossCall [[1], tokenA, [0], [1], [102]]) 4 1 0
        destinationA []).2.2
      tokenA [0] [1] rfl rfl rfl (Prod.ext (by decide) rfl)).1 (by decide)⟩

/-- C14 as stated does not hold on the code: a delivered triple whose nonce argument is 2 and
whose payload is an NFT record of nonce 1 is merged into the destination's holding at nonce 1
(1000 becomes 1001) and stored there; nothing is stored at the key of (tokenID, 2). -/
theorem destinationShard_nonce_argument_ignored :
    toUint64 (bigSetBytes [2]) = 2 ∧
    codecMarshalizer.Unmarshal (codecBytes (nftRecord 1 1 [9] [5]))
      = .ok (nftRecord 1 1 [9] [5]) ∧
    nftDestination.data (computeDCTNFTTokenKey (prefixA ++ tokenA) 1)
      = codecBytes (nftRecord 1000 1 [9] [5]) ∧
    (transferDest.ProcessBuiltinFunction none (some nftDestination)
        (some (crossCall [[1], tokenA, [2], codecBytes (nftRecord 1 1 [9] [5]), [102]]))).result
      = .ok (addOutputTransferToVMOutput [2, 2] [102] [] [1, 0] 0 0
          { ReturnCode := Ok, GasRemaining := 0, OutputAccounts := [],
            Logs := [transferLogEntry transferDest [2, 2] tokenA 2 [1, 0]] }) ∧
    (transferDest.ProcessBuiltinFunction none (some nftDestination)
        (some (crossCall [[1], tokenA, [2], codecBytes (nftRecord 1 1 [9] [5]), [102]]))).acntDst.map
        (fun acnt => (acnt.data (computeDCTNFTTokenKey (prefixA ++ tokenA) 1),
                      acnt.data (computeDCTNFTTokenKey (prefixA ++ tokenA) 2)))
      = some (codecBytes (nftRecord 1001 1 [9] [5]), []) := by
  decide

/-! ## Frozen destination of a same-shard transfer -/

theorem addNFTToDestination_frozen (e : dctNFTMultiTransfer) (dstAddress : Bytes)
    (userAccount : Account) (incoming current : DCToken) (isNew : Bool) (dctTokenKey : Bytes)
    (mustVerifyPayable : Bool)
    (hpay : e.IsPayable dstAddress = .ok true)
    (hcur : getDCTNFTTokenOnDestination userAccount dctTokenKey (recordNonce incoming)
      e.marshalizer = .ok (current, isNew))
    (hfrozen : (DCTUserMetadataFromBytes current.Properties).Frozen = true) :
    e.addNFTToDestination dstAddress userAccount incoming dctTokenKey mustVerifyPayable false
      = .error .ErrDCTIsFrozenForAccount := by
  have hcur' : getDCTNFTTokenOnDestination userAccount dctTokenKey
      (match incoming.TokenMetaData with
        | some metaData => metaData.Nonce
        | none => 0) e.marshalizer = .ok (current, isNew) := hcur
  unfold dctNFTMultiTransfer.addNFTToDestination
  cases mustVerifyPayable <;>
    simp [hpay, hcur', checkFrozeAndPause, hfrozen]

theorem addNFTToDestination_bypass (e : dctNFTMultiTransfer) (dstAddress : Bytes)
    (userAccount : Account) (incoming current : DCToken) (isNew : Bool)
    (dctTokenKey marshaled : Bytes) (mustVerifyPayable : Bool)
    (hpay : e.IsPayable dstAddress = .ok true)
    (hcur : getDCTNFTTokenOnDestination userAccount dctTokenKey (recordNonce incoming)
      e.marshalizer = .ok (current, isNew))
    (hcompat : ∀ currentMetaData, current.TokenMetaData = some currentMetaData →
      ∃ metaData, incoming.TokenMetaData = some metaData ∧ currentMetaData.Hash = metaData.Hash)
    (hmarshal : e.marshalizer.Marshal (mergedRecord incoming current) = .ok marshaled) :
    e.addNFTToDestination dstAddress userAccount incoming dctTokenKey mustVerifyPayable true
      = .ok (userAccount.SaveKeyValue
              (computeDCTNFTTokenKey dctTokenKey (recordNonce incoming)) marshaled,
             mergedRecord incoming current) := by
  have hcur' : getDCTNFTTokenOnDestination userAccount dctTokenKey
      (match incoming.TokenMetaData with
        | some metaData => metaData.Nonce
        | none => 0) e.marshalizer = .ok (current, isNew) := hcur
  have hsave := saveDCTNFTToken_ok userAccount dctTokenKey marshaled
    (mergedRecord incoming current) e.marshalizer e.IsPaused true rfl hmarshal
  rw [recordNonce_mergedRecord] at hsave
  have hpayable : (if mustVerifyPayable = true then
        match e.IsPayable dstAddress with
        | .error errIsPayable => Result.error errIsPayable
        | .ok isPayable => if (!isPayable) = true then .error .ErrAccountNotPayable else .ok ()
      else Result.ok ()) = .ok () := by
    cases mustVerifyPayable <;> simp [hpay]
  have hguard : checkFrozeAndPause e.IsPaused dstAddress dctTokenKey current true = .ok () := rfl
  unfold dctNFTMultiTransfer.addNFTToDestination
  simp only [hpayable, hcur', hguard]
  cases hc : current.TokenMetaData with
  | none =>
    have hm : mergedRecord incoming current = incoming := by
      unfold mergedRecord
      simp only [hc]
    rw [hm] at hsave
    simp only [hsave, hm]
  | some currentMetaData =>
    obtain ⟨metaData, hmeta, hhash⟩ := hcompat currentMetaData hc
    have hm : mergedRecord incoming current
        = { incoming with Value := incoming.Value + current.Value } := by
      unfold mergedRecord
      simp only [hc]
    rw [hm] at hsave
    simp only [hmeta] at hsave
    simp only [hmeta, ne_eq, hhash, not_true_eq_false, if_false, hsave, hm]

theorem transferOne_of_debit (e : dctNFTMultiTransfer) (snd dst : Account)
    (dstAddress tokenID : Bytes) (nonce : Nat) (quantityToTransfer : Int)
    (verifyPayable isReturnCallWithError : Bool) (held : DCToken) (marshaledSnd : Bytes)
    (hqty : 0 < quantityToTransfer)
    (hheld : getDCTNFTTokenOnSender snd (e.keyPrefix ++ tokenID) nonce e.marshalizer = .ok held)
    (hle : quantityToTransfer ≤ held.Value)
    (hguard : checkFrozeAndPause e.IsPaused snd.address (e.keyPrefix ++ tokenID) held
      isReturnCallWithError = .ok ())
    (hmarshal : e.marshalizer.Marshal { held with Value := held.Value - quantityToTransfer }
      = .ok marshaledSnd) :
    e.transferOneTokenOnSenderShard (some snd) (some dst) dstAddress tokenID nonce
        quantityToTransfer verifyPayable isReturnCallWithError
      = match e.addNFTToDestination dstAddress dst { held with Value := quantityToTransfer }
            (e.keyPrefix ++ tokenID) verifyPayable isReturnCallWithError with
        | .error err =>
          ⟨.error err,
           some (snd.SaveKeyValue
             (computeDCTNFTTokenKey (e.keyPrefix ++ tokenID) (recordNonce held)) marshaledSnd),
           some dst⟩
        | .ok (credited, dctData) =>
          ⟨.ok dctData,
           some (snd.SaveKeyValue
             (computeDCTNFTTokenKey (e.keyPrefix ++ tokenID) (recordNonce held)) marshaledSnd),
           some credited⟩ := by
  have hsave := saveDCTNFTToken_ok snd (e.keyPrefix ++ tokenID) marshaledSnd
    { held with Value := held.Value - quantityToTransfer } e.marshalizer e.IsPaused
    isReturnCallWithError hguard hmarshal
  have hq : ¬ quantityToTransfer ≤ 0 := not_le.mpr hqty
  have hv : ¬ held.Value < quantityToTransfer := not_lt.mpr hle
  unfold dctNFTMultiTransfer.transferOneTokenOnSenderShard
  simp only [hq, if_false, hheld, hv, hsave]
  rfl

theorem processOnSenderShard_of_valid (e : dctNFTMultiTransfer) (acntSnd : Option Account)
    (vmInput : ContractCallInput) (loaded : Option Account)
    (hlen : 5 ≤ vmInput.Arguments.length)
    (hvalid : senderShardValidationFailure e vmInput = none)
    (hload : e.loadAccountIfInShard (vmInput.Arguments.getD 0 []) = .ok loaded)
    (hmake : makesliceOK (toUint64 (bigSetBytes (vmInput.Arguments.getD 1 []))) = true) :
    e.processDCTNFTMultiTransferOnSenderShard acntSnd vmInput
      = match e.senderShardLoop vmInput (vmInput.Arguments.getD 0 [])
            (e.mustVerifyPayable vmInput
              (u64add (u64mul (toUint64 (bigSetBytes (vmInput.Arguments.getD 1 [])))
                argumentsPerTransfer) 2))
            (toUint64 (bigSetBytes (vmInput.Arguments.getD 1 []))) 0
            ⟨acntSnd, loaded, [], [], []⟩ with
        | (some err, st) => ⟨.error err, st.acntSnd, st.acntDst⟩
        | (none, st) =>
          match (match st.acntDst with
              | some dst => e.SaveAccount dst
              | none => none : Option Error) with
          | some err => ⟨.error err, st.acntSnd, st.acntDst⟩
          | none =>
            match e.createDCTNFTOutputTransfers vmInput
                { ReturnCode := Ok,
                  GasRemaining := u64sub vmInput.GasProvided
                    (u64mul (toUint64 (bigSetBytes (vmInput.Arguments.getD 1 [])))
                      e.funcGasCost),
                  OutputAccounts := [], Logs := st.logs }
                st.listDctData st.listTokenID (vmInput.Arguments.getD 0 []) with
            | .error err => ⟨.error err, st.acntSnd, st.acntDst⟩
            | .ok vmOutput => ⟨.ok vmOutput, st.acntSnd, st.acntDst⟩ := by
  have ha0 := argAt_eq_getD vmInput.Arguments 0 (by omega)
  have ha1 := argAt_eq_getD vmInput.Arguments 1 (by omega)
  unfold senderShardValidationFailure at hvalid
  unfold dctNFTMultiTransfer.processDCTNFTMultiTransferOnSenderShard
  simp only [ha0, ha1]
  generalize vmInput.Arguments.getD 0 [] = dstAddress at *
  generalize vmInput.Arguments.getD 1 [] = countBytes at *
  by_cases c1 : dstAddress.length ≠ vmInput.CallerAddr.length
  · simp [c1] at hvalid
  · by_cases c2 : dstAddress = vmInput.CallerAddr
    · simp [c1, c2] at hvalid
    · by_cases c3 : e.ComputeId dstAddress = e.MetachainShardId
      · simp [c1, c2, c3] at hvalid
      · by_cases c4 : toUint64 (bigSetBytes countBytes) = 0
        · simp [c1, c2, c3, c4] at hvalid
        · by_cases c5 : vmInput.Arguments.length
              < u64add (u64mul (toUint64 (bigSetBytes countBytes)) argumentsPerTransfer) 2
          · simp [c1, c2, c3, c4, c5] at hvalid
          · by_cases c6 : vmInput.GasProvided
                < u64mul (toUint64 (bigSetBytes countBytes)) e.funcGasCost
            · simp [c1, c2, c3, c4, c5, c6] at hvalid
            · simp only [c1, c2, c3, c4, c5, c6, if_false, hload, hmake, Bool.not_true,
                Bool.false_eq_true]

theorem senderShardLoop_succ (e : dctNFTMultiTransfer) (vmInput : ContractCallInput)
    (dstAddress : Bytes) (verifyPayable : Bool) (remaining i : Nat) (st : LoopState)
    (tokenID nonceBytes quantityBytes : Bytes)
    (h0 : argAt vmInput.Arguments (2 + i * argumentsPerTransfer) = .ok tokenID)
    (h1 : argAt vmInput.Arguments (2 + i * argumentsPerTransfer + 1) = .ok nonceBytes)
    (h2 : argAt vmInput.Arguments (2 + i * argumentsPerTransfer + 2) = .ok quantityBytes) :
    e.senderShardLoop vmInput dstAddress verifyPayable (remaining + 1) i st
      = match (e.transferOneTokenOnSenderShard st.acntSnd st.acntDst dstAddress tokenID
            (toUint64 (bigSetBytes nonceBytes)) (bigSetBytes quantityBytes) verifyPayable
            vmInput.ReturnCallAfterError) with
        | ⟨.error err, acntSnd, acntDst⟩ =>
          (some err, { st with acntSnd := acntSnd, acntDst := acntDst })
        | ⟨.ok dctData, acntSnd, acntDst⟩ =>
          e.senderShardLoop vmInput dstAddress verifyPayable remaining (i + 1)
            { acntSnd := acntSnd, acntDst := acntDst,
              listDctData := st.listDctData ++ [dctData],
              listTokenID := st.listTokenID ++ [tokenID],
              logs := st.logs ++ [transferLogEntry e vmInput.CallerAddr tokenID
                (toUint64 (bigSetBytes nonceBytes)) dstAddress] } := by
  rw [dctNFTMultiTransfer.senderShardLoop]
  simp only [h0, h1, h2]
  generalize e.transferOneTokenOnSenderShard st.acntSnd st.acntDst dstAddress tokenID
    (toUint64 (bigSetBytes nonceBytes)) (bigSetBytes quantityBytes) verifyPayable
    vmInput.ReturnCallAfterError = step
  obtain ⟨result, acntSnd, acntDst⟩ := step
  cases result <;> rfl

theorem createDCTNFTOutputTransfers_ok (e : dctNFTMultiTransfer) (vmInput : ContractCallInput)
    (vmOutput : VMOutput) (records : List DCToken) (ids : List Bytes) (dstAddress : Bytes)
    (produced : Nat × List Bytes)
    (h : e.outputTransferArgs records ids vmOutput.GasRemaining [bigBytes records.length]
      = .ok produced) :
    ∃ out, e.createDCTNFTOutputTransfers vmInput vmOutput records ids dstAddress = .ok out := by
  unfold dctNFTMultiTransfer.createDCTNFTOutputTransfers
  simp only [h]
  split_ifs <;> exact ⟨_, rfl⟩

theorem count_ne_zero_of_valid (e : dctNFTMultiTransfer) (vmInput : ContractCallInput)
    (hvalid : senderShardValidationFailure e vmInput = none) :
    toUint64 (bigSetBytes (vmInput.Arguments.getD 1 [])) ≠ 0 := by
  intro hz
  unfold senderShardValidationFailure at hvalid
  simp only [hz] at hvalid
  split_ifs at hvalid

theorem frozen_destination_rejected (e : dctNFTMultiTransfer) (snd dst : Account)
    (acntDst : Option Account) (vmInput : ContractCallInput)
    (dstAddress countBytes tokenID nonceBytes quantityBytes : Bytes) (rest : List Bytes)
    (held current : DCToken) (marshaledSnd : Bytes)
    (hflag : vmInput.ReturnCallAfterError = false)
    (hvalue : vmInput.CallValue = some 0)
    (haddr : vmInput.CallerAddr = vmInput.RecipientAddr)
    (hargs : vmInput.Arguments
      = dstAddress :: countBytes :: tokenID :: nonceBytes :: quantityBytes :: rest)
    (hvalid : senderShardValidationFailure e vmInput = none)
    (hload : e.loadAccountIfInShard dstAddress = .ok (some dst))
    (hmake : makesliceOK (toUint64 (bigSetBytes countBytes)) = true)
    (hpay : e.IsPayable dstAddress = .ok true)
    (hheld : getDCTNFTTokenOnSender snd (e.keyPrefix ++ tokenID)
      (toUint64 (bigSetBytes nonceBytes)) e.marshalizer = .ok held)
    (hnonce : recordNonce held = toUint64 (bigSetBytes nonceBytes))
    (hqty : 0 < bigSetBytes quantityBytes)
    (hle : (bigSetBytes quantityBytes : Int) ≤ held.Value)
    (hsndGuard : checkFrozeAndPause e.IsPaused snd.address (e.keyPrefix ++ tokenID) held false
      = .ok ())
    (hmarshalSnd : e.marshalizer.Marshal
      { held with Value := held.Value - bigSetBytes quantityBytes } = .ok marshaledSnd)
    (hcur : getDCTNFTTokenOnDestination dst (e.keyPrefix ++ tokenID)
      (toUint64 (bigSetBytes nonceBytes)) e.marshalizer = .ok (current, false))
    (hfrozen : (DCTUserMetadataFromBytes current.Properties).Frozen = true) :
    (e.ProcessBuiltinFunction (some snd) acntDst (some vmInput)).result
      = .error .ErrDCTIsFrozenForAccount := by
  have hlen : 5 ≤ vmInput.Arguments.length := by simp [hargs]
  have h0 : vmInput.Arguments.getD 0 [] = dstAddress := by simp [hargs]
  have h1 : vmInput.Arguments.getD 1 [] = countBytes := by simp [hargs]
  have ha2 : argAt vmInput.Arguments (2 + 0 * argumentsPerTransfer) = .ok tokenID := by
    rw [hargs]; rfl
  have ha3 : argAt vmInput.Arguments (2 + 0 * argumentsPerTransfer + 1) = .ok nonceBytes := by
    rw [hargs]; rfl
  have ha4 : argAt vmInput.Arguments (2 + 0 * argumentsPerTransfer + 2) = .ok quantityBytes := by
    rw [hargs]; rfl
  have hcount := count_ne_zero_of_valid e vmInput hvalid
  rw [h1] at hcount
  obtain ⟨k, hk⟩ := Nat.exists_eq_succ_of_ne_zero hcount
  have hcurHeld : getDCTNFTTokenOnDestination dst (e.keyPrefix ++ tokenID)
      (recordNonce { held with Value := (bigSetBytes quantityBytes : Int) }) e.marshalizer
      = .ok (current, false) := by
    rw [show recordNonce { held with Value := (bigSetBytes quantityBytes : Int) }
      = recordNonce held from rfl, hnonce]
    exact hcur
  rw [ProcessBuiltinFunction_senderShard e (some snd) acntDst vmInput hvalue hlen haddr,
    processOnSenderShard_of_valid e (some snd) vmInput (some dst) hlen hvalid
      (by rw [h0]; exact hload) (by rw [h1]; exact hmake)]
  simp only [h0, h1]
  generalize e.mustVerifyPayable vmInput
    (u64add (u64mul (toUint64 (bigSetBytes countBytes)) argumentsPerTransfer) 2) = verify
  rw [hk, Nat.succ_eq_add_one,
    senderShardLoop_succ e vmInput dstAddress verify k 0 _ tokenID nonceBytes quantityBytes
      ha2 ha3 ha4]
  simp only [hflag]
  rw [transferOne_of_debit e snd dst dstAddress tokenID _ _ verify false held marshaledSnd
      (by exact_mod_cast hqty) hheld hle hsndGuard hmarshalSnd,
    addNFTToDestination_frozen e dstAddress dst _ current false _ verify hpay hcurHeld hfrozen]

theorem outputTransferArgs_single (e : dctNFTMultiTransfer) (d : DCToken)
    (tokenID marshaled : Bytes) (gas : Nat) (args : List Bytes)
    (hmarshal : e.marshalizer.Marshal d = .ok marshaled)
    (hgas : u64mul marshaled.length e.DataCopyPerByte ≤ gas) :
    ∃ produced, e.outputTransferArgs [d] [tokenID] gas args = .ok produced := by
  have hg : ¬ u64mul marshaled.length e.DataCopyPerByte > gas := by omega
  cases hmeta : d.TokenMetaData with
  | none =>
    refine ⟨(gas, args ++ [tokenID] ++ [[0], bigBytes d.Value.natAbs]), ?_⟩
    simp only [dctNFTMultiTransfer.outputTransferArgs, hmeta]
  | some metaData =>
    refine ⟨(u64sub gas (u64mul marshaled.length e.DataCopyPerByte),
      args ++ [tokenID] ++ [bigBytes metaData.Nonce, marshaled]), ?_⟩
    simp only [dctNFTMultiTransfer.outputTransferArgs, hmeta, hmarshal, hg, if_false]

theorem senderShardLoop_zero (e : dctNFTMultiTransfer) (vmInput : ContractCallInput)
    (dstAddress : Bytes) (verifyPayable : Bool) (i : Nat) (st : LoopState) :
    e.senderShardLoop vmInput dstAddress verifyPayable 0 i st = (none, st) := by
  rw [dctNFTMultiTransfer.senderShardLoop]

theorem frozen_destination_bypassed (e : dctNFTMultiTransfer) (snd dst : Account)
    (acntDst : Option Account) (vmInput : ContractCallInput)
    (dstAddress countBytes tokenID nonceBytes quantityBytes : Bytes) (rest : List Bytes)
    (held current : DCToken) (marshaledSnd marshaledDst : Bytes)
    (hflag : vmInput.ReturnCallAfterError = true)
    (hvalue : vmInput.CallValue = some 0)
    (haddr : vmInput.CallerAddr = vmInput.RecipientAddr)
    (hargs : vmInput.Arguments
      = dstAddress :: countBytes :: tokenID :: nonceBytes :: quantityBytes :: rest)
    (hvalid : senderShardValidationFailure e vmInput = none)
    (hload : e.loadAccountIfInShard dstAddress = .ok (some dst))
    (hmake : makesliceOK (toUint64 (bigSetBytes countBytes)) = true)
    (hpay : e.IsPayable dstAddress = .ok true)
    (hheld : getDCTNFTTokenOnSender snd (e.keyPrefix ++ tokenID)
      (toUint64 (bigSetBytes nonceBytes)) e.marshalizer = .ok held)
    (hnonce : recordNonce held = toUint64 (bigSetBytes nonceBytes))
    (hqty : 0 < bigSetBytes quantityBytes)
    (hle : (bigSetBytes quantityBytes : Int) ≤ held.Value)
    (hmarshalSnd : e.marshalizer.Marshal
      { held with Value := held.Value - bigSetBytes quantityBytes } = .ok marshaledSnd)
    (hcur : getDCTNFTTokenOnDestination dst (e.keyPrefix ++ tokenID)
      (toUint64 (bigSetBytes nonceBytes)) e.marshalizer = .ok (current, false))
    (hone : toUint64 (bigSetBytes countBytes) = 1)
    (hcompat : ∀ currentMetaData, current.TokenMetaData = some currentMetaData →
      ∃ metaData, held.TokenMetaData = some metaData ∧ currentMetaData.Hash = metaData.Hash)
    (hmarshalDst : e.marshalizer.Marshal
      (mergedRecord { held with Value := (bigSetBytes quantityBytes : Int) } current)
      = .ok marshaledDst)
    (hsaved : e.SaveAccount (dst.SaveKeyValue
      (computeDCTNFTTokenKey (e.keyPrefix ++ tokenID) (toUint64 (bigSetBytes nonceBytes)))
      marshaledDst) = none)
    (hgas : u64mul marshaledDst.length e.DataCopyPerByte
      ≤ u64sub vmInput.GasProvided (u64mul 1 e.funcGasCost)) :
    ∃ out, (e.ProcessBuiltinFunction (some snd) acntDst (some vmInput)).result = .ok out := by
  have hlen : 5 ≤ vmInput.Arguments.length := by simp [hargs]
  have h0 : vmInput.Arguments.getD 0 [] = dstAddress := by simp [hargs]
  have h1 : vmInput.Arguments.getD 1 [] = countBytes := by simp [hargs]
  have ha2 : argAt vmInput.Arguments (2 + 0 * argumentsPerTransfer) = .ok tokenID := by
    rw [hargs]; rfl
  have ha3 : argAt vmInput.Arguments (2 + 0 * argumentsPerTransfer + 1) = .ok nonceBytes := by
    rw [hargs]; rfl
  have ha4 : argAt vmInput.Arguments (2 + 0 * argumentsPerTransfer + 2) = .ok quantityBytes := by
    rw [hargs]; rfl
  have hrecord : recordNonce { held with Value := (bigSetBytes quantityBytes : Int) }
      = toUint64 (bigSetBytes nonceBytes) := hnonce
  have hcurHeld : getDCTNFTTokenOnDestination dst (e.keyPrefix ++ tokenID)
      (recordNonce { held with Value := (bigSetBytes quantityBytes : Int) }) e.marshalizer
      = .ok (current, false) := by
    rw [hrecord]
    exact hcur
  have hcredit := addNFTToDestination_bypass e dstAddress dst
    { held with Value := (bigSetBytes quantityBytes : Int) } current false
    (e.keyPrefix ++ tokenID) marshaledDst
    (e.mustVerifyPayable vmInput
      (u64add (u64mul (toUint64 (bigSetBytes countBytes)) argumentsPerTransfer) 2))
    hpay hcurHeld hcompat hmarshalDst
  rw [hrecord] at hcredit
  obtain ⟨produced, hproduced⟩ := outputTransferArgs_single e
    (mergedRecord { held with Value := (bigSetBytes quantityBytes : Int) } current) tokenID
    marshaledDst _ [bigBytes 1] hmarshalDst hgas
  obtain ⟨out, hout⟩ := createDCTNFTOutputTransfers_ok e vmInput
    { ReturnCode := Ok,
      GasRemaining := u64sub vmInput.GasProvided (u64mul 1 e.funcGasCost),
      OutputAccounts := [],
      Logs := [transferLogEntry e vmInput.CallerAddr tokenID
        (toUint64 (bigSetBytes nonceBytes)) dstAddress] }
    [mergedRecord { held with Value := (bigSetBytes quantityBytes : Int) } current] [tokenID]
    dstAddress produced hproduced
  have hloop := senderShardLoop_succ e vmInput dstAddress
    (e.mustVerifyPayable vmInput
      (u64add (u64mul (toUint64 (bigSetBytes countBytes)) argumentsPerTransfer) 2))
    0 0 ⟨some snd, some dst, [], [], []⟩ tokenID nonceBytes quantityBytes ha2 ha3 ha4
  rw [show (0 + 1 : Nat) = 1 from rfl] at hloop
  simp only [hflag] at hloop
  rw [transferOne_of_debit e snd dst dstAddress tokenID _ _ _ true held marshaledSnd
      (by exact_mod_cast hqty) hheld hle rfl hmarshalSnd, hcredit] at hloop
  simp only [senderShardLoop_zero] at hloop
  refine ⟨out, ?_⟩
  rw [ProcessBuiltinFunction_senderShard e (some snd) acntDst vmInput hvalue hlen haddr,
    processOnSenderShard_of_valid e (some snd) vmInput (some dst) hlen hvalid
      (by rw [h0]; exact hload) (by rw [h1]; exact hmake)]
  simp only [h0, h1]
  rw [hone] at hloop ⊢
  rw [hloop]
  simp only [hsaved, List.nil_append, hout]

/-! ## Gas of freeze, unfreeze and wipe -/

/-- C21 as stated does not hold on the code: a successful freeze and a successful wipe called
with 7 units of gas return an output whose gasRemaining is 0, not 7. -/
theorem freezeWipe_gasRemaining_zero :
    (systemCallWithGas [tokenA] 7).GasProvided = 7 ∧
    (freezeA.ProcessBuiltinFunction (some destinationA) (some (systemCallWithGas [tokenA] 7))).1
      = .ok { ReturnCode := Ok, GasRemaining := 0, OutputAccounts := [], Logs := [] } ∧
    (wipeA.ProcessBuiltinFunction (some frozenHolder) (some (systemCallWithGas [tokenA] 7))).1
      = .ok { ReturnCode := Ok, GasRemaining := 0, OutputAccounts := [],
              Logs := [wipeLogEntry wipeA [255] tokenA [1, 0]] } := by
  decide

/-- C21, amended: freeze, unfreeze and wipe do no gas metering.  The call does not read
gasProvided - its result is the same for every gasProvided - and every successful call returns
the return code Ok, gasRemaining 0 and no output account. -/
theorem freezeWipe_no_gas_metering (e : dctFreezeWipe) (acntDst acntDst' : Option Account)
    (vmInput : ContractCallInput) (out : VMOutput)
    (hok : e.ProcessBuiltinFunction acntDst (some vmInput) = (.ok out, acntDst')) :
    (out.ReturnCode = Ok ∧ out.GasRemaining = 0 ∧ out.OutputAccounts = []) ∧
    ∀ gas, e.ProcessBuiltinFunction acntDst (some { vmInput with GasProvided := gas })
      = e.ProcessBuiltinFunction acntDst (some vmInput) := by
  refine ⟨?_, fun gas => rfl⟩
  unfold dctFreezeWipe.ProcessBuiltinFunction at hok
  cases hv : vmInput.CallValue with
  | none => simp [hv] at hok
  | some callValue =>
    simp only [hv] at hok
    by_cases h1 : callValue ≠ 0
    · simp [h1] at hok
    · by_cases h2 : vmInput.Arguments.length ≠ 1
      · simp [h1, h2] at hok
      · by_cases h3 : vmInput.CallerAddr ≠ e.DCTSCAddress
        · simp [h1, h2, h3] at hok
        · cases acntDst with
          | none => simp [h1, h2, h3] at hok
          | some acnt =>
            simp only [h1, h2, h3, if_false] at hok
            generalize vmInput.Arguments.getD 0 [] = tokenID at hok
            cases hch : (if e.wipe = true then e.wipeIfApplicable acnt (e.keyPrefix ++ tokenID)
              else e.toggleFreeze acnt (e.keyPrefix ++ tokenID)) with
            | error err => simp [hch] at hok
            | ok acnt' =>
              simp only [hch, Prod.mk.injEq, Result.ok.injEq] at hok
              obtain ⟨hout, -⟩ := hok
              subst hout
              by_cases hw : e.wipe = true <;> simp [hw, addDCTEntryInVMOutput]

theorem freezeWipe_no_gas_metering_witness :
    (({ ReturnCode := Ok, GasRemaining := 0, OutputAccounts := [], Logs := [] } :
        VMOutput).ReturnCode = Ok ∧
     ({ ReturnCode := Ok, GasRemaining := 0, OutputAccounts := [], Logs := [] } :
        VMOutput).GasRemaining = 0 ∧
     ({ ReturnCode := Ok, GasRemaining := 0, OutputAccounts := [], Logs := [] } :
        VMOutput).OutputAccounts = []) ∧
    ∀ gas, freezeA.ProcessBuiltinFunction (some destinationA)
        (some { systemCallWithGas [tokenA] 7 with GasProvided := gas })
      = freezeA.ProcessBuiltinFunction (some destinationA)
        (some (systemCallWithGas [tokenA] 7)) :=
  freezeWipe_no_gas_metering freezeA (some destinationA)
    (freezeA.ProcessBuiltinFunction (some destinationA)
      (some (systemCallWithGas [tokenA] 7))).2
    (systemCallWithGas [tokenA] 7)
    { ReturnCode := Ok, GasRemaining := 0, OutputAccounts := [], Logs := [] }
    (Prod.ext (by decide) rfl)

/-! ## Multi-asset transfer: rejections before any record is touched -/

/-- C25: a same-shard initiation of a multi-asset transfer (zero call value, at least 5
arguments, caller == recipient) rejects a destination whose length differs from the caller's
with `ErrInvalidArguments`, a destination equal to the caller with `ErrInvalidArguments`, and a
destination of the caller's length, other than the caller, that the shard coordinator maps to
the metachain shard with `ErrInvalidRcvAddr`; in each case the sender account is the one passed
in and no destination account was loaded. -/
theorem senderShard_destination_rejected (e : dctNFTMultiTransfer)
    (acntSnd acntDst : Option Account) (vmInput : ContractCallInput)
    (hvalue : vmInput.CallValue = some 0) (hlen : 5 ≤ vmInput.Arguments.length)
    (haddr : vmInput.CallerAddr = vmInput.RecipientAddr) :
    ((vmInput.Arguments.getD 0 []).length ≠ vmInput.CallerAddr.length →
      e.ProcessBuiltinFunction acntSnd acntDst (some vmInput)
        = ⟨.error .ErrInvalidArguments, acntSnd, none⟩) ∧
    (vmInput.Arguments.getD 0 [] = vmInput.CallerAddr →
      e.ProcessBuiltinFunction acntSnd acntDst (some vmInput)
        = ⟨.error .ErrInvalidArguments, acntSnd, none⟩) ∧
    ((vmInput.Arguments.getD 0 []).length = vmInput.CallerAddr.length →
      vmInput.Arguments.getD 0 [] ≠ vmInput.CallerAddr →
      e.ComputeId (vmInput.Arguments.getD 0 []) = e.MetachainShardId →
      e.ProcessBuiltinFunction acntSnd acntDst (some vmInput)
        = ⟨.error .ErrInvalidRcvAddr, acntSnd, none⟩) := by
  rw [ProcessBuiltinFunction_senderShard e acntSnd acntDst vmInput hvalue hlen haddr]
  have ha0 := argAt_eq_getD vmInput.Arguments 0 (by omega)
  unfold dctNFTMultiTransfer.processDCTNFTMultiTransferOnSenderShard
  simp only [ha0]
  generalize vmInput.Arguments.getD 0 [] = dstAddress at *
  refine ⟨fun h1 => ?_, fun h2 => ?_, fun h1 h2 h3 => ?_⟩
  · simp only [h1, ne_eq, not_false_eq_true, if_true]
  · subst h2
    simp only [ne_eq, not_true_eq_false, if_false, if_true]
  · simp only [h1, ne_eq, not_true_eq_false, if_false, h2, h3, if_true]

theorem senderShard_destination_rejected_witness :
    transferA.ProcessBuiltinFunction (some senderA) none
        (some (selfCall [[1], [1], tokenA, [], [1]] 100))
      = ⟨.error .ErrInvalidArguments, some senderA, none⟩ ∧
    transferA.ProcessBuiltinFunction (some senderA) none
        (some (selfCall [[2, 2], [1], tokenA, [], [1]] 100))
      = ⟨.error .ErrInvalidArguments, some senderA, none⟩ ∧
    { transferA with MetachainShardId := 0 }.ProcessBuiltinFunction (some senderA) none
        (some (selfCall [[1, 0], [1], tokenA, [], [1]] 100))
      = ⟨.error .ErrInvalidRcvAddr, some senderA, none⟩ :=
  ⟨(senderShard_destination_rejected transferA (some senderA) none
      (selfCall [[1], [1], tokenA, [], [1]] 100) rfl (by decide) rfl).1 (by decide),
   (senderShard_destination_rejected transferA (some senderA) none
      (selfCall [[2, 2], [1], tokenA, [], [1]] 100) rfl (by decide) rfl).2.1 (by decide),
   (senderShard_destination_rejected { transferA with MetachainShardId := 0 } (some senderA)
      none (selfCall [[1, 0], [1], tokenA, [], [1]] 100) rfl (by decide) rfl).2.2
      (by decide) (by decide) (by decide)⟩

/-- C26 as stated does not hold on the code: with a function cost of 2^63 and two transfers,
100 units of gas are fewer than `n * funcGasCost`, yet the call does not fail with
`ErrNotEnoughGas` - the product is computed in 64 bits and wraps to 0 - and the sender's record
is debited. -/
theorem senderShard_gas_check_wraps :
    toUint64 (bigSetBytes [2]) = 2 ∧
    (selfCall [[1, 0], [2], tokenA, [], [1], tokenA, [], [1]] 100).GasProvided
      < 2 * transferCostly.funcGasCost ∧
    u64mul 2 transferCostly.funcGasCost = 0 ∧
    (transferCostly.ProcessBuiltinFunction (some senderA) none
        (some (selfCall [[1, 0], [2], tokenA, [], [1], tokenA, [], [1]] 100))).result
      ≠ .error .ErrNotEnoughGas ∧
    (transferCostly.ProcessBuiltinFunction (some senderA) none
        (some (selfCall [[1, 0], [2], tokenA, [], [1], tokenA, [], [1]] 100))).acntSnd.map
        (fun acnt => acnt.data (prefixA ++ tokenA))
      = some (codecBytes (fungibleRecord 1 [])) := by
  decide

/-- C26, amended: a same-shard initiation of a multi-asset transfer with `n` transfers whose
destination passes the address checks, with `n >= 1` and at least `2 + 3 * n` arguments, fails
with `ErrNotEnoughGas` whenever `n * funcGasCost` is below 2^64 and gasProvided is smaller than
it; the sender account is then the one passed in and no destination account was loaded. -/
theorem senderShard_not_enough_gas (e : dctNFTMultiTransfer)
    (acntSnd acntDst : Option Account) (vmInput : ContractCallInput)
    (hvalue : vmInput.CallValue = some 0) (hlen : 5 ≤ vmInput.Arguments.length)
    (haddr : vmInput.CallerAddr = vmInput.RecipientAddr)
    (hshape : (vmInput.Arguments.getD 0 []).length = vmInput.CallerAddr.length)
    (hself : vmInput.Arguments.getD 0 [] ≠ vmInput.CallerAddr)
    (hmeta : e.ComputeId (vmInput.Arguments.getD 0 []) ≠ e.MetachainShardId)
    (hcount : toUint64 (bigSetBytes (vmInput.Arguments.getD 1 [])) ≠ 0)
    (hargs : 2 + 3 * toUint64 (bigSetBytes (vmInput.Arguments.getD 1 []))
      ≤ vmInput.Arguments.length)
    (hslice : vmInput.Arguments.length < 2 ^ 64)
    (hcost : toUint64 (bigSetBytes (vmInput.Arguments.getD 1 [])) * e.funcGasCost < 2 ^ 64)
    (hgas : vmInput.GasProvided
      < toUint64 (bigSetBytes (vmInput.Arguments.getD 1 [])) * e.funcGasCost) :
    e.ProcessBuiltinFunction acntSnd acntDst (some vmInput)
      = ⟨.error .ErrNotEnoughGas, acntSnd, none⟩ := by
  rw [ProcessBuiltinFunction_senderShard e acntSnd acntDst vmInput hvalue hlen haddr]
  have ha0 := argAt_eq_getD vmInput.Arguments 0 (by omega)
  have ha1 := argAt_eq_getD vmInput.Arguments 1 (by omega)
  unfold dctNFTMultiTransfer.processDCTNFTMultiTransferOnSenderShard
  simp only [ha0, ha1]
  generalize vmInput.Arguments.getD 0 [] = dstAddress at *
  generalize toUint64 (bigSetBytes (vmInput.Arguments.getD 1 [])) = n at *
  have hmul : u64mul n argumentsPerTransfer = n * 3 :=
    u64mul_of_lt (by simp only [argumentsPerTransfer]; omega)
  have hadd : u64add (n * 3) 2 = n * 3 + 2 := u64add_of_lt (by omega)
  have hmin : ¬ vmInput.Arguments.length < n * 3 + 2 := by omega
  have hcostEq : u64mul n e.funcGasCost = n * e.funcGasCost := u64mul_of_lt hcost
  simp only [hshape, ne_eq, not_true_eq_false, if_false, hself, hmeta, hcount, hmul, hadd, hmin,
    hcostEq, hgas, if_true]

theorem senderShard_not_enough_gas_witness :
    transferB.ProcessBuiltinFunction (some senderA) none
        (some (selfCall [[1, 0], [2], tokenA, [], [1], tokenA, [], [1]] 19))
      = ⟨.error .ErrNotEnoughGas, some senderA, none⟩ :=
  senderShard_not_enough_gas transferB (some senderA) none
    (selfCall [[1, 0], [2], tokenA, [], [1], tokenA, [], [1]] 19) rfl (by decide) rfl
    (by decide) (by decide) (by decide) (by decide) (by decide) (by decide) (by decide)
    (by decide)

/-! ## Cross-shard delivery: accounts and gas -/

/-- C27: a cross-shard delivery of a multi-asset transfer (zero call value, at least 5
arguments, callerAddr != recipientAddr) fails with `ErrInvalidRcvAddr` whenever a sender
account is present or the destination account is absent, and both accounts are returned as
they were passed in. -/
theorem crossShard_accounts_rejected (e : dctNFTMultiTransfer)
    (acntSnd acntDst : Option Account) (vmInput : ContractCallInput)
    (hvalue : vmInput.CallValue = some 0) (hlen : 5 ≤ vmInput.Arguments.length)
    (haddr : vmInput.CallerAddr ≠ vmInput.RecipientAddr)
    (haccounts : acntSnd.isSome = true ∨ acntDst = none) :
    e.ProcessBuiltinFunction acntSnd acntDst (some vmInput)
      = ⟨.error .ErrInvalidRcvAddr, acntSnd, acntDst⟩ := by
  have h5 : ¬ vmInput.Arguments.length < 5 := by omega
  unfold dctNFTMultiTransfer.ProcessBuiltinFunction
  simp only [checkBasicDCTArguments_ok vmInput hvalue (by omega), h5, if_false, haddr]
  by_cases hsnd : acntSnd.isSome = true
  · simp only [hsnd, if_true]
  · rcases haccounts with h | h
    · exact absurd h hsnd
    · subst h
      simp only [hsnd, Bool.false_eq_true, if_false]

theorem crossShard_accounts_rejected_witness :
    transferDest.ProcessBuiltinFunction (some senderA) (some destinationA)
        (some (crossCall [[1], tokenA, [0], [1], [102]]))
      = ⟨.error .ErrInvalidRcvAddr, some senderA, some destinationA⟩ ∧
    transferDest.ProcessBuiltinFunction none none
        (some (crossCall [[1], tokenA, [0], [1], [102]]))
      = ⟨.error .ErrInvalidRcvAddr, none, none⟩ :=
  ⟨crossShard_accounts_rejected transferDest (some senderA) (some destinationA)
      (crossCall [[1], tokenA, [0], [1], [102]]) rfl (by decide) (by decide) (Or.inl rfl),
   crossShard_accounts_rejected transferDest none none
      (crossCall [[1], tokenA, [0], [1], [102]]) rfl (by decide) (by decide) (Or.inr rfl)⟩

/-- Gas of a delivery that synthesizes a secondary call, with the modelled output-transfer
helper: a successful delivery with 50 units of gas that carries a secondary call for a contract
destination returns gasRemaining 0; the 50 units are the gas limit of the synthesized output
transfer.  The sources set gasRemaining to gasProvided (line 149) and change it nowhere in the
delivery branch, so this outcome rests on the helper alone. -/
theorem crossShard_gas_forwarded :
    (crossCallWithGas [[1], tokenA, [0], [1], [102]] 50).GasProvided = 50 ∧
    (transferDest.ProcessBuiltinFunction none (some destinationA)
        (some (crossCallWithGas [[1], tokenA, [0], [1], [102]] 50))).result
      = .ok { ReturnCode := Ok, GasRemaining := 0,
              OutputAccounts := [([1, 0],
                { Address := [1, 0],
                  OutputTransfers := [{ Value := 0, GasLimit := 50, GasLocked := 0,
                                        Data := [102], CallType := 0,
                                        SenderAddress := [2, 2] }] })],
              Logs := [transferLogEntry transferDest [2, 2] tokenA 0 [1, 0]] } := by
  decide

/-- Gas of a cross-shard delivery of a multi-asset transfer: every successful delivery returns
the return code Ok, and without a secondary call for a contract destination the output has no
output account and gasRemaining equals gasProvided (line 149; this part does not involve the
output-transfer helper).  With the modelled helper, gasRemaining plus the gas limit of the
synthesized output transfer equals gasProvided: with a secondary call for a contract
destination gasRemaining is 0 and the gas limit of the output transfer is gasProvided. -/
theorem crossShard_no_gas_charged (e : dctNFTMultiTransfer)
    (acntSnd acntDst acntSnd' acntDst' : Option Account) (vmInput : ContractCallInput)
    (out : VMOutput)
    (haddr : vmInput.CallerAddr ≠ vmInput.RecipientAddr)
    (hok : e.ProcessBuiltinFunction acntSnd acntDst (some vmInput)
      = ⟨.ok out, acntSnd', acntDst'⟩) :
    out.ReturnCode = Ok ∧
    out.GasRemaining + forwardedGasLimit out = vmInput.GasProvided ∧
    (¬ (vmInput.Arguments.length
          > u64add (u64mul (toUint64 (bigSetBytes (vmInput.Arguments.getD 0 [])))
              argumentsPerTransfer) 1 ∧
        e.IsSmartContractAddress vmInput.RecipientAddr = true) →
      out.GasRemaining = vmInput.GasProvided ∧ out.OutputAccounts = []) ∧
    (vmInput.Arguments.length
        > u64add (u64mul (toUint64 (bigSetBytes (vmInput.Arguments.getD 0 [])))
            argumentsPerTransfer) 1 →
      e.IsSmartContractAddress vmInput.RecipientAddr = true →
      out.GasRemaining = 0 ∧ forwardedGasLimit out = vmInput.GasProvided) := by
  have hbasic : checkBasicDCTArguments (some vmInput) = .ok vmInput := by
    unfold dctNFTMultiTransfer.ProcessBuiltinFunction at hok
    cases hb : checkBasicDCTArguments (some vmInput) with
    | error err => simp [hb] at hok
    | ok checked =>
      unfold checkBasicDCTArguments at hb
      simp only at hb
      split at hb
      · cases hb
      · split_ifs at hb
        simp only [Result.ok.injEq] at hb
        rw [hb]
  unfold dctNFTMultiTransfer.ProcessBuiltinFunction at hok
  simp only [hbasic, haddr, if_false] at hok
  generalize vmInput.Arguments.getD 0 [] = countBytes at *
  generalize u64add (u64mul (toUint64 (bigSetBytes countBytes)) argumentsPerTransfer) 1
    = minNumOfArguments at *
  by_cases h5 : vmInput.Arguments.length < 5
  · simp [h5] at hok
  · by_cases hsnd : acntSnd.isSome = true
    · simp [h5, hsnd] at hok
    · cases acntDst with
      | none => simp [h5, hsnd] at hok
      | some dst =>
        by_cases hzero : toUint64 (bigSetBytes countBytes) = 0
        · simp [h5, hsnd, hzero] at hok
        · by_cases hmin : vmInput.Arguments.length < minNumOfArguments
          · simp [h5, hsnd, hzero, hmin] at hok
          · by_cases hmake : (!makesliceOK (toUint64 (bigSetBytes countBytes))) = true
            · simp [h5, hsnd, hzero, hmin, hmake] at hok
            · simp only [h5, hsnd, hzero, hmin, hmake, if_false, Bool.false_eq_true] at hok
              generalize e.destinationShardLoop vmInput minNumOfArguments
                (toUint64 (bigSetBytes countBytes)) 0 dst [] = looped at hok
              obtain ⟨stopped, credited, logs⟩ := looped
              cases stopped with
              | some err => simp at hok
              | none =>
                simp only at hok
                by_cases hcall : (decide (vmInput.Arguments.length > minNumOfArguments)
                    && e.IsSmartContractAddress vmInput.RecipientAddr) = true
                · simp only [hcall, if_true, Outcome.mk.injEq, Result.ok.injEq] at hok
                  obtain ⟨hout, -, -⟩ := hok
                  subst hout
                  simp only [Bool.and_eq_true, decide_eq_true_eq] at hcall
                  refine ⟨rfl, ?_, fun hno => absurd hcall hno, fun _ _ => ⟨rfl, ?_⟩⟩ <;>
                    simp [addOutputTransferToVMOutput, forwardedGasLimit]
                · simp only [hcall, if_false, Outcome.mk.injEq, Result.ok.injEq,
                    Bool.false_eq_true] at hok
                  obtain ⟨hout, -, -⟩ := hok
                  subst hout
                  simp only [Bool.and_eq_true, decide_eq_true_eq] at hcall
                  refine ⟨rfl, ?_, fun _ => ⟨rfl, rfl⟩, fun h1 h2 => absurd ⟨h1, h2⟩ hcall⟩
                  simp [forwardedGasLimit]

theorem crossShard_no_gas_charged_witness :
    (0 + forwardedGasLimit (addOutputTransferToVMOutput [2, 2] [102] [] [1, 0] 0 0
        { ReturnCode := Ok, GasRemaining := 50, OutputAccounts := [],
          Logs := [transferLogEntry transferDest [2, 2] tokenA 0 [1, 0]] }) = 50) ∧
    (transferA.ProcessBuiltinFunction none (some destinationA)
        (some (crossCallWithGas [[1], tokenA, [0], [1], [102]] 50))).result
      = .ok { ReturnCode := Ok, GasRemaining := 50, OutputAccounts := [],
              Logs := [transferLogEntry transferA [2, 2] tokenA 0 [1, 0]] } :=
  ⟨(crossShard_no_gas_charged transferDest none (some destinationA)
      (transferDest.ProcessBuiltinFunction none (some destinationA)
        (some (crossCallWithGas [[1], tokenA, [0], [1], [102]] 50))).acntSnd
      (transferDest.ProcessBuiltinFunction none (some destinationA)
        (some (crossCallWithGas [[1], tokenA, [0], [1], [102]] 50))).acntDst
      (crossCallWithGas [[1], tokenA, [0], [1], [102]] 50)
      (addOutputTransferToVMOutput [2, 2] [102] [] [1, 0] 0 0
        { ReturnCode := Ok, GasRemaining := 50, OutputAccounts := [],
          Logs := [transferLogEntry transferDest [2, 2] tokenA 0 [1, 0]] })
      (by decide) (Outcome.eq_of_result _ _ (by decide))).2.1,
   by decide⟩

/-! ## Gas configuration -/

/-- C29: `SetNewGasConfig` with a nil configuration leaves the function as it is; with a
configuration, the base cost becomes the function's entry of the built-in costs and the
per-byte cost the function reads becomes that of the base operation costs (local burn has no
per-byte cost), and nothing else of the function changes. -/
theorem SetNewGasConfig_effect (burn : dctLocalBurn) (update : dctNFTupdate)
    (transfer : dctNFTMultiTransfer) (gasCost : GasCost) :
    (burn.SetNewGasConfig none = burn ∧ update.SetNewGasConfig none = update ∧
      transfer.SetNewGasConfig none = transfer) ∧
    ((burn.SetNewGasConfig (some gasCost)).funcGasCost = gasCost.BuiltInCost.DCTLocalBurn ∧
      (update.SetNewGasConfig (some gasCost)).funcGasCost
        = gasCost.BuiltInCost.DCTNFTUpdateAttributes ∧
      (update.SetNewGasConfig (some gasCost)).StorePerByte
        = gasCost.BaseOperationCost.StorePerByte ∧
      (transfer.SetNewGasConfig (some gasCost)).funcGasCost
        = gasCost.BuiltInCost.DCTNFTMultiTransfer ∧
      (transfer.SetNewGasConfig (some gasCost)).DataCopyPerByte
        = gasCost.BaseOperationCost.DataCopyPerByte) ∧
    ({ burn.SetNewGasConfig (some gasCost) with funcGasCost := burn.funcGasCost } = burn ∧
      { update.SetNewGasConfig (some gasCost) with
        funcGasCost := update.funcGasCost, StorePerByte := update.StorePerByte } = update ∧
      { transfer.SetNewGasConfig (some gasCost) with
        funcGasCost := transfer.funcGasCost, DataCopyPerByte := transfer.DataCopyPerByte }
        = transfer) :=
  ⟨⟨rfl, rfl, rfl⟩, ⟨rfl, rfl, rfl, rfl, rfl⟩, ⟨rfl, rfl, rfl⟩⟩

/-! ## Call-frame codec -/

theorem stringsSplit_ne_nil (data : Bytes) : stringsSplit data ≠ [] := by
  induction data with
  | nil => simp [stringsSplit]
  | cons c rest ih =>
    unfold stringsSplit
    split_ifs
    · simp
    · split <;> simp

theorem stringsSplit_append (segment : Bytes) (hsegment : atSeparator ∉ segment)
    (tail : Bytes) :
    stringsSplit (segment ++ tail)
      = (segment ++ (stringsSplit tail).headD []) :: (stringsSplit tail).tail := by
  induction segment with
  | nil =>
    cases h : stringsSplit tail with
    | nil => exact absurd h (stringsSplit_ne_nil tail)
    | cons first rest => simp [h]
  | cons c segment ih =>
    have hc : c ≠ atSeparator := fun h => hsegment (by simp [h])
    have hrest : atSeparator ∉ segment := fun h => hsegment (by simp [h])
    rw [List.cons_append, stringsSplit]
    simp only [hc, if_false, ih hrest, List.cons_append]

theorem stringsSplit_joinSegments (first : Bytes) (rest : List Bytes)
    (hsegments : ∀ segment ∈ first :: rest, atSeparator ∉ segment) :
    stringsSplit (joinSegments (first :: rest)) = first :: rest := by
  induction rest generalizing first with
  | nil =>
    have h := stringsSplit_append first (hsegments first (by simp)) []
    simpa [joinSegments, stringsSplit] using h
  | cons second rest ih =>
    have h := stringsSplit_append first (hsegments first (by simp))
      (atSeparator :: joinSegments (second :: rest))
    have hrest := ih second (fun segment hmem => hsegments segment (by simp [hmem]))
    show stringsSplit (first ++ atSeparator :: joinSegments (second :: rest)) = _
    rw [h, stringsSplit]
    simp [hrest]

/-- C30: for every input string made of k >= 1 segments free of `@`, joined by `@`, with a
non-empty first segment, `ParseData` succeeds and `GetArguments` then returns exactly the k - 1
segments after the first, in the same order. -/
theorem ParseData_arguments (p : atArgumentParser) (first : Bytes) (rest : List Bytes)
    (hfirst : first ≠ [])
    (hsegments : ∀ segment ∈ first :: rest, atSeparator ∉ segment) :
    (p.ParseData (joinSegments (first :: rest))).1 = none ∧
    (p.ParseData (joinSegments (first :: rest))).2.GetArguments = (some rest, none) ∧
    rest.length = (first :: rest).length - 1 := by
  unfold atArgumentParser.ParseData
  rw [stringsSplit_joinSegments first rest hsegments]
  simp [hfirst, atArgumentParser.GetArguments]

theorem ParseData_arguments_witness :
    joinSegments [[97, 97, 97, 97], [97, 97], [98, 98], [98, 99]]
      = [97, 97, 97, 97, 64, 97, 97, 64, 98, 98, 64, 98, 99] ∧
    ((NewAtArgumentParser.ParseData
        (joinSegments [[97, 97, 97, 97], [97, 97], [98, 98], [98, 99]])).1 = none ∧
     (NewAtArgumentParser.ParseData
        (joinSegments [[97, 97, 97, 97], [97, 97], [98, 98], [98, 99]])).2.GetArguments
       = (some [[97, 97], [98, 98], [98, 99]], none) ∧
     [[97, 97], [98, 98], [98, 99]].length
       = ([97, 97, 97, 97] :: [[97, 97], [98, 98], [98, 99]]).length - 1) ∧
    (NewAtArgumentParser.ParseData [97, 97, 97, 97]).1 = none ∧
    (NewAtArgumentParser.ParseData [97, 97, 97, 97]).2.GetArguments = (some [], none) ∧
    (NewAtArgumentParser.ParseData []).1 = some .ErrStringSplitFailed :=
  ⟨by decide,
   ParseData_arguments NewAtArgumentParser [97, 97, 97, 97] [[97, 97], [98, 98], [98, 99]]
    (by decide) (by decide),
   by decide, by decide, by decide⟩


/-! ## Big-endian bytes -/

theorem bigSetBytes_foldl (l : Bytes) (a : Nat) :
    l.foldl (fun acc x => acc * 256 + x.val) a
      = a * 256 ^ l.length + l.foldl (fun acc x => acc * 256 + x.val) 0 := by
  induction l generalizing a with
  | nil => simp
  | cons x l ih =>
    simp only [List.foldl_cons, List.length_cons]
    rw [ih (a * 256 + x.val), ih (0 * 256 + x.val)]
    ring

theorem bigSetBytes_bigBytesAux (fuel : Nat) :
    ∀ (n : Nat) (acc : Bytes), n ≤ fuel →
      bigSetBytes (bigBytesAux fuel n acc) = n * 256 ^ acc.length + bigSetBytes acc := by
  induction fuel with
  | zero =>
    intro n acc h
    have hn : n = 0 := by omega
    subst hn
    simp [bigBytesAux]
  | succ fuel ih =>
    intro n acc h
    unfold bigBytesAux
    by_cases hn : n = 0
    · subst hn
      simp
    · simp only [hn, if_false]
      rw [ih (n / 256) _ (by omega)]
      unfold bigSetBytes
      simp only [List.foldl_cons, List.length_cons]
      rw [bigSetBytes_foldl acc (0 * 256 + n % 256)]
      have hdiv := Nat.div_add_mod n 256
      have : n / 256 * 256 ^ (acc.length + 1) + (0 * 256 + n % 256) * 256 ^ acc.length
          = (256 * (n / 256) + n % 256) * 256 ^ acc.length := by ring
      rw [← Nat.add_assoc, this, hdiv]

theorem bigSetBytes_bigBytes (n : Nat) : bigSetBytes (bigBytes n) = n := by
  unfold bigBytes
  rw [bigSetBytes_bigBytesAux n n [] (Nat.le_refl n)]
  simp [bigSetBytes]

/-! ## NFT create-role transfer -/

theorem getLatestNonce_saveLatestNonce (getNonceKey : Bytes → Bytes) (acnt : Account)
    (tokenID : Bytes) (nonce : Nat) (h : nonce < 2 ^ 64) :
    getLatestNonce getNonceKey (saveLatestNonce getNonceKey acnt tokenID nonce) tokenID
      = .ok nonce := by
  have hround := bigSetBytes_bigBytes nonce
  unfold getLatestNonce saveLatestNonce Account.RetrieveValue Account.SaveKeyValue
  simp only [if_true]
  by_cases hempty : bigBytes nonce = []
  · rw [hempty] at hround
    simp only [hempty, if_true]
    rw [← hround]
    rfl
  · simp only [hempty, if_false, hround, toUint64, Nat.mod_eq_of_lt h]

theorem getLatestNonce_lt (getNonceKey : Bytes → Bytes) (acnt : Account) (tokenID : Bytes)
    (nonce : Nat) (h : getLatestNonce getNonceKey acnt tokenID = .ok nonce) : nonce < 2 ^ 64 := by
  unfold getLatestNonce at h
  simp only at h
  split_ifs at h
  · cases h
    decide
  · cases h
    exact Nat.mod_lt _ (by decide)

theorem getLatestNonce_congr (getNonceKey : Bytes → Bytes) (acnt acnt' : Account)
    (tokenID : Bytes) (h : acnt'.data (getNonceKey tokenID) = acnt.data (getNonceKey tokenID)) :
    getLatestNonce getNonceKey acnt' tokenID = getLatestNonce getNonceKey acnt tokenID := by
  unfold getLatestNonce Account.RetrieveValue
  rw [h]

theorem getDCTRolesForAcnt_congr (m : RolesMarshalizer) (acnt acnt' : Account) (key : Bytes)
    (h : acnt'.data key = acnt.data key) :
    getDCTRolesForAcnt m acnt' key = getDCTRolesForAcnt m acnt key := by
  unfold getDCTRolesForAcnt Account.RetrieveValue
  rw [h]

theorem SaveKeyValue_data_same (acnt : Account) (key value : Bytes) :
    (acnt.SaveKeyValue key value).data key = value := by
  simp [Account.SaveKeyValue]

theorem SaveKeyValue_data_other (acnt : Account) (key value other : Bytes) (h : other ≠ key) :
    (acnt.SaveKeyValue key value).data other = acnt.data other := by
  simp [Account.SaveKeyValue, h]

theorem saveRolesToAccount_eq_ok {acnt acnt' : Account} {key : Bytes} {roles : DCTRoles}
    {m : RolesMarshalizer} (h : saveRolesToAccount acnt key roles m = .ok acnt') :
    ∃ marshaled, m.Marshal roles = .ok marshaled ∧ acnt' = acnt.SaveKeyValue key marshaled := by
  unfold saveRolesToAccount at h
  split at h
  · cases h
  · rename_i marshaled hm
    simp only [Result.ok.injEq] at h
    exact ⟨marshaled, hm, h.symm⟩

theorem deleteCreateRole_eq_ok {e : dctNFTCreateRoleTransfer} {acnt acnt' : Account}
    {key : Bytes} (h : e.deleteCreateRoleFromAccount acnt key = .ok acnt') :
    ∃ roles isNew marshaled,
      getDCTRolesForAcnt e.marshalizer acnt key = .ok (roles, isNew) ∧
      e.marshalizer.Marshal (deleteRoles roles [e.DCTRoleNFTCreate]) = .ok marshaled ∧
      acnt' = acnt.SaveKeyValue key marshaled := by
  unfold dctNFTCreateRoleTransfer.deleteCreateRoleFromAccount at h
  split at h
  · cases h
  · rename_i roles isNew hread
    obtain ⟨marshaled, hm, hacnt⟩ := saveRolesToAccount_eq_ok h
    exact ⟨roles, isNew, marshaled, hread, hm, hacnt⟩

theorem addCreateRole_eq_ok {e : dctNFTCreateRoleTransfer} {acnt acnt' : Account}
    {key : Bytes} (h : e.addCreateRoleToAccount acnt key = .ok acnt') :
    ∃ roles isNew,
      getDCTRolesForAcnt e.marshalizer acnt key = .ok (roles, isNew) ∧
      ((e.DCTRoleNFTCreate ∈ roles.Roles ∧ acnt' = acnt) ∨
       (e.DCTRoleNFTCreate ∉ roles.Roles ∧ ∃ marshaled,
          e.marshalizer.Marshal { Roles := roles.Roles ++ [e.DCTRoleNFTCreate] } = .ok marshaled ∧
          acnt' = acnt.SaveKeyValue key marshaled)) := by
  unfold dctNFTCreateRoleTransfer.addCreateRoleToAccount at h
  split at h
  · cases h
  · rename_i roles isNew hread
    split_ifs at h with hmem
    · simp only [Result.ok.injEq] at h
      exact ⟨roles, isNew, hread, Or.inl ⟨hmem, h.symm⟩⟩
    · obtain ⟨marshaled, hm, hacnt⟩ := saveRolesToAccount_eq_ok h
      exact ⟨roles, isNew, hread, Or.inr ⟨hmem, marshaled, hm, hacnt⟩⟩

theorem addCreateRole_holds (e : dctNFTCreateRoleTransfer) (acnt acnt' : Account)
    (tokenID : Bytes)
    (hround : ∀ roles marshaled, e.marshalizer.Marshal roles = .ok marshaled →
      roles.Roles ≠ [] → marshaled ≠ [] ∧ e.marshalizer.Unmarshal marshaled = .ok roles)
    (h : e.addCreateRoleToAccount acnt (e.roleKeyPrefix ++ tokenID) = .ok acnt') :
    e.holdsCreateRole acnt' tokenID ∧
    ∀ key, key ≠ e.roleKeyPrefix ++ tokenID → acnt'.data key = acnt.data key := by
  obtain ⟨roles, isNew, hread, hcase⟩ := addCreateRole_eq_ok h
  rcases hcase with ⟨hmem, hacnt⟩ | ⟨-, marshaled, hm, hacnt⟩
  · subst hacnt
    exact ⟨⟨roles, isNew, hread, hmem⟩, fun _ _ => rfl⟩
  · subst hacnt
    obtain ⟨hne, hun⟩ := hround _ marshaled hm (by simp)
    refine ⟨⟨{ Roles := roles.Roles ++ [e.DCTRoleNFTCreate] }, false, ?_, by simp⟩,
      fun key hkey => SaveKeyValue_data_other acnt _ marshaled key hkey⟩
    unfold getDCTRolesForAcnt Account.RetrieveValue
    simp only [SaveKeyValue_data_same, hne, if_false, hun]

theorem currentOwner_eq_ok {e : dctNFTCreateRoleTransfer} {acnt acnt' : Account}
    {newDestination : Option Account} {vmInput : ContractCallInput} {outAcc : OutputAccount}
    (h : e.executeTransferNFTCreateChangeAtCurrentOwner acnt vmInput
      = (.ok outAcc, acnt', newDestination)) :
    ∃ tokenID destAddress nonce stripped,
      vmInput.Arguments = [tokenID, destAddress] ∧
      getLatestNonce e.getNonceKey acnt tokenID = .ok nonce ∧
      e.deleteCreateRoleFromAccount (saveLatestNonce e.getNonceKey acnt tokenID 0)
        (e.roleKeyPrefix ++ tokenID) = .ok stripped ∧
      outAcc = roleTransferFrame e vmInput.CallerAddr destAddress tokenID nonce ∧
      ((e.ComputeId destAddress = e.SelfId ∧ ∃ loaded credited,
          e.LoadAccount destAddress = .ok (.user loaded) ∧
          e.addCreateRoleToAccount
            (saveLatestNonce e.getNonceKey
              (if e.sameObjectPerAddress = true ∧ destAddress = acnt.address then stripped
               else loaded) tokenID nonce)
            (e.roleKeyPrefix ++ tokenID) = .ok credited ∧
          e.SaveAccount credited = none ∧ newDestination = some credited ∧
          acnt' = (if e.sameObjectPerAddress = true ∧ destAddress = acnt.address then credited
                   else stripped)) ∨
       (e.ComputeId destAddress ≠ e.SelfId ∧ newDestination = none ∧ acnt' = stripped)) := by
  unfold dctNFTCreateRoleTransfer.executeTransferNFTCreateChangeAtCurrentOwner at h
  by_cases h2 : vmInput.Arguments.length ≠ 2
  · simp [h2] at h
  · obtain ⟨tokenID, destAddress, hargs⟩ :
        ∃ tokenID destAddress, vmInput.Arguments = [tokenID, destAddress] := by
      cases hl : vmInput.Arguments with
      | nil => simp [hl] at h2
      | cons a r1 =>
        cases r1 with
        | nil => simp [hl] at h2
        | cons b r2 =>
          cases r2 with
          | nil => exact ⟨a, b, rfl⟩
          | cons c r3 => simp [hl] at h2
    have h0 : vmInput.Arguments.getD 0 [] = tokenID := by simp [hargs]
    have h1 : vmInput.Arguments.getD 1 [] = destAddress := by simp [hargs]
    simp only [h2, if_false, h0, h1] at h
    by_cases hshape : destAddress.length ≠ vmInput.CallerAddr.length
    · simp [hshape] at h
    · simp only [hshape, if_false] at h
      cases hnonce : getLatestNonce e.getNonceKey acnt tokenID with
      | error err => simp [hnonce] at h
      | ok nonce =>
        simp only [hnonce] at h
        cases hdel : e.deleteCreateRoleFromAccount (saveLatestNonce e.getNonceKey acnt tokenID 0)
            (e.roleKeyPrefix ++ tokenID) with
        | error err => simp [hdel] at h
        | ok stripped =>
          simp only [hdel] at h
          by_cases hlocal : e.ComputeId destAddress = e.SelfId
          · simp only [hlocal, if_true] at h
            cases hload : e.LoadAccount destAddress with
            | error err => simp [hload] at h
            | ok handler =>
              cases handler with
              | other => simp [hload] at h
              | user loaded =>
                simp only [hload] at h
                cases hadd : e.addCreateRoleToAccount
                    (saveLatestNonce e.getNonceKey
                      (if e.sameObjectPerAddress = true ∧ destAddress = acnt.address then
                        stripped
                       else loaded) tokenID nonce)
                    (e.roleKeyPrefix ++ tokenID) with
                | error err => simp [hadd] at h
                | ok credited =>
                  simp only [hadd] at h
                  cases hsave : e.SaveAccount credited with
                  | some err => simp [hsave] at h
                  | none =>
                    simp only [hsave, Prod.mk.injEq, Result.ok.injEq] at h
                    obtain ⟨hout, hacnt, hnew⟩ := h
                    exact ⟨tokenID, destAddress, nonce, stripped, hargs, hnonce, hdel,
                      hout.symm,
                      Or.inl ⟨hlocal, loaded, credited, hload, hadd, hsave, hnew.symm,
                        hacnt.symm⟩⟩
          · simp only [hlocal, if_false, Prod.mk.injEq, Result.ok.injEq] at h
            obtain ⟨hout, hacnt, hnew⟩ := h
            exact ⟨tokenID, destAddress, nonce, stripped, hargs, hnonce, hdel, hout.symm,
              Or.inr ⟨hlocal, hnew.symm, hacnt.symm⟩⟩

theorem roleTransfer_systemPath_eq_ok {e : dctNFTCreateRoleTransfer}
    {acntSnd newDestination : Option Account} {acnt acnt' : Account}
    {vmInput : ContractCallInput} {out : VMOutput}
    (hcaller : vmInput.CallerAddr = e.DCTSCAddress)
    (h : e.ProcessBuiltinFunction acntSnd (some acnt) (some vmInput)
      = ⟨.ok out, some acnt', newDestination⟩) :
    ∃ outAcc,
      e.executeTransferNFTCreateChangeAtCurrentOwner acnt vmInput
        = (.ok outAcc, acnt', newDestination) ∧
      out = { ReturnCode := Ok, GasRemaining := 0, OutputAccounts := [(outAcc.Address, outAcc)],
              Logs := [] } := by
  unfold dctNFTCreateRoleTransfer.ProcessBuiltinFunction at h
  cases hb : checkBasicDCTArguments (some vmInput) with
  | error err => simp [hb] at h
  | ok checked =>
    have hsame : checked = vmInput := by
      unfold checkBasicDCTArguments at hb
      simp only at hb
      split at hb
      · cases hb
      · split_ifs at hb
        simp only [Result.ok.injEq] at hb
        exact hb.symm
    subst hsame
    simp only [hb] at h
    by_cases hsnd : acntSnd.isSome = true
    · simp [hsnd] at h
    · simp only [hsnd, Bool.false_eq_true, if_false, hcaller, if_true] at h
      generalize e.executeTransferNFTCreateChangeAtCurrentOwner acnt checked = executed at h ⊢
      obtain ⟨result, left, loaded⟩ := executed
      cases result with
      | error err => simp at h
      | ok outAcc =>
        simp only [RoleTransferOutcome.mk.injEq, Result.ok.injEq, Option.some.injEq] at h
        obtain ⟨hout, hacnt, hnew⟩ := h
        subst hacnt
        subst hnew
        exact ⟨outAcc, rfl, hout.symm⟩

/-- C22 as stated does not hold on the code: the destination is the address `[1, 7]` of the
account holding the role, in its own shard, and the accounts adapter keeps one object per
address.  The call succeeds; lines 125-135 write the nonce and the role to the account the
adapter hands out, which is the account passed in: it ends with latest-nonce counter 5, not 0,
and with the NFT-create role `[99]` in its role list. -/
theorem roleTransfer_own_address_keeps_role :
    roleHolder.address = (roleTransferCall [1, 7]).Arguments.getD 1 [] ∧
    getLatestNonce roleTransferShared.getNonceKey roleHolder tokenA = .ok 5 ∧
    (roleTransferShared.ProcessBuiltinFunction none (some roleHolder)
        (some (roleTransferCall [1, 7]))).result
      = .ok { ReturnCode := Ok, GasRemaining := 0,
              OutputAccounts :=
                [([1, 7], roleTransferFrame roleTransferShared [255, 255] [1, 7] tokenA 5)],
              Logs := [] } ∧
    (roleTransferShared.ProcessBuiltinFunction none (some roleHolder)
        (some (roleTransferCall [1, 7]))).acntDst.map
        (fun acnt =>
          (getLatestNonce roleTransferShared.getNonceKey acnt tokenA,
           getDCTRolesForAcnt roleTransferShared.marshalizer acnt
             (roleTransferShared.roleKeyPrefix ++ tokenA)))
      = some (.ok 5, .ok ({ Roles := [[109], [99]] }, false)) := by
  decide

/-- C22, amended: after every successful NFT create-role transfer on the system-caller path in
which the account gaining the role is not the very account losing it (the destination is on
another shard, or is another address, or the adapter hands out a separate copy) - the nonce key
and the role key of the token being distinct, and the role list of the account holding the
NFT-create role at most once - the account losing the role has latest-nonce counter 0 for the
token, and the role list stored for the token is the one it held with the NFT-create role taken
out: that role is no longer in it and every other role it held still is. -/
theorem roleTransfer_losing_account (e : dctNFTCreateRoleTransfer)
    (acntSnd newDestination : Option Account) (acnt acnt' : Account)
    (vmInput : ContractCallInput) (out : VMOutput)
    (hcaller : vmInput.CallerAddr = e.DCTSCAddress)
    (hother : ¬ (e.sameObjectPerAddress = true ∧ vmInput.Arguments.getD 1 [] = acnt.address ∧
      e.ComputeId (vmInput.Arguments.getD 1 []) = e.SelfId))
    (hkeys : e.getNonceKey (vmInput.Arguments.getD 0 [])
      ≠ e.roleKeyPrefix ++ vmInput.Arguments.getD 0 [])
    (hset : ∀ roles isNew,
      getDCTRolesForAcnt e.marshalizer acnt (e.roleKeyPrefix ++ vmInput.Arguments.getD 0 [])
        = .ok (roles, isNew) →
      roles.Roles.count e.DCTRoleNFTCreate ≤ 1)
    (hok : e.ProcessBuiltinFunction acntSnd (some acnt) (some vmInput)
      = ⟨.ok out, some acnt', newDestination⟩) :
    getLatestNonce e.getNonceKey acnt' (vmInput.Arguments.getD 0 []) = .ok 0 ∧
    ∃ roles isNew marshaled,
      getDCTRolesForAcnt e.marshalizer acnt (e.roleKeyPrefix ++ vmInput.Arguments.getD 0 [])
        = .ok (roles, isNew) ∧
      e.marshalizer.Marshal (deleteRoles roles [e.DCTRoleNFTCreate]) = .ok marshaled ∧
      acnt'.data (e.roleKeyPrefix ++ vmInput.Arguments.getD 0 []) = marshaled ∧
      e.DCTRoleNFTCreate ∉ (deleteRoles roles [e.DCTRoleNFTCreate]).Roles ∧
      ∀ role ∈ roles.Roles, role ≠ e.DCTRoleNFTCreate →
        role ∈ (deleteRoles roles [e.DCTRoleNFTCreate]).Roles := by
  obtain ⟨outAcc, hexec, -⟩ := roleTransfer_systemPath_eq_ok hcaller hok
  obtain ⟨tokenID, destAddress, nonce, stripped, hargs, -, hdel, -, hcase⟩ :=
    currentOwner_eq_ok hexec
  have h0 : vmInput.Arguments.getD 0 [] = tokenID := by simp [hargs]
  have h1 : vmInput.Arguments.getD 1 [] = destAddress := by simp [hargs]
  rw [h1] at hother
  have hleft : acnt' = stripped := by
    rcases hcase with ⟨hlocal, loaded, credited, -, -, -, -, hacnt⟩ | ⟨-, -, hacnt⟩
    · have hshared : ¬ (e.sameObjectPerAddress = true ∧ destAddress = acnt.address) :=
        fun hs => hother ⟨hs.1, hs.2, hlocal⟩
      rw [if_neg hshared] at hacnt
      exact hacnt
    · exact hacnt
  subst hleft
  rw [h0] at hkeys hset ⊢
  obtain ⟨roles, isNew, marshaled, hread, hm, hacnt⟩ := deleteCreateRole_eq_ok hdel
  have hreadBefore : getDCTRolesForAcnt e.marshalizer acnt (e.roleKeyPrefix ++ tokenID)
      = .ok (roles, isNew) := by
    rw [← hread]
    exact (getDCTRolesForAcnt_congr e.marshalizer acnt _ _
      (SaveKeyValue_data_other acnt _ _ _ (Ne.symm hkeys))).symm
  have hcount := hset roles isNew hreadBefore
  have hdeleted : (deleteRoles roles [e.DCTRoleNFTCreate]).Roles
      = roles.Roles.erase e.DCTRoleNFTCreate := rfl
  refine ⟨?_, roles, isNew, marshaled, hreadBefore, hm, ?_, ?_, ?_⟩
  · rw [getLatestNonce_congr e.getNonceKey (saveLatestNonce e.getNonceKey acnt tokenID 0) acnt'
      tokenID (by rw [hacnt]; exact SaveKeyValue_data_other _ _ _ _ hkeys)]
    exact getLatestNonce_saveLatestNonce e.getNonceKey acnt tokenID 0 (by decide)
  · rw [hacnt]
    exact SaveKeyValue_data_same _ _ _
  · rw [hdeleted]
    intro hmem
    have hpos : 0 < (roles.Roles.erase e.DCTRoleNFTCreate).count e.DCTRoleNFTCreate :=
      List.count_pos_iff.mpr hmem
    rw [List.count_erase_self] at hpos
    omega
  · intro role hmem hne
    rw [hdeleted]
    exact (List.mem_erase_of_ne hne).mpr hmem

/-- C24, amended: on the system-caller path of the NFT create-role transfer every successful
call emits one forwarded frame towards the destination, carrying the tokenID and the nonce the
losing account held, whether the destination is local or not.  When the destination address
resolves to the local shard the nonce and the role are in addition applied to the destination
account, loaded and saved through the accounts adapter (the account the adapter hands out is
the account passed in, stripped of nonce and role, when the adapter keeps one object per address
and the destination is that account's address); when it does not, no account is loaded. -/
theorem roleTransfer_frame_emitted (e : dctNFTCreateRoleTransfer)
    (acntSnd newDestination : Option Account) (acnt acnt' : Account)
    (vmInput : ContractCallInput) (out : VMOutput)
    (hcaller : vmInput.CallerAddr = e.DCTSCAddress)
    (hok : e.ProcessBuiltinFunction acntSnd (some acnt) (some vmInput)
      = ⟨.ok out, some acnt', newDestination⟩) :
    ∃ tokenID destAddress nonce,
      vmInput.Arguments = [tokenID, destAddress] ∧
      getLatestNonce e.getNonceKey acnt tokenID = .ok nonce ∧
      out.OutputAccounts
        = [(destAddress, roleTransferFrame e vmInput.CallerAddr destAddress tokenID nonce)] ∧
      (e.ComputeId destAddress = e.SelfId → ∃ stripped loaded credited,
        e.deleteCreateRoleFromAccount (saveLatestNonce e.getNonceKey acnt tokenID 0)
          (e.roleKeyPrefix ++ tokenID) = .ok stripped ∧
        e.LoadAccount destAddress = .ok (.user loaded) ∧
        e.addCreateRoleToAccount
          (saveLatestNonce e.getNonceKey
            (if e.sameObjectPerAddress = true ∧ destAddress = acnt.address then stripped
             else loaded) tokenID nonce)
          (e.roleKeyPrefix ++ tokenID) = .ok credited ∧
        e.SaveAccount credited = none ∧ newDestination = some credited) ∧
      (e.ComputeId destAddress ≠ e.SelfId → newDestination = none) := by
  obtain ⟨outAcc, hexec, hout⟩ := roleTransfer_systemPath_eq_ok hcaller hok
  obtain ⟨tokenID, destAddress, nonce, stripped, hargs, hnonce, hdel, hframe, hcase⟩ :=
    currentOwner_eq_ok hexec
  refine ⟨tokenID, destAddress, nonce, hargs, hnonce, ?_, ?_, ?_⟩
  · rw [hout, hframe]
    rfl
  · intro hlocal
    rcases hcase with ⟨-, loaded, credited, hload, hadd, hsave, hnew, -⟩ | ⟨hremote, -⟩
    · exact ⟨stripped, loaded, credited, hdel, hload, hadd, hsave, hnew⟩
    · exact absurd hlocal hremote
  · intro hremote
    rcases hcase with ⟨hlocal, -⟩ | ⟨-, hnone, -⟩
    · exact absurd hlocal hremote
    · exact hnone

theorem getField_putField (field rest : Bytes) (h : field.length < 256) :
    getField (putField field ++ rest) = some (field, rest) := by
  unfold putField getField
  simp [Nat.mod_eq_of_lt h]

theorem getAllFields_flatMap (fields : List Bytes) :
    (∀ field ∈ fields, field.length < 256) → ∀ fuel, fields.length ≤ fuel →
      getAllFields fuel (fields.flatMap putField) = some fields := by
  induction fields with
  | nil =>
    intro _ fuel _
    cases fuel <;> simp [getAllFields]
  | cons field rest ih =>
    intro hall fuel hfuel
    cases fuel with
    | zero => simp at hfuel
    | succ fuel =>
      have hfield := hall field (by simp)
      have hne : putField field ++ rest.flatMap putField ≠ [] := by simp [putField]
      simp only [List.flatMap_cons, getAllFields, hne, if_false,
        getField_putField field _ hfield,
        ih (fun f hf => hall f (by simp [hf])) fuel (by simpa using hfuel)]

theorem length_le_flatMap_putField (fields : List Bytes) :
    fields.length ≤ (fields.flatMap putField).length := by
  induction fields with
  | nil => simp
  | cons field rest ih =>
    simp only [List.flatMap_cons, List.length_append, List.length_cons, putField]
    omega

theorem rolesCodec_roundtrip (roles : DCTRoles) (marshaled : Bytes)
    (hm : rolesCodec.Marshal roles = .ok marshaled) (hne : roles.Roles ≠ []) :
    marshaled ≠ [] ∧ rolesCodec.Unmarshal marshaled = .ok roles := by
  unfold rolesCodec at hm ⊢
  simp only at hm ⊢
  split_ifs at hm with hall
  simp only [Result.ok.injEq] at hm
  subst hm
  have hall' : ∀ field ∈ roles.Roles, field.length < 256 := by
    intro field hmem
    have := List.all_eq_true.mp hall field hmem
    simpa using this
  constructor
  · cases hr : roles.Roles with
    | nil => exact absurd hr hne
    | cons role rest => simp [putField]
  · rw [getAllFields_flatMap roles.Roles hall' _ (length_le_flatMap_putField roles.Roles)]

theorem roleTransfer_losing_account_witness :
    getLatestNonce roleTransferA.getNonceKey roleHolder tokenA = .ok 5 ∧
    getLatestNonce roleTransferA.getNonceKey
      roleHolderStripped tokenA = .ok 0 ∧
    ∃ roles isNew marshaled,
      getDCTRolesForAcnt roleTransferA.marshalizer roleHolder
        (roleTransferA.roleKeyPrefix ++ tokenA) = .ok (roles, isNew) ∧
      roleTransferA.marshalizer.Marshal (deleteRoles roles [roleTransferA.DCTRoleNFTCreate])
        = .ok marshaled ∧
      roleHolderStripped.data (roleTransferA.roleKeyPrefix ++ tokenA) = marshaled ∧
      roleTransferA.DCTRoleNFTCreate
        ∉ (deleteRoles roles [roleTransferA.DCTRoleNFTCreate]).Roles ∧
      ∀ role ∈ roles.Roles, role ≠ roleTransferA.DCTRoleNFTCreate →
        role ∈ (deleteRoles roles [roleTransferA.DCTRoleNFTCreate]).Roles :=
  ⟨by decide,
   roleTransfer_losing_account roleTransferA none none roleHolder
    roleHolderStripped
    (roleTransferCall [3, 0])
    { ReturnCode := Ok, GasRemaining := 0,
      OutputAccounts := [([3, 0], roleTransferFrame roleTransferA [255, 255] [3, 0] tokenA 5)],
      Logs := [] }
    rfl (by decide) (by decide)
    (fun roles isNew hread => by
      have hheld : getDCTRolesForAcnt roleTransferA.marshalizer roleHolder
          (roleTransferA.roleKeyPrefix ++ (roleTransferCall [3, 0]).Arguments.getD 0 [])
          = .ok ({ Roles := [[109], [99]] }, false) := by decide
      rw [hheld] at hread
      cases hread
      decide)
    rfl⟩

/-- C24 as stated does not hold on the code: with a destination in the local shard the nonce (5)
and the role are applied to the destination directly, and the output still carries the
forwarded frame with the tokenID and the nonce. -/
theorem roleTransfer_local_frame :
    roleTransferA.ComputeId [1, 0] = roleTransferA.SelfId ∧
    (roleTransferA.ProcessBuiltinFunction none (some roleHolder)
        (some (roleTransferCall [1, 0]))).result
      = .ok { ReturnCode := Ok, GasRemaining := 0,
              OutputAccounts := [([1, 0],
                { Address := [1, 0],
                  OutputTransfers := [{ Value := 0, GasLimit := 0, GasLocked := 0,
                                        Data := callData [8] [tokenA, [5]],
                                        CallType := 0, SenderAddress := [255, 255] }] })],
              Logs := [] } ∧
    (roleTransferA.ProcessBuiltinFunction none (some roleHolder)
        (some (roleTransferCall [1, 0]))).newDestination.map
        (fun acnt => (acnt.data ([110] ++ tokenA), acnt.data ([114] ++ tokenA)))
      = some (bigBytes 5, rolesBytes [[99]]) := by
  decide

theorem roleTransfer_frame_emitted_witness :
    ∃ tokenID destAddress nonce,
      (roleTransferCall [1, 0]).Arguments = [tokenID, destAddress] ∧
      getLatestNonce roleTransferA.getNonceKey roleHolder tokenID = .ok nonce ∧
      ({ ReturnCode := Ok, GasRemaining := 0,
         OutputAccounts :=
           [([1, 0], roleTransferFrame roleTransferA [255, 255] [1, 0] tokenA 5)],
         Logs := [] } : VMOutput).OutputAccounts
        = [(destAddress, roleTransferFrame roleTransferA (roleTransferCall [1, 0]).CallerAddr
            destAddress tokenID nonce)] ∧
      (roleTransferA.ComputeId destAddress = roleTransferA.SelfId →
        ∃ stripped loaded credited,
        roleTransferA.deleteCreateRoleFromAccount
          (saveLatestNonce roleTransferA.getNonceKey roleHolder tokenID 0)
          (roleTransferA.roleKeyPrefix ++ tokenID) = .ok stripped ∧
        roleTransferA.LoadAccount destAddress = .ok (.user loaded) ∧
        roleTransferA.addCreateRoleToAccount
          (saveLatestNonce roleTransferA.getNonceKey
            (if roleTransferA.sameObjectPerAddress = true ∧ destAddress = roleHolder.address
             then stripped else loaded) tokenID nonce)
          (roleTransferA.roleKeyPrefix ++ tokenID) = .ok credited ∧
        roleTransferA.SaveAccount credited = none ∧
        some (newOwnerCredited [1, 0]) = some credited) ∧
      (roleTransferA.ComputeId destAddress ≠ roleTransferA.SelfId →
        some (newOwnerCredited [1, 0]) = none) :=
  roleTransfer_frame_emitted roleTransferA none (some (newOwnerCredited [1, 0])) roleHolder
    roleHolderStripped (roleTransferCall [1, 0])
    { ReturnCode := Ok, GasRemaining := 0,
      OutputAccounts := [([1, 0], roleTransferFrame roleTransferA [255, 255] [1, 0] tokenA 5)],
      Logs := [] }
    rfl rfl

theorem addCreateRole_ok (e : dctNFTCreateRoleTransfer) (acnt : Account) (key : Bytes)
    (roles : DCTRoles) (isNew : Bool)
    (hread : getDCTRolesForAcnt e.marshalizer acnt key = .ok (roles, isNew))
    (hmarshal : e.DCTRoleNFTCreate ∉ roles.Roles → ∃ marshaled,
      e.marshalizer.Marshal { Roles := roles.Roles ++ [e.DCTRoleNFTCreate] } = .ok marshaled) :
    ∃ credited, e.addCreateRoleToAccount acnt key = .ok credited := by
  unfold dctNFTCreateRoleTransfer.addCreateRoleToAccount
  simp only [hread]
  by_cases hmem : e.DCTRoleNFTCreate ∈ roles.Roles
  · exact ⟨acnt, by simp only [hmem, if_true]⟩
  · obtain ⟨marshaled, hm⟩ := hmarshal hmem
    exact ⟨acnt.SaveKeyValue key marshaled, by
      simp only [hmem, if_false, saveRolesToAccount, hm]⟩

/-- C23: the NFT create-role hand-off preserves the nonce, for a marshalizer whose unmarshal
inverts marshal and distinct nonce and role keys.  When the destination is local, every
successful call on the system-caller path leaves the account gaining the role with the
latest-nonce counter the losing account held and with the NFT-create role; every successful
call on that path emits the frame carrying the tokenID and the big-endian bytes of that nonce,
a 64-bit value; and the peer path, given the arguments (tokenID, bytes of a 64-bit nonce N),
succeeds on an account whose role list decodes (and marshals with the role added) and leaves it
with latest-nonce counter N and the NFT-create role. -/
theorem roleTransfer_nonce_preserved (e : dctNFTCreateRoleTransfer)
    (hround : ∀ roles marshaled, e.marshalizer.Marshal roles = .ok marshaled →
      roles.Roles ≠ [] → marshaled ≠ [] ∧ e.marshalizer.Unmarshal marshaled = .ok roles)
    (hkeys : ∀ tokenID, e.getNonceKey tokenID ≠ e.roleKeyPrefix ++ tokenID) :
    (∀ (acntSnd newDestination : Option Account) (acnt acnt' : Account)
        (vmInput : ContractCallInput) (out : VMOutput),
      vmInput.CallerAddr = e.DCTSCAddress →
      e.ProcessBuiltinFunction acntSnd (some acnt) (some vmInput)
        = ⟨.ok out, some acnt', newDestination⟩ →
      ∃ tokenID destAddress nonce,
        vmInput.Arguments = [tokenID, destAddress] ∧
        getLatestNonce e.getNonceKey acnt tokenID = .ok nonce ∧ nonce < 2 ^ 64 ∧
        out.OutputAccounts
          = [(destAddress, roleTransferFrame e vmInput.CallerAddr destAddress tokenID nonce)] ∧
        (e.ComputeId destAddress = e.SelfId → ∃ credited,
          newDestination = some credited ∧
          getLatestNonce e.getNonceKey credited tokenID = .ok nonce ∧
          e.holdsCreateRole credited tokenID)) ∧
    (∀ (peer : Account) (tokenID : Bytes) (nonce : Nat) (roles : DCTRoles) (isNew : Bool)
        (vmInput : ContractCallInput),
      nonce < 2 ^ 64 →
      vmInput.CallValue = some 0 →
      vmInput.CallerAddr ≠ e.DCTSCAddress →
      vmInput.Arguments = [tokenID, bigBytes nonce] →
      getDCTRolesForAcnt e.marshalizer peer (e.roleKeyPrefix ++ tokenID) = .ok (roles, isNew) →
      (e.DCTRoleNFTCreate ∉ roles.Roles → ∃ marshaled,
        e.marshalizer.Marshal { Roles := roles.Roles ++ [e.DCTRoleNFTCreate] }
          = .ok marshaled) →
      ∃ credited,
        e.ProcessBuiltinFunction none (some peer) (some vmInput)
          = ⟨.ok { ReturnCode := Ok, GasRemaining := 0, OutputAccounts := [], Logs := [] },
             some credited, none⟩ ∧
        getLatestNonce e.getNonceKey credited tokenID = .ok nonce ∧
        e.holdsCreateRole credited tokenID) := by
  constructor
  · intro acntSnd newDestination acnt acnt' vmInput out hcaller hok
    obtain ⟨outAcc, hexec, hout⟩ := roleTransfer_systemPath_eq_ok hcaller hok
    obtain ⟨tokenID, destAddress, nonce, stripped, hargs, hnonce, -, hframe, hcase⟩ :=
      currentOwner_eq_ok hexec
    have hlt := getLatestNonce_lt e.getNonceKey acnt tokenID nonce hnonce
    refine ⟨tokenID, destAddress, nonce, hargs, hnonce, hlt, ?_, ?_⟩
    · rw [hout, hframe]
      rfl
    · intro hlocal
      rcases hcase with ⟨-, loaded, credited, -, hadd, -, hnew, -⟩ | ⟨hremote, -⟩
      · obtain ⟨hholds, hother⟩ := addCreateRole_holds e _ credited tokenID hround hadd
        refine ⟨credited, hnew, ?_, hholds⟩
        rw [getLatestNonce_congr e.getNonceKey _ credited tokenID
          (hother _ (hkeys tokenID))]
        exact getLatestNonce_saveLatestNonce e.getNonceKey _ tokenID nonce hlt
      · exact absurd hlocal hremote
  · intro peer tokenID nonce roles isNew vmInput hlt hvalue hcaller hargs hread hmarshal
    have hreadSaved : getDCTRolesForAcnt e.marshalizer
        (saveLatestNonce e.getNonceKey peer tokenID nonce) (e.roleKeyPrefix ++ tokenID)
        = .ok (roles, isNew) := by
      rw [← hread]
      exact getDCTRolesForAcnt_congr e.marshalizer peer _ _
        (SaveKeyValue_data_other peer _ _ _ (Ne.symm (hkeys tokenID)))
    obtain ⟨credited, hadd⟩ := addCreateRole_ok e _ _ roles isNew hreadSaved hmarshal
    obtain ⟨hholds, hother⟩ := addCreateRole_holds e _ credited tokenID hround hadd
    have h0 : vmInput.Arguments.getD 0 [] = tokenID := by simp [hargs]
    have h1 : vmInput.Arguments.getD 1 [] = bigBytes nonce := by simp [hargs]
    have hdecoded : toUint64 (bigSetBytes (bigBytes nonce)) = nonce := by
      rw [bigSetBytes_bigBytes]
      exact Nat.mod_eq_of_lt hlt
    refine ⟨credited, ?_, ?_, hholds⟩
    · unfold dctNFTCreateRoleTransfer.ProcessBuiltinFunction
      simp only [checkBasicDCTArguments_ok vmInput hvalue (by simp [hargs]), Option.isSome_none,
        Bool.false_eq_true, if_false, hcaller,
        dctNFTCreateRoleTransfer.executeTransferNFTCreateChangeAtNextOwner]
      have hlen : ¬ vmInput.Arguments.length ≠ 2 := by simp [hargs]
      simp only [hlen, if_false, h0, h1, hdecoded, hadd]
    · rw [getLatestNonce_congr e.getNonceKey _ credited tokenID (hother _ (hkeys tokenID))]
      exact getLatestNonce_saveLatestNonce e.getNonceKey peer tokenID nonce hlt

theorem roleTransfer_nonce_preserved_witness :
    getLatestNonce roleTransferA.getNonceKey roleHolder tokenA = .ok 5 ∧
    (∃ tokenID destAddress nonce,
      (roleTransferCall [1, 0]).Arguments = [tokenID, destAddress] ∧
      getLatestNonce roleTransferA.getNonceKey roleHolder tokenID = .ok nonce ∧
      nonce < 2 ^ 64 ∧
      ({ ReturnCode := Ok, GasRemaining := 0,
         OutputAccounts :=
           [([1, 0], roleTransferFrame roleTransferA [255, 255] [1, 0] tokenA 5)],
         Logs := [] } : VMOutput).OutputAccounts
        = [(destAddress, roleTransferFrame roleTransferA (roleTransferCall [1, 0]).CallerAddr
            destAddress tokenID nonce)] ∧
      (roleTransferA.ComputeId destAddress = roleTransferA.SelfId → ∃ credited,
        some (newOwnerCredited [1, 0]) = some credited ∧
        getLatestNonce roleTransferA.getNonceKey credited tokenID = .ok nonce ∧
        roleTransferA.holdsCreateRole credited tokenID)) ∧
    (∃ credited,
      roleTransferA.ProcessBuiltinFunction none (some (emptyAccount [3, 0]))
          (some (rolePeerCall 5))
        = ⟨.ok { ReturnCode := Ok, GasRemaining := 0, OutputAccounts := [], Logs := [] },
           some credited, none⟩ ∧
      getLatestNonce roleTransferA.getNonceKey credited tokenA = .ok 5 ∧
      roleTransferA.holdsCreateRole credited tokenA) :=
  ⟨by decide,
   (roleTransfer_nonce_preserved roleTransferA rolesCodec_roundtrip
      (fun tokenID h => by simp [roleTransferA] at h)).1
      none (some (newOwnerCredited [1, 0])) roleHolder roleHolderStripped
      (roleTransferCall [1, 0])
      { ReturnCode := Ok, GasRemaining := 0,
        OutputAccounts :=
          [([1, 0], roleTransferFrame roleTransferA [255, 255] [1, 0] tokenA 5)],
        Logs := [] }
      rfl rfl,
   (roleTransfer_nonce_preserved roleTransferA rolesCodec_roundtrip
      (fun tokenID h => by simp [roleTransferA] at h)).2
      (emptyAccount [3, 0]) tokenA 5 { Roles := [] } true (rolePeerCall 5)
      (by decide) rfl (by decide) rfl (by decide)
      (fun _ => ⟨rolesBytes [[99]], by decide⟩)⟩

/-! ## Call-frame codec: failed parses, getters and storage updates -/

theorem stringsSplit_nil : stringsSplit [] = [[]] := rfl

theorem stringsSplit_separator (rest : Bytes) :
    stringsSplit (atSeparator :: rest) = [] :: stringsSplit rest := by
  rw [stringsSplit]; simp

/-- C31: `ParseData` fails with `ErrStringSplitFailed` on the empty string and on every string
that starts with `@` (the strings whose first segment is empty), leaving the parser as it was;
on a fresh parser `GetCode` then returns nil with `ErrNilCode` and `GetFunction` the empty text
with `ErrNilFunction`. -/
theorem ParseData_empty_first_segment (data : Bytes)
    (hfirst : (stringsSplit data).head? = some []) :
    NewAtArgumentParser.ParseData data = (some .ErrStringSplitFailed, NewAtArgumentParser) ∧
    (NewAtArgumentParser.ParseData data).2.GetCode = (none, some .ErrNilCode) ∧
    (NewAtArgumentParser.ParseData data).2.GetFunction = ([], some .ErrNilFunction) := by
  have h : NewAtArgumentParser.ParseData data
      = (some .ErrStringSplitFailed, NewAtArgumentParser) := by
    unfold atArgumentParser.ParseData
    cases hs : stringsSplit data with
    | nil => rfl
    | cons code arguments =>
      rw [hs] at hfirst
      simp only [List.head?_cons, Option.some.injEq] at hfirst
      simp [hfirst]
  rw [h]
  exact ⟨rfl, rfl, rfl⟩

theorem ParseData_empty_first_segment_witness :
    (stringsSplit [64, 97, 97, 97, 97]).head? = some [] ∧
    (stringsSplit []).head? = some [] ∧
    (NewAtArgumentParser.ParseData [64, 97, 97, 97, 97]
        = (some .ErrStringSplitFailed, NewAtArgumentParser) ∧
     (NewAtArgumentParser.ParseData [64, 97, 97, 97, 97]).2.GetCode = (none, some .ErrNilCode) ∧
     (NewAtArgumentParser.ParseData [64, 97, 97, 97, 97]).2.GetFunction
        = ([], some .ErrNilFunction)) :=
  ⟨by decide, by decide, ParseData_empty_first_segment [64, 97, 97, 97, 97] (by decide)⟩

/-- C32 (the code's behaviour): after the parse of `bbbbbbbb@aaaa`, which has the two segments
`bbbbbbbb` and `aaaa` and succeeds, `GetFunction` returns the first segment `bbbbbbbb`, as
`TestAtArgumentParser_GetFunction` expects, and not the second segment `aaaa`. -/
theorem GetFunction_not_second_segment :
    stringsSplit [98, 98, 98, 98, 98, 98, 98, 98, 64, 97, 97, 97, 97]
      = [[98, 98, 98, 98, 98, 98, 98, 98], [97, 97, 97, 97]] ∧
    (NewAtArgumentParser.ParseData
      [98, 98, 98, 98, 98, 98, 98, 98, 64, 97, 97, 97, 97]).1 = none ∧
    (NewAtArgumentParser.ParseData
      [98, 98, 98, 98, 98, 98, 98, 98, 64, 97, 97, 97, 97]).2.GetFunction
      = ([98, 98, 98, 98, 98, 98, 98, 98], none) ∧
    (NewAtArgumentParser.ParseData
      [98, 98, 98, 98, 98, 98, 98, 98, 64, 97, 97, 97, 97]).2.GetFunction.1
      ≠ [97, 97, 97, 97] := by decide

/-- C32 (amended): after the parse of a string with at least two `@`-separated segments, the
first of them non-empty, the parse succeeds, `GetCode` returns the first segment and
`GetFunction` returns the first segment as well, read as text. -/
theorem GetCode_GetFunction_first_segment (p : atArgumentParser) (data first second : Bytes)
    (rest : List Bytes) (hsplit : stringsSplit data = first :: second :: rest)
    (hfirst : first ≠ []) :
    (p.ParseData data).1 = none ∧
    (p.ParseData data).2.GetCode = (some first, none) ∧
    (p.ParseData data).2.GetFunction = (first, none) := by
  unfold atArgumentParser.ParseData
  rw [hsplit]
  simp [hfirst, atArgumentParser.GetCode, atArgumentParser.GetFunction]

theorem GetCode_GetFunction_first_segment_witness :
    stringsSplit [98, 98, 98, 98, 98, 98, 98, 98, 64, 97, 97, 97, 97]
      = [98, 98, 98, 98, 98, 98, 98, 98] :: [97, 97, 97, 97] :: [] ∧
    ((NewAtArgumentParser.ParseData
        [98, 98, 98, 98, 98, 98, 98, 98, 64, 97, 97, 97, 97]).1 = none ∧
     (NewAtArgumentParser.ParseData
        [98, 98, 98, 98, 98, 98, 98, 98, 64, 97, 97, 97, 97]).2.GetCode
        = (some [98, 98, 98, 98, 98, 98, 98, 98], none) ∧
     (NewAtArgumentParser.ParseData
        [98, 98, 98, 98, 98, 98, 98, 98, 64, 97, 97, 97, 97]).2.GetFunction
        = ([98, 98, 98, 98, 98, 98, 98, 98], none)) :=
  ⟨by decide,
   GetCode_GetFunction_first_segment NewAtArgumentParser
    [98, 98, 98, 98, 98, 98, 98, 98, 64, 97, 97, 97, 97] [98, 98, 98, 98, 98, 98, 98, 98]
    [97, 97, 97, 97] [] (by decide) (by decide)⟩

theorem decodeStorageUpdates_none_aux (n : Nat) :
    ∀ segments : List Bytes, segments.length ≤ n →
      (∃ segment ∈ segments, hexDecode segment = none) →
      decodeStorageUpdates segments = none := by
  induction n with
  | zero =>
    intro segments hlen h
    obtain ⟨segment, hmem, _⟩ := h
    cases segments with
    | nil => cases hmem
    | cons _ _ => simp at hlen
  | succ n ih =>
    intro segments hlen h
    match segments, hlen, h with
    | [], _, ⟨_, hmem, _⟩ => cases hmem
    | [_], _, _ => rfl
    | offset :: data :: rest, hlen, ⟨segment, hmem, hbad⟩ =>
      rw [decodeStorageUpdates]
      simp only [List.mem_cons] at hmem
      rcases hmem with rfl | rfl | hmem
      · simp [hbad]
      · rw [hbad]; cases hexDecode offset <;> rfl
      · rw [ih rest (by simp only [List.length_cons] at hlen; omega) ⟨segment, hmem, hbad⟩]
        cases hexDecode offset <;> cases hexDecode data <;> rfl

theorem decodeStorageUpdates_none (segments : List Bytes)
    (h : ∃ segment ∈ segments, hexDecode segment = none) :
    decodeStorageUpdates segments = none :=
  decodeStorageUpdates_none_aux segments.length segments (Nat.le_refl _) h

/-- C33: `GetStorageUpdates` fails with `ErrStringSplitFailed` on the empty string, and with
`ErrInvalidDataString` on every other input whose number of `@`-separated segments is odd or
one of whose segments is no hexadecimal encoding; in both cases the list returned is nil. -/
theorem GetStorageUpdates_errors :
    GetStorageUpdates [] = (none, some .ErrStringSplitFailed) ∧
    ∀ data : Bytes, data ≠ [] →
      ((stringsSplit data).length % 2 = 1 ∨
        ∃ segment ∈ stringsSplit data, hexDecode segment = none) →
      GetStorageUpdates data = (none, some .ErrInvalidDataString) := by
  refine ⟨rfl, ?_⟩
  intro data hdata hbad
  unfold GetStorageUpdates
  rw [if_neg hdata]
  by_cases hodd : (stringsSplit data).length % 2 ≠ 0
  · rw [if_pos hodd]
  · rw [if_neg hodd]
    rcases hbad with h | h
    · omega
    · rw [decodeStorageUpdates_none _ h]

theorem GetStorageUpdates_errors_witness :
    [116, 101, 115, 116, 64, 116, 101, 115, 116, 64, 116, 101, 115, 116] ≠ ([] : Bytes) ∧
    (stringsSplit [116, 101, 115, 116, 64, 116, 101, 115, 116, 64, 116, 101, 115, 116]).length
      % 2 = 1 ∧
    GetStorageUpdates [116, 101, 115, 116, 64, 116, 101, 115, 116, 64, 116, 101, 115, 116]
      = (none, some .ErrInvalidDataString) ∧
    GetStorageUpdates [97, 98, 64, 120, 121] = (none, some .ErrInvalidDataString) ∧
    GetStorageUpdates [97, 97, 97, 97, 64, 97, 97, 97, 97]
      = (some [{ Offset := [170, 170], Data := [170, 170] }], none) :=
  ⟨by decide, by decide,
   GetStorageUpdates_errors.2
    [116, 101, 115, 116, 64, 116, 101, 115, 116, 64, 116, 101, 115, 116] (by decide)
    (Or.inl (by decide)),
   GetStorageUpdates_errors.2 [97, 98, 64, 120, 121] (by decide)
    (Or.inr ⟨[120, 121], by decide, by decide⟩),
   by decide⟩

/-! ### The round trip of the storage-update codec -/

theorem hexValue_hexDigit : ∀ n, n < 16 → hexValue (hexDigit n) = some n := by decide

theorem hexDigit_ne_separator : ∀ n, n < 16 → hexDigit n ≠ atSeparator := by decide

theorem hexEncode_cons (x : Fin 256) (b : Bytes) :
    hexEncode (x :: b) = hexDigit (x.val / 16) :: hexDigit (x.val % 16) :: hexEncode b := by
  simp [hexEncode]

theorem hexDecode_hexEncode (b : Bytes) : hexDecode (hexEncode b) = some b := by
  induction b with
  | nil => rfl
  | cons x b ih =>
    rw [hexEncode_cons, hexDecode, hexValue_hexDigit _ (by omega),
      hexValue_hexDigit _ (Nat.mod_lt _ (by decide)), ih]
    simp only [Option.some.injEq, List.cons.injEq, and_true]
    apply Fin.ext
    show (x.val / 16 * 16 + x.val % 16) % 256 = x.val
    omega

theorem separator_not_mem_hexEncode (b : Bytes) : atSeparator ∉ hexEncode b := by
  induction b with
  | nil => simp [hexEncode]
  | cons x b ih =>
    rw [hexEncode_cons]
    simp only [List.mem_cons, not_or]
    exact ⟨fun h => hexDigit_ne_separator _ (by omega) h.symm,
      fun h => hexDigit_ne_separator _ (Nat.mod_lt _ (by decide)) h.symm, ih⟩

theorem decodeStorageUpdates_encoded (updates : List StorageUpdate) :
    decodeStorageUpdates
      (updates.flatMap (fun update => [hexEncode update.Offset, hexEncode update.Data]))
      = some updates := by
  induction updates with
  | nil => rfl
  | cons update rest ih =>
    simp only [List.flatMap_cons, List.cons_append, List.nil_append]
    rw [decodeStorageUpdates, hexDecode_hexEncode, hexDecode_hexEncode, ih]

theorem length_encoded_segments (updates : List StorageUpdate) :
    (updates.flatMap (fun update => [hexEncode update.Offset, hexEncode update.Data])).length
      = 2 * updates.length := by
  induction updates with
  | nil => rfl
  | cons update rest ih =>
    simp only [List.flatMap_cons, List.cons_append, List.nil_append, List.length_cons, ih]
    omega

/-- C34: the encoder returns the empty string for the empty list, `hex(offset)@hex(data)` for
a single update and `hex(offset)@hex(data)@` followed by the encoding of the rest for a longer
list; and for every non-empty list of storage updates `GetStorageUpdates` applied to the encoded
string succeeds and returns the very same list: as many updates, with the same offsets and data,
in the same order. -/
theorem storageUpdates_roundtrip (updates : List StorageUpdate) (hne : updates ≠ []) :
    CreateDataFromStorageUpdate [] = [] ∧
    (∀ update : StorageUpdate, CreateDataFromStorageUpdate [update]
      = hexEncode update.Offset ++ atSeparator :: hexEncode update.Data) ∧
    (∀ (update next : StorageUpdate) (rest : List StorageUpdate),
      CreateDataFromStorageUpdate (update :: next :: rest)
        = hexEncode update.Offset ++ atSeparator :: (hexEncode update.Data
            ++ atSeparator :: CreateDataFromStorageUpdate (next :: rest))) ∧
    GetStorageUpdates (CreateDataFromStorageUpdate updates) = (some updates, none) := by
  refine ⟨rfl, fun _ => rfl, fun _ _ _ => rfl, ?_⟩
  cases updates with
  | nil => exact absurd rfl hne
  | cons update rest =>
    have hsegments : ∀ segment ∈ hexEncode update.Offset :: (hexEncode update.Data ::
        rest.flatMap (fun update => [hexEncode update.Offset, hexEncode update.Data])),
        atSeparator ∉ segment := by
      intro segment hmem
      simp only [List.mem_cons, List.mem_flatMap, List.mem_singleton,
        List.not_mem_nil, or_false] at hmem
      rcases hmem with rfl | rfl | ⟨other, _, rfl | rfl⟩ <;>
        exact separator_not_mem_hexEncode _
    have hsplit := stringsSplit_joinSegments _ _ hsegments
    have hdata : CreateDataFromStorageUpdate (update :: rest)
        = joinSegments (hexEncode update.Offset :: (hexEncode update.Data ::
            rest.flatMap (fun update => [hexEncode update.Offset, hexEncode update.Data]))) :=
      rfl
    have hnonempty : CreateDataFromStorageUpdate (update :: rest) ≠ [] := by
      intro h
      have hlen := congrArg (fun d => (stringsSplit d).length) h
      simp only [hdata, hsplit, stringsSplit_nil, List.length_cons, List.length_nil] at hlen
      omega
    unfold GetStorageUpdates
    rw [if_neg hnonempty, hdata, hsplit]
    have hdecode := decodeStorageUpdates_encoded (update :: rest)
    have hlength := length_encoded_segments (update :: rest)
    simp only [List.flatMap_cons, List.cons_append, List.nil_append] at hdecode hlength
    rw [if_neg (by rw [hlength]; omega), hdecode]

theorem storageUpdates_roundtrip_witness :
    CreateDataFromStorageUpdate
        [{ Offset := [170, 170], Data := [170, 170] }, { Offset := [], Data := [1] }]
      = [97, 97, 97, 97, 64, 97, 97, 97, 97, 64, 64, 48, 49] ∧
    (CreateDataFromStorageUpdate [] = [] ∧
     (∀ update : StorageUpdate, CreateDataFromStorageUpdate [update]
        = hexEncode update.Offset ++ atSeparator :: hexEncode update.Data) ∧
     (∀ (update next : StorageUpdate) (rest : List StorageUpdate),
        CreateDataFromStorageUpdate (update :: next :: rest)
          = hexEncode update.Offset ++ atSeparator :: (hexEncode update.Data
              ++ atSeparator :: CreateDataFromStorageUpdate (next :: rest))) ∧
     GetStorageUpdates (CreateDataFromStorageUpdate
        [{ Offset := [170, 170], Data := [170, 170] }, { Offset := [], Data := [1] }])
       = (some [{ Offset := [170, 170], Data := [170, 170] }, { Offset := [], Data := [1] }],
          none)) :=
  ⟨by decide,
   storageUpdates_roundtrip
    [{ Offset := [170, 170], Data := [170, 170] }, { Offset := [], Data := [1] }]
    (by decide)⟩

/-! ## NFT create-role transfer: the peer path applied twice -/

theorem SaveKeyValue_same_value (acnt : Account) (key value : Bytes)
    (h : acnt.data key = value) : acnt.SaveKeyValue key value = acnt := by
  cases acnt with
  | mk address data =>
    unfold Account.SaveKeyValue
    simp only [Account.mk.injEq, true_and]
    funext k
    by_cases hk : k = key
    · simp only [hk, if_true]; exact h.symm
    · simp only [hk, if_false]

theorem roleTransfer_peerPath_eq_ok {e : dctNFTCreateRoleTransfer}
    {newDestination : Option Account} {acnt acnt' : Account}
    {vmInput : ContractCallInput} {out : VMOutput}
    (hcaller : vmInput.CallerAddr ≠ e.DCTSCAddress)
    (h : e.ProcessBuiltinFunction none (some acnt) (some vmInput)
      = ⟨.ok out, some acnt', newDestination⟩) :
    checkBasicDCTArguments (some vmInput) = .ok vmInput ∧
    e.executeTransferNFTCreateChangeAtNextOwner acnt vmInput = (none, acnt') ∧
    out = { ReturnCode := Ok, GasRemaining := 0, OutputAccounts := [], Logs := [] } ∧
    newDestination = none := by
  unfold dctNFTCreateRoleTransfer.ProcessBuiltinFunction at h
  cases hb : checkBasicDCTArguments (some vmInput) with
  | error err => simp [hb] at h
  | ok checked =>
    have hsame : checked = vmInput := by
      unfold checkBasicDCTArguments at hb
      simp only at hb
      split at hb
      · cases hb
      · split_ifs at hb
        simp only [Result.ok.injEq] at hb
        exact hb.symm
    subst hsame
    simp only [hb, Option.isSome_none, Bool.false_eq_true, if_false, hcaller] at h
    generalize e.executeTransferNFTCreateChangeAtNextOwner acnt checked = executed at h ⊢
    obtain ⟨failure, left⟩ := executed
    cases failure with
    | some err => simp at h
    | none =>
      simp only [RoleTransferOutcome.mk.injEq, Result.ok.injEq, Option.some.injEq] at h
      obtain ⟨hout, hacnt, hnew⟩ := h
      subst hacnt
      exact ⟨rfl, rfl, hout.symm, hnew.symm⟩

theorem nextOwner_eq_ok {e : dctNFTCreateRoleTransfer} {acnt acnt' : Account}
    {vmInput : ContractCallInput}
    (h : e.executeTransferNFTCreateChangeAtNextOwner acnt vmInput = (none, acnt')) :
    vmInput.Arguments.length = 2 ∧
    e.addCreateRoleToAccount
      (saveLatestNonce e.getNonceKey acnt (vmInput.Arguments.getD 0 [])
        (toUint64 (bigSetBytes (vmInput.Arguments.getD 1 []))))
      (e.roleKeyPrefix ++ vmInput.Arguments.getD 0 []) = .ok acnt' := by
  unfold dctNFTCreateRoleTransfer.executeTransferNFTCreateChangeAtNextOwner at h
  by_cases h2 : vmInput.Arguments.length ≠ 2
  · simp [h2] at h
  · rw [if_neg h2] at h
    simp only at h
    refine ⟨not_not.mp h2, ?_⟩
    generalize e.addCreateRoleToAccount _ _ = added at h ⊢
    cases added with
    | error err => simp at h
    | ok credited =>
      simp only [Prod.mk.injEq, true_and] at h
      rw [h]

/-- C40: the peer path of the NFT create-role transfer is idempotent, for a marshalizer whose
unmarshal inverts marshal and distinct nonce and role keys: after a successful application of
the forwarded arguments (tokenID, nonce) to an account, applying the same arguments to the
resulting account succeeds again with the same output and leaves that account exactly as it
was, so with the same latest-nonce counter (the forwarded nonce) and the same role list; and if
the role list held the NFT-create role at most once before the first application, it holds it
exactly once afterwards. -/
theorem roleTransfer_peer_idempotent (e : dctNFTCreateRoleTransfer)
    (acnt acnt' : Account) (vmInput : ContractCallInput) (out : VMOutput)
    (newDestination : Option Account)
    (hround : ∀ roles marshaled, e.marshalizer.Marshal roles = .ok marshaled →
      roles.Roles ≠ [] → marshaled ≠ [] ∧ e.marshalizer.Unmarshal marshaled = .ok roles)
    (hkeys : e.getNonceKey (vmInput.Arguments.getD 0 [])
      ≠ e.roleKeyPrefix ++ vmInput.Arguments.getD 0 [])
    (hcaller : vmInput.CallerAddr ≠ e.DCTSCAddress)
    (hok : e.ProcessBuiltinFunction none (some acnt) (some vmInput)
      = ⟨.ok out, some acnt', newDestination⟩) :
    e.ProcessBuiltinFunction none (some acnt') (some vmInput) = ⟨.ok out, some acnt', none⟩ ∧
    getLatestNonce e.getNonceKey acnt' (vmInput.Arguments.getD 0 [])
      = .ok (toUint64 (bigSetBytes (vmInput.Arguments.getD 1 []))) ∧
    (∀ roles isNew,
      getDCTRolesForAcnt e.marshalizer acnt (e.roleKeyPrefix ++ vmInput.Arguments.getD 0 [])
        = .ok (roles, isNew) →
      roles.Roles.count e.DCTRoleNFTCreate ≤ 1 →
      ∃ roles' isNew',
        getDCTRolesForAcnt e.marshalizer acnt' (e.roleKeyPrefix ++ vmInput.Arguments.getD 0 [])
          = .ok (roles', isNew') ∧
        roles'.Roles.count e.DCTRoleNFTCreate = 1) := by
  obtain ⟨hbasic, hexec, hout, -⟩ := roleTransfer_peerPath_eq_ok hcaller hok
  obtain ⟨hlen, hadd⟩ := nextOwner_eq_ok hexec
  generalize htoken : vmInput.Arguments.getD 0 [] = tokenID at hkeys hadd ⊢
  generalize hnonce : toUint64 (bigSetBytes (vmInput.Arguments.getD 1 [])) = nonce at hadd ⊢
  have hlt : nonce < 2 ^ 64 := by
    rw [← hnonce]; exact Nat.mod_lt _ (by decide)
  obtain ⟨hholds, hframe⟩ := addCreateRole_holds e _ acnt' tokenID hround hadd
  have hdata : acnt'.data (e.getNonceKey tokenID) = bigBytes nonce := by
    rw [hframe _ hkeys]
    exact SaveKeyValue_data_same acnt _ _
  have hsave : saveLatestNonce e.getNonceKey acnt' tokenID nonce = acnt' :=
    SaveKeyValue_same_value acnt' _ _ hdata
  have hcounter : getLatestNonce e.getNonceKey acnt' tokenID = .ok nonce := by
    rw [← hsave]
    exact getLatestNonce_saveLatestNonce e.getNonceKey acnt' tokenID nonce hlt
  have hagain : e.addCreateRoleToAccount acnt' (e.roleKeyPrefix ++ tokenID) = .ok acnt' := by
    obtain ⟨roles, isNew, hread, hmem⟩ := hholds
    unfold dctNFTCreateRoleTransfer.addCreateRoleToAccount
    rw [hread]
    simp only [hmem, if_true]
  refine ⟨?_, hcounter, ?_⟩
  · unfold dctNFTCreateRoleTransfer.ProcessBuiltinFunction
    simp only [hbasic, Option.isSome_none, Bool.false_eq_true, if_false, hcaller]
    have hsecond : e.executeTransferNFTCreateChangeAtNextOwner acnt' vmInput = (none, acnt') := by
      unfold dctNFTCreateRoleTransfer.executeTransferNFTCreateChangeAtNextOwner
      rw [if_neg (by omega)]
      simp only [htoken, hnonce, hsave, hagain]
    rw [hsecond, hout]
  · intro roles isNew hread hcount
    have hread' : getDCTRolesForAcnt e.marshalizer
        (saveLatestNonce e.getNonceKey acnt tokenID nonce) (e.roleKeyPrefix ++ tokenID)
          = .ok (roles, isNew) := by
      rw [← hread]
      exact getDCTRolesForAcnt_congr e.marshalizer acnt _ _
        (SaveKeyValue_data_other acnt _ _ _ (Ne.symm hkeys))
    obtain ⟨roles0, isNew0, hread0, hcase⟩ := addCreateRole_eq_ok hadd
    rw [hread'] at hread0
    simp only [Result.ok.injEq, Prod.mk.injEq] at hread0
    obtain ⟨hroles, -⟩ := hread0
    subst hroles
    rcases hcase with ⟨hmem, hacnt⟩ | ⟨hmem, marshaled, hm, hacnt⟩
    · subst hacnt
      refine ⟨roles, isNew, hread', ?_⟩
      have hpos := List.count_pos_iff.mpr hmem
      omega
    · subst hacnt
      obtain ⟨hne, hun⟩ := hround _ marshaled hm (by simp)
      refine ⟨{ Roles := roles.Roles ++ [e.DCTRoleNFTCreate] }, false, ?_, ?_⟩
      · unfold getDCTRolesForAcnt Account.RetrieveValue
        simp only [SaveKeyValue_data_same, hne, if_false, hun]
      · simp [List.count_eq_zero_of_not_mem hmem]

theorem roleTransfer_peer_idempotent_witness :
    roleTransferA.ProcessBuiltinFunction none (some (newOwnerCredited [3, 0]))
        (some (rolePeerCall 5))
      = ⟨.ok { ReturnCode := Ok, GasRemaining := 0, OutputAccounts := [], Logs := [] },
         some (newOwnerCredited [3, 0]), none⟩ ∧
    getLatestNonce roleTransferA.getNonceKey (newOwnerCredited [3, 0])
        ((rolePeerCall 5).Arguments.getD 0 [])
      = .ok (toUint64 (bigSetBytes ((rolePeerCall 5).Arguments.getD 1 []))) ∧
    (∀ roles isNew,
      getDCTRolesForAcnt roleTransferA.marshalizer (emptyAccount [3, 0])
          (roleTransferA.roleKeyPrefix ++ (rolePeerCall 5).Arguments.getD 0 [])
        = .ok (roles, isNew) →
      roles.Roles.count roleTransferA.DCTRoleNFTCreate ≤ 1 →
      ∃ roles' isNew',
        getDCTRolesForAcnt roleTransferA.marshalizer (newOwnerCredited [3, 0])
            (roleTransferA.roleKeyPrefix ++ (rolePeerCall 5).Arguments.getD 0 [])
          = .ok (roles', isNew') ∧
        roles'.Roles.count roleTransferA.DCTRoleNFTCreate = 1) :=
  roleTransfer_peer_idempotent roleTransferA (emptyAccount [3, 0]) (newOwnerCredited [3, 0])
    (rolePeerCall 5)
    { ReturnCode := Ok, GasRemaining := 0, OutputAccounts := [], Logs := [] } none
    rolesCodec_roundtrip (by decide) (by decide) rfl

/-! ## Multi-asset transfer: the properties of the destination record -/

/-- C38 does not hold on the code: the destination holds, at (tokenA, nonce 1), a frozen record;
a same-shard transfer of one unit of that NFT with `returnCallAfterError` set succeeds and the
record stored on the destination afterwards is the transferred record, with the sender's
properties: the frozen flag the destination's record carried is gone. -/
theorem destination_frozen_flag_cleared :
    getDCTNFTTokenOnDestination frozenDestination (prefixA ++ tokenA) 1 codecMarshalizer
      = .ok (fungibleRecord 0 (DCTUserMetadata.mk true).ToBytes, false) ∧
    (DCTUserMetadataFromBytes
      (fungibleRecord 0 (DCTUserMetadata.mk true).ToBytes).Properties).Frozen = true ∧
    (transferFrozen.ProcessBuiltinFunction (some nftHolder) none
        (some { selfCall [[1, 0], [1], tokenA, [1], [1]] 100 with
                ReturnCallAfterError := true })).result
      = .ok { ReturnCode := Ok, GasRemaining := 99, OutputAccounts := [],
              Logs := [transferLogEntry transferFrozen [2, 2] tokenA 1 [1, 0]] } ∧
    (transferFrozen.ProcessBuiltinFunction (some nftHolder) none
        (some { selfCall [[1, 0], [1], tokenA, [1], [1]] 100 with
                ReturnCallAfterError := true })).acntDst.map
        (fun acnt => getDCTNFTTokenOnDestination acnt (prefixA ++ tokenA) 1 codecMarshalizer)
      = some (.ok (nftRecord 1 1 [9] [5], false)) ∧
    (nftRecord 1 1 [9] [5]).Properties
      ≠ (fungibleRecord 0 (DCTUserMetadata.mk true).ToBytes).Properties ∧
    (DCTUserMetadataFromBytes (nftRecord 1 1 [9] [5]).Properties).Frozen = false := by
  decide

/-! ## NFT attribute update: the order of the checks -/

/-- C39 as stated does not hold on the code: with a per-byte store cost of 2^63, two attribute
bytes and 10 units of gas the gas check of the claim fails (10 < 0 + 2 * 2^63), yet the call
with nonce 0 returns `ErrNFTDoesNotHaveMetadata`, the error of the check after it: the cost is
computed in 64-bit arithmetic and wraps to 0. -/
theorem updateAttributes_order_gas_wraps :
    (selfCall [tokenA, [], [7, 7]] 10).GasProvided
      < updateWrap.funcGasCost + ([7, 7] : Bytes).length * updateWrap.StorePerByte ∧
    updateFirstFailure updateWrap (some nftHolder) (selfCall [tokenA, [], [7, 7]] 10)
      = some .ErrNotEnoughGas ∧
    (updateWrap.ProcessBuiltinFunction (some nftHolder)
        (some (selfCall [tokenA, [], [7, 7]] 10))).1
      = .error .ErrNFTDoesNotHaveMetadata := by
  decide

/-- C39, amended: when `funcGasCost + len(attributes) * StorePerByte` is below 2^64, the NFT
attribute update returns the error of the first failing check in the order: basic input checks
(with `gasProvided < funcGasCost`), argument count different from 3 (`ErrInvalidArguments`),
missing update-attributes role (the role handler's error), `gasProvided < funcGasCost +
len(attributes) * StorePerByte` (`ErrNotEnoughGas`), nonce equal to 0
(`ErrNFTDoesNotHaveMetadata`), record lookup failure; the account is returned as it was, and a
call that succeeds has passed all of them. -/
theorem updateAttributes_first_failure (e : dctNFTupdate) (acntSnd : Option Account)
    (vmInput : ContractCallInput)
    (hnowrap : e.funcGasCost + (vmInput.Arguments.getD 2 []).length * e.StorePerByte < 2 ^ 64) :
    (∀ err, updateFirstFailure e acntSnd vmInput = some err →
      e.ProcessBuiltinFunction acntSnd (some vmInput) = (.error err, acntSnd)) ∧
    (∀ out acntSnd', e.ProcessBuiltinFunction acntSnd (some vmInput) = (.ok out, acntSnd') →
      updateFirstFailure e acntSnd vmInput = none) := by
  have hcost : u64add e.funcGasCost (u64mul (vmInput.Arguments.getD 2 []).length e.StorePerByte)
      = e.funcGasCost + (vmInput.Arguments.getD 2 []).length * e.StorePerByte := by
    unfold u64add u64mul
    have hprod : (vmInput.Arguments.getD 2 []).length * e.StorePerByte < 2 ^ 64 := by omega
    rw [Nat.mod_eq_of_lt hprod, Nat.mod_eq_of_lt hnowrap]
  have hfirst : ∀ err, updateFirstFailure e acntSnd vmInput = some err →
      e.ProcessBuiltinFunction acntSnd (some vmInput) = (.error err, acntSnd) := by
    intro err hfail
    unfold updateFirstFailure at hfail
    unfold dctNFTupdate.ProcessBuiltinFunction
    cases hcheck : checkDCTNFTCreateBurnAddInput acntSnd (some vmInput) e.funcGasCost with
    | error err' =>
      simp only [hcheck, Option.some.injEq] at hfail
      simp only [hfail]
    | ok checked =>
      obtain ⟨acnt, checkedInput⟩ := checked
      have hsame : checkedInput = vmInput := (checkDCTNFTCreateBurnAddInput_eq_ok hcheck).1
      subst hsame
      simp only [hcheck] at hfail ⊢
      by_cases h3 : checkedInput.Arguments.length ≠ 3
      · rw [if_pos h3] at hfail ⊢
        cases hfail; rfl
      · rw [if_neg h3] at hfail ⊢
        simp only [hcost]
        cases hrole : e.CheckAllowedToExecute acnt (checkedInput.Arguments.getD 0 [])
            e.DCTRoleNFTUpdateAttributes with
        | some err' =>
          simp only [hrole, Option.some.injEq] at hfail
          simp only [hfail]
        | none =>
          simp only [hrole] at hfail ⊢
          by_cases hgas : checkedInput.GasProvided
              < e.funcGasCost + (checkedInput.Arguments.getD 2 []).length * e.StorePerByte
          · rw [if_pos hgas] at hfail ⊢
            cases hfail; rfl
          · rw [if_neg hgas] at hfail ⊢
            by_cases hzero : toUint64 (bigSetBytes (checkedInput.Arguments.getD 1 [])) = 0
            · rw [if_pos hzero] at hfail ⊢
              cases hfail; rfl
            · rw [if_neg hzero] at hfail ⊢
              cases hget : getDCTNFTTokenOnSender acnt
                  (e.keyPrefix ++ checkedInput.Arguments.getD 0 [])
                  (toUint64 (bigSetBytes (checkedInput.Arguments.getD 1 []))) e.marshalizer with
              | error err' =>
                simp only [hget, Option.some.injEq] at hfail
                simp only [hfail]
              | ok dctData =>
                simp only [hget] at hfail
                cases hfail
  refine ⟨hfirst, ?_⟩
  intro out acntSnd' hok
  cases hfail : updateFirstFailure e acntSnd vmInput with
  | none => rfl
  | some err =>
    rw [hfirst err hfail] at hok
    cases hok

theorem updateAttributes_first_failure_witness :
    updateA.funcGasCost
        + ((selfCall [tokenA, [], [7, 7]] 15).Arguments.getD 2 []).length * updateA.StorePerByte
      < 2 ^ 64 ∧
    updateFirstFailure updateA (some nftHolder) (selfCall [tokenA, [], [7, 7]] 15)
      = some .ErrNotEnoughGas ∧
    updateA.ProcessBuiltinFunction (some nftHolder) (some (selfCall [tokenA, [], [7, 7]] 15))
      = (.error .ErrNotEnoughGas, some nftHolder) ∧
    updateFirstFailure updateA (some nftHolder) (selfCall [tokenA, [], [7, 7]] 16)
      = some .ErrNFTDoesNotHaveMetadata ∧
    updateA.ProcessBuiltinFunction (some nftHolder) (some (selfCall [tokenA, [], [7, 7]] 16))
      = (.error .ErrNFTDoesNotHaveMetadata, some nftHolder) ∧
    updateFirstFailure updateA (some nftHolder) (selfCall [tokenA, [1], [7, 7]] 16) = none :=
  ⟨by decide, by decide,
   (updateAttributes_first_failure updateA (some nftHolder) (selfCall [tokenA, [], [7, 7]] 15)
      (by decide)).1 _ (by decide),
   by decide,
   (updateAttributes_first_failure updateA (some nftHolder) (selfCall [tokenA, [], [7, 7]] 16)
      (by decide)).1 _ (by decide),
   by decide⟩

/-! ## Multi-asset transfer: the quantity checks of the transfer loop -/

theorem senderShardLoop_add (e : dctNFTMultiTransfer) (vmInput : ContractCallInput)
    (dstAddress : Bytes) (verifyPayable : Bool) (a b : Nat) :
    ∀ (i : Nat) (st : LoopState),
      e.senderShardLoop vmInput dstAddress verifyPayable (a + b) i st
        = match e.senderShardLoop vmInput dstAddress verifyPayable a i st with
          | (some err, reached) => (some err, reached)
          | (none, reached) =>
            e.senderShardLoop vmInput dstAddress verifyPayable b (i + a) reached := by
  induction a with
  | zero =>
    intro i st
    rw [senderShardLoop_zero]
    simp only [Nat.zero_add, Nat.add_zero]
  | succ a ih =>
    intro i st
    have hsum : a + 1 + b = (a + b) + 1 := by omega
    rw [hsum, dctNFTMultiTransfer.senderShardLoop]
    conv => rhs; rw [dctNFTMultiTransfer.senderShardLoop]
    cases argAt vmInput.Arguments (2 + i * argumentsPerTransfer) with
    | error err => rfl
    | ok tokenID =>
      cases argAt vmInput.Arguments (2 + i * argumentsPerTransfer + 1) with
      | error err => rfl
      | ok nonceBytes =>
        cases argAt vmInput.Arguments (2 + i * argumentsPerTransfer + 2) with
        | error err => rfl
        | ok quantityBytes =>
          simp only
          cases (e.transferOneTokenOnSenderShard st.acntSnd st.acntDst dstAddress tokenID
            (toUint64 (bigSetBytes nonceBytes)) (bigSetBytes quantityBytes) verifyPayable
            vmInput.ReturnCallAfterError).result with
          | error err => rfl
          | ok dctData =>
            simp only
            rw [ih]
            have hi : i + 1 + a = i + (a + 1) := by omega
            rw [hi]

theorem argAt_ok_getD {args : List Bytes} {i : Nat} {b : Bytes} (h : argAt args i = .ok b) :
    args.getD i [] = b := by
  unfold argAt at h
  by_cases hi : i < args.length
  · rw [List.get?_eq_get hi] at h
    simp only [Result.ok.injEq] at h
    rw [← h]
    simp [List.getD, List.getElem?_eq_getElem hi]
  · rw [List.get?_eq_none.mpr (by omega)] at h
    cases h

theorem transferOne_result_ok (e : dctNFTMultiTransfer) (acntSnd acntDst : Option Account)
    (dstAddress tokenID : Bytes) (nonce : Nat) (quantityToTransfer : Int)
    (verifyPayable isReturnCallWithError : Bool) (dctData : DCToken)
    (h : (e.transferOneTokenOnSenderShard acntSnd acntDst dstAddress tokenID nonce
      quantityToTransfer verifyPayable isReturnCallWithError).result = .ok dctData) :
    ∃ snd held marshaled,
      acntSnd = some snd ∧ 0 < quantityToTransfer ∧
      getDCTNFTTokenOnSender snd (e.keyPrefix ++ tokenID) nonce e.marshalizer = .ok held ∧
      quantityToTransfer ≤ held.Value ∧
      e.marshalizer.Marshal { held with Value := held.Value - quantityToTransfer }
        = .ok marshaled ∧
      (e.transferOneTokenOnSenderShard acntSnd acntDst dstAddress tokenID nonce
        quantityToTransfer verifyPayable isReturnCallWithError).acntSnd
        = some (snd.SaveKeyValue
            (computeDCTNFTTokenKey (e.keyPrefix ++ tokenID) (recordNonce held)) marshaled) := by
  unfold dctNFTMultiTransfer.transferOneTokenOnSenderShard at h ⊢
  by_cases hq : quantityToTransfer ≤ 0
  · simp [hq] at h
  · simp only [hq, if_false] at h ⊢
    cases acntSnd with
    | none => simp at h
    | some snd =>
      simp only at h ⊢
      cases hget : getDCTNFTTokenOnSender snd (e.keyPrefix ++ tokenID) nonce e.marshalizer with
      | error err => simp [hget] at h
      | ok held =>
        simp only [hget] at h ⊢
        by_cases hv : held.Value < quantityToTransfer
        · simp [hv] at h
        · simp only [hv, if_false] at h ⊢
          cases hsave : saveDCTNFTToken snd (e.keyPrefix ++ tokenID)
              { held with Value := held.Value - quantityToTransfer } e.marshalizer e.IsPaused
              isReturnCallWithError with
          | error err => simp [hsave] at h
          | ok saved =>
            obtain ⟨marshaled, snd'⟩ := saved
            obtain ⟨-, hmarshal, hacnt⟩ := saveDCTNFTToken_eq_ok hsave
            have hnonce : recordNonce { held with Value := held.Value - quantityToTransfer }
                = recordNonce held := rfl
            rw [hnonce] at hacnt
            subst hacnt
            refine ⟨snd, held, marshaled, rfl, not_le.mp hq, hget, not_lt.mp hv, hmarshal, ?_⟩
            simp only [hsave] at h ⊢
            cases acntDst with
            | none => rfl
            | some dst =>
              simp only at h ⊢
              cases e.addNFTToDestination dstAddress dst
                  { TokenType := held.TokenType, Value := quantityToTransfer,
                    Properties := held.Properties, TokenMetaData := held.TokenMetaData }
                  (e.keyPrefix ++ tokenID) verifyPayable isReturnCallWithError with
              | error err => rfl
              | ok credited => rfl

theorem transferOne_bad_quantity (e : dctNFTMultiTransfer) (acntSnd acntDst : Option Account)
    (dstAddress tokenID : Bytes) (nonce : Nat) (quantityToTransfer : Int)
    (verifyPayable isReturnCallWithError : Bool)
    (hbad : quantityToTransfer = 0 ∨
      ∃ held, acntSnd.map (fun snd =>
          getDCTNFTTokenOnSender snd (e.keyPrefix ++ tokenID) nonce e.marshalizer)
        = some (.ok held) ∧ held.Value < quantityToTransfer) :
    (e.transferOneTokenOnSenderShard acntSnd acntDst dstAddress tokenID nonce
      quantityToTransfer verifyPayable isReturnCallWithError).result
      = .error .ErrInvalidNFTQuantity := by
  unfold dctNFTMultiTransfer.transferOneTokenOnSenderShard
  by_cases hq : quantityToTransfer ≤ 0
  · simp only [hq, if_true]
  · simp only [hq, if_false]
    rcases hbad with hzero | ⟨held, hheld, hlt⟩
    · omega
    · cases acntSnd with
      | none => simp at hheld
      | some snd =>
        simp only [Option.map_some', Option.some.injEq] at hheld
        simp only [hheld, hlt, if_true]

theorem transferOne_lookup_error (e : dctNFTMultiTransfer) (acntSnd acntDst : Option Account)
    (dstAddress tokenID : Bytes) (nonce : Nat) (quantityToTransfer : Int)
    (verifyPayable isReturnCallWithError : Bool) (err : Error)
    (hq : 0 < quantityToTransfer)
    (herr : acntSnd.map (fun snd =>
        getDCTNFTTokenOnSender snd (e.keyPrefix ++ tokenID) nonce e.marshalizer)
      = some (.error err)) :
    (e.transferOneTokenOnSenderShard acntSnd acntDst dstAddress tokenID nonce
      quantityToTransfer verifyPayable isReturnCallWithError).result = .error err := by
  unfold dctNFTMultiTransfer.transferOneTokenOnSenderShard
  have hq' : ¬ quantityToTransfer ≤ 0 := by omega
  simp only [hq', if_false]
  cases acntSnd with
  | none => simp at herr
  | some snd =>
    simp only [Option.map_some', Option.some.injEq] at herr
    simp only [herr]

theorem senderShardLoop_prefix_ok (e : dctNFTMultiTransfer) (vmInput : ContractCallInput)
    (dstAddress : Bytes) (verifyPayable : Bool) (a b i : Nat) (st : LoopState)
    (h : (e.senderShardLoop vmInput dstAddress verifyPayable (a + b) i st).1 = none) :
    (e.senderShardLoop vmInput dstAddress verifyPayable a i st).1 = none := by
  rw [senderShardLoop_add] at h
  generalize e.senderShardLoop vmInput dstAddress verifyPayable a i st = reached at h ⊢
  obtain ⟨failure, state⟩ := reached
  cases failure with
  | none => rfl
  | some err => simp at h

theorem senderShardLoop_one_ok (e : dctNFTMultiTransfer) (vmInput : ContractCallInput)
    (dstAddress : Bytes) (verifyPayable : Bool) (i : Nat) (st : LoopState)
    (h : (e.senderShardLoop vmInput dstAddress verifyPayable 1 i st).1 = none) :
    ∃ dctData,
      (e.transferOneTokenOnSenderShard st.acntSnd st.acntDst dstAddress
        (vmInput.Arguments.getD (2 + i * argumentsPerTransfer) [])
        (toUint64 (bigSetBytes (vmInput.Arguments.getD (2 + i * argumentsPerTransfer + 1) [])))
        (bigSetBytes (vmInput.Arguments.getD (2 + i * argumentsPerTransfer + 2) []))
        verifyPayable vmInput.ReturnCallAfterError).result = .ok dctData ∧
      (e.senderShardLoop vmInput dstAddress verifyPayable 1 i st).2.acntSnd
        = (e.transferOneTokenOnSenderShard st.acntSnd st.acntDst dstAddress
            (vmInput.Arguments.getD (2 + i * argumentsPerTransfer) [])
            (toUint64 (bigSetBytes
              (vmInput.Arguments.getD (2 + i * argumentsPerTransfer + 1) [])))
            (bigSetBytes (vmInput.Arguments.getD (2 + i * argumentsPerTransfer + 2) []))
            verifyPayable vmInput.ReturnCallAfterError).acntSnd := by
  rw [dctNFTMultiTransfer.senderShardLoop] at h ⊢
  cases h0 : argAt vmInput.Arguments (2 + i * argumentsPerTransfer) with
  | error err => simp [h0] at h
  | ok tokenID =>
    cases h1 : argAt vmInput.Arguments (2 + i * argumentsPerTransfer + 1) with
    | error err => simp [h0, h1] at h
    | ok nonceBytes =>
      cases h2 : argAt vmInput.Arguments (2 + i * argumentsPerTransfer + 2) with
      | error err => simp [h0, h1, h2] at h
      | ok quantityBytes =>
        rw [argAt_ok_getD h0, argAt_ok_getD h1, argAt_ok_getD h2]
        simp only [h0, h1, h2] at h ⊢
        cases hstep : (e.transferOneTokenOnSenderShard st.acntSnd st.acntDst dstAddress tokenID
            (toUint64 (bigSetBytes nonceBytes)) (bigSetBytes quantityBytes) verifyPayable
            vmInput.ReturnCallAfterError).result with
        | error err => simp [hstep] at h
        | ok dctData =>
          refine ⟨dctData, rfl, ?_⟩
          simp only [hstep, senderShardLoop_zero]

theorem stateAfter_succ (e : dctNFTMultiTransfer) (acntSnd loaded : Option Account)
    (vmInput : ContractCallInput) (j : Nat) (h : (e.stateAfter acntSnd loaded vmInput j).1 = none) :
    e.stateAfter acntSnd loaded vmInput (j + 1)
      = e.senderShardLoop vmInput (vmInput.Arguments.getD 0 [])
          (e.mustVerifyPayable vmInput
            (u64add (u64mul (toUint64 (bigSetBytes (vmInput.Arguments.getD 1 [])))
              argumentsPerTransfer) 2))
          1 j (e.stateAfter acntSnd loaded vmInput j).2 := by
  unfold dctNFTMultiTransfer.stateAfter at h ⊢
  rw [senderShardLoop_add]
  generalize e.senderShardLoop vmInput _ _ j 0 _ = reached at h ⊢
  obtain ⟨failure, state⟩ := reached
  simp only at h
  subst h
  simp only [Nat.zero_add]

/-- A reached triple whose transfer fails ends the whole call with that error: the loop of
`processDCTNFTMultiTransferOnSenderShard` returns the first error of
`transferOneTokenOnSenderShard` (lines 262-273). -/
theorem senderShard_fails_at (e : dctNFTMultiTransfer)
    (acntSnd acntDst loaded : Option Account) (vmInput : ContractCallInput)
    (hvalue : vmInput.CallValue = some 0)
    (haddr : vmInput.CallerAddr = vmInput.RecipientAddr)
    (hlen : 5 ≤ vmInput.Arguments.length)
    (hvalid : senderShardValidationFailure e vmInput = none)
    (hload : e.loadAccountIfInShard (vmInput.Arguments.getD 0 []) = .ok loaded)
    (hmake : makesliceOK (toUint64 (bigSetBytes (vmInput.Arguments.getD 1 []))) = true)
    (j : Nat) (err : Error)
    (hj : j < toUint64 (bigSetBytes (vmInput.Arguments.getD 1 [])))
    (htriple : 2 + j * argumentsPerTransfer + 2 < vmInput.Arguments.length)
    (hfirst : (e.stateAfter acntSnd loaded vmInput j).1 = none)
    (hstep : (e.transferOneTokenOnSenderShard
        (e.stateAfter acntSnd loaded vmInput j).2.acntSnd
        (e.stateAfter acntSnd loaded vmInput j).2.acntDst (vmInput.Arguments.getD 0 [])
        (tripleTokenID vmInput j) (tripleNonce vmInput j) (tripleQuantity vmInput j)
        (e.mustVerifyPayable vmInput
          (u64add (u64mul (toUint64 (bigSetBytes (vmInput.Arguments.getD 1 [])))
            argumentsPerTransfer) 2))
        vmInput.ReturnCallAfterError).result = .error err) :
    (e.ProcessBuiltinFunction acntSnd acntDst (some vmInput)).result = .error err := by
  have hcall := ProcessBuiltinFunction_senderShard e acntSnd acntDst vmInput hvalue hlen haddr
  have hproc := processOnSenderShard_of_valid e acntSnd vmInput loaded hlen hvalid hload hmake
  rw [hproc] at hcall
  have hstate : ∀ j, e.senderShardLoop vmInput (vmInput.Arguments.getD 0 [])
      (e.mustVerifyPayable vmInput
        (u64add (u64mul (toUint64 (bigSetBytes (vmInput.Arguments.getD 1 [])))
          argumentsPerTransfer) 2))
      j 0 ⟨acntSnd, loaded, [], [], []⟩ = e.stateAfter acntSnd loaded vmInput j := fun _ => rfl
  rw [hstate] at hcall
  generalize hn : toUint64 (bigSetBytes (vmInput.Arguments.getD 1 [])) = n at hcall hstep hj ⊢
  have hsplit : n = j + ((n - j - 1) + 1) := by omega
  have hreached : (e.stateAfter acntSnd loaded vmInput n).1 = some err := by
    have hunfold : e.stateAfter acntSnd loaded vmInput n
        = e.senderShardLoop vmInput (vmInput.Arguments.getD 0 [])
            (e.mustVerifyPayable vmInput (u64add (u64mul n argumentsPerTransfer) 2))
            ((n - j - 1) + 1) j (e.stateAfter acntSnd loaded vmInput j).2 := by
      have hpre : e.stateAfter acntSnd loaded vmInput j
          = (none, (e.stateAfter acntSnd loaded vmInput j).2) :=
        Prod.ext hfirst rfl
      conv => lhs; rw [hsplit]
      unfold dctNFTMultiTransfer.stateAfter at hpre ⊢
      rw [hn] at hpre ⊢
      rw [senderShardLoop_add, hpre]
      simp only [Nat.zero_add]
    rw [hunfold, senderShardLoop_succ e vmInput _ _ _ j _ _ _ _
      (argAt_eq_getD vmInput.Arguments _ (by omega))
      (argAt_eq_getD vmInput.Arguments _ (by omega))
      (argAt_eq_getD vmInput.Arguments _ htriple)]
    have houtcome := Outcome.eq_of_result _ _ hstep
    unfold tripleTokenID tripleNonce tripleQuantity at houtcome
    rw [houtcome]
  rw [hcall]
  generalize e.stateAfter acntSnd loaded vmInput n = reached at hreached ⊢
  obtain ⟨failure, state⟩ := reached
  simp only at hreached
  subst hreached
  rfl

/-- C37, amended: in a same-shard initiation that passes the validation, with the destination
resolved, a triple that is reached (the triples before it were processed) and whose quantity is
zero, or exceeds the value of the record the sender holds at its (tokenID, nonce) at that
moment, makes the call fail with `ErrInvalidNFTQuantity`; after every successful call the
sender account is the one the loop leaves, where each triple in turn found a record `held` on
the sender as the triples before it left it, had `0 < quantity <= held.Value`, and stored that
record with value `held.Value - quantity >= 0` - also when several triples name the same
(tokenID, nonce); and a reached triple with a positive quantity for which the sender's lookup
fails (the sender holds nothing there, or bytes that do not decode) makes the call fail with
the lookup's error, whatever the quantity (lines 305-308 precede the comparison). -/
theorem senderShard_quantity_checked (e : dctNFTMultiTransfer)
    (acntSnd acntDst loaded : Option Account) (vmInput : ContractCallInput)
    (hvalue : vmInput.CallValue = some 0)
    (haddr : vmInput.CallerAddr = vmInput.RecipientAddr)
    (hlen : 5 ≤ vmInput.Arguments.length)
    (hvalid : senderShardValidationFailure e vmInput = none)
    (hload : e.loadAccountIfInShard (vmInput.Arguments.getD 0 []) = .ok loaded)
    (hmake : makesliceOK (toUint64 (bigSetBytes (vmInput.Arguments.getD 1 []))) = true) :
    (∀ j, j < toUint64 (bigSetBytes (vmInput.Arguments.getD 1 [])) →
      2 + j * argumentsPerTransfer + 2 < vmInput.Arguments.length →
      (e.stateAfter acntSnd loaded vmInput j).1 = none →
      (tripleQuantity vmInput j = 0 ∨
        ∃ held, (e.stateAfter acntSnd loaded vmInput j).2.acntSnd.map (fun snd =>
            getDCTNFTTokenOnSender snd (e.keyPrefix ++ tripleTokenID vmInput j)
              (tripleNonce vmInput j) e.marshalizer) = some (.ok held) ∧
          held.Value < tripleQuantity vmInput j) →
      (e.ProcessBuiltinFunction acntSnd acntDst (some vmInput)).result
        = .error .ErrInvalidNFTQuantity) ∧
    (∀ out acntSnd' acntDst',
      e.ProcessBuiltinFunction acntSnd acntDst (some vmInput) = ⟨.ok out, acntSnd', acntDst'⟩ →
      acntSnd' = (e.stateAfter acntSnd loaded vmInput
        (toUint64 (bigSetBytes (vmInput.Arguments.getD 1 [])))).2.acntSnd ∧
      ∀ j, j < toUint64 (bigSetBytes (vmInput.Arguments.getD 1 [])) →
        ∃ snd held marshaled,
          (e.stateAfter acntSnd loaded vmInput j).1 = none ∧
          (e.stateAfter acntSnd loaded vmInput j).2.acntSnd = some snd ∧
          getDCTNFTTokenOnSender snd (e.keyPrefix ++ tripleTokenID vmInput j)
            (tripleNonce vmInput j) e.marshalizer = .ok held ∧
          0 < tripleQuantity vmInput j ∧ tripleQuantity vmInput j ≤ held.Value ∧
          0 ≤ held.Value - tripleQuantity vmInput j ∧
          e.marshalizer.Marshal { held with Value := held.Value - tripleQuantity vmInput j }
            = .ok marshaled ∧
          (e.stateAfter acntSnd loaded vmInput (j + 1)).2.acntSnd
            = some (snd.SaveKeyValue
                (computeDCTNFTTokenKey (e.keyPrefix ++ tripleTokenID vmInput j)
                  (recordNonce held)) marshaled)) ∧
    (∀ j err, j < toUint64 (bigSetBytes (vmInput.Arguments.getD 1 [])) →
      2 + j * argumentsPerTransfer + 2 < vmInput.Arguments.length →
      (e.stateAfter acntSnd loaded vmInput j).1 = none →
      0 < tripleQuantity vmInput j →
      (e.stateAfter acntSnd loaded vmInput j).2.acntSnd.map (fun snd =>
          getDCTNFTTokenOnSender snd (e.keyPrefix ++ tripleTokenID vmInput j)
            (tripleNonce vmInput j) e.marshalizer) = some (.error err) →
      (e.ProcessBuiltinFunction acntSnd acntDst (some vmInput)).result = .error err) := by
  refine ⟨fun j hj htriple hfirst hbad =>
      senderShard_fails_at e acntSnd acntDst loaded vmInput hvalue haddr hlen hvalid hload hmake
        j _ hj htriple hfirst (transferOne_bad_quantity e _ _ _ _ _ _ _ _ hbad),
    ?_,
    fun j err hj htriple hfirst hq herr =>
      senderShard_fails_at e acntSnd acntDst loaded vmInput hvalue haddr hlen hvalid hload hmake
        j err hj htriple hfirst (transferOne_lookup_error e _ _ _ _ _ _ _ _ err hq herr)⟩
  have hcall := ProcessBuiltinFunction_senderShard e acntSnd acntDst vmInput hvalue hlen haddr
  have hproc := processOnSenderShard_of_valid e acntSnd vmInput loaded hlen hvalid hload hmake
  rw [hproc] at hcall
  have hstate : ∀ j, e.senderShardLoop vmInput (vmInput.Arguments.getD 0 [])
      (e.mustVerifyPayable vmInput
        (u64add (u64mul (toUint64 (bigSetBytes (vmInput.Arguments.getD 1 [])))
          argumentsPerTransfer) 2))
      j 0 ⟨acntSnd, loaded, [], [], []⟩ = e.stateAfter acntSnd loaded vmInput j := fun _ => rfl
  rw [hstate] at hcall
  generalize hn : toUint64 (bigSetBytes (vmInput.Arguments.getD 1 [])) = n at hcall ⊢
  intro out acntSnd' acntDst' hok
  rw [hcall] at hok
  have hfinal : (e.stateAfter acntSnd loaded vmInput n).1 = none ∧
      acntSnd' = (e.stateAfter acntSnd loaded vmInput n).2.acntSnd := by
    generalize e.stateAfter acntSnd loaded vmInput n = reached at hok
    obtain ⟨failure, state⟩ := reached
    cases failure with
    | some err => simp at hok
    | none =>
      refine ⟨rfl, ?_⟩
      simp only at hok
      split at hok
      · simp only [Outcome.mk.injEq] at hok
        exact hok.2.1.symm
      · split at hok
        · simp only [Outcome.mk.injEq] at hok
          exact hok.2.1.symm
        · simp only [Outcome.mk.injEq] at hok
          exact hok.2.1.symm
  obtain ⟨hdone, hsnd⟩ := hfinal
  refine ⟨hsnd, ?_⟩
  intro j hj
  have hfirst : ∀ k, k ≤ n → (e.stateAfter acntSnd loaded vmInput k).1 = none := by
    intro k hk
    have hsplit : n = k + (n - k) := by omega
    rw [hsplit] at hdone
    unfold dctNFTMultiTransfer.stateAfter at hdone ⊢
    exact senderShardLoop_prefix_ok e vmInput _ _ k (n - k) 0 _ hdone
  have hj0 := hfirst j (by omega)
  have hj1 := hfirst (j + 1) (by omega)
  rw [stateAfter_succ e acntSnd loaded vmInput j hj0, hn] at hj1 ⊢
  obtain ⟨dctData, hresult, hacnt⟩ := senderShardLoop_one_ok e vmInput _ _ j _ hj1
  obtain ⟨snd, held, marshaled, hsome, hqty, hheld, hle, hmarshal, hstored⟩ :=
    transferOne_result_ok e _ _ _ _ _ _ _ _ dctData hresult
  refine ⟨snd, held, marshaled, hj0, hsome, hheld, hqty, hle, ?_, hmarshal, ?_⟩
  · unfold tripleQuantity; omega
  · rw [hacnt]; exact hstored

theorem senderShard_quantity_checked_witness :
    (transferA.ProcessBuiltinFunction (some nftHolder) none
        (some (twoTriples [2] [2]))).result = .error .ErrInvalidNFTQuantity ∧
    ((transferA.ProcessBuiltinFunction (some nftHolder) none
        (some (twoTriples [2] [1]))).acntSnd
      = (transferA.stateAfter (some nftHolder) (some destinationA) (twoTriples [2] [1])
          (toUint64 (bigSetBytes ((twoTriples [2] [1]).Arguments.getD 1 [])))).2.acntSnd ∧
     ∀ j, j < toUint64 (bigSetBytes ((twoTriples [2] [1]).Arguments.getD 1 [])) →
      ∃ snd held marshaled,
        (transferA.stateAfter (some nftHolder) (some destinationA) (twoTriples [2] [1]) j).1
          = none ∧
        (transferA.stateAfter (some nftHolder) (some destinationA)
          (twoTriples [2] [1]) j).2.acntSnd = some snd ∧
        getDCTNFTTokenOnSender snd (transferA.keyPrefix ++ tripleTokenID (twoTriples [2] [1]) j)
          (tripleNonce (twoTriples [2] [1]) j) transferA.marshalizer = .ok held ∧
        0 < tripleQuantity (twoTriples [2] [1]) j ∧
        tripleQuantity (twoTriples [2] [1]) j ≤ held.Value ∧
        0 ≤ held.Value - tripleQuantity (twoTriples [2] [1]) j ∧
        transferA.marshalizer.Marshal
          { held with Value := held.Value - tripleQuantity (twoTriples [2] [1]) j }
          = .ok marshaled ∧
        (transferA.stateAfter (some nftHolder) (some destinationA)
          (twoTriples [2] [1]) (j + 1)).2.acntSnd
          = some (snd.SaveKeyValue
              (computeDCTNFTTokenKey (transferA.keyPrefix ++ tripleTokenID (twoTriples [2] [1]) j)
                (recordNonce held)) marshaled)) ∧
    (transferA.ProcessBuiltinFunction (some nftHolder) none
        (some (twoTriples [2] [1]))).acntSnd.map
        (fun acnt => getDCTNFTTokenOnSender acnt (prefixA ++ tokenA) 1 codecMarshalizer)
      = some (.ok (nftRecord 0 1 [9] [5])) ∧
    (transferA.ProcessBuiltinFunction (some nftHolder) none (some absentTriple)).result
      = .error .ErrNFTTokenDoesNotExist :=
  ⟨(senderShard_quantity_checked transferA (some nftHolder) none (some destinationA)
      (twoTriples [2] [2]) rfl rfl (by decide) (by decide) rfl (by decide)).1 1
      (by decide) (by decide) (by decide)
      (Or.inr ⟨nftRecord 1 1 [9] [5], by decide, by decide⟩),
   (senderShard_quantity_checked transferA (some nftHolder) none (some destinationA)
      (twoTriples [2] [1]) rfl rfl (by decide) (by decide) rfl (by decide)).2.1
      ((transferA.ProcessBuiltinFunction (some nftHolder) none
        (some (twoTriples [2] [1]))).result.getD emptyOutput)
      _ _ (Outcome.eq_of_result _ _ (by decide)),
   by decide,
   (senderShard_quantity_checked transferA (some nftHolder) none (some destinationA)
      absentTriple rfl rfl (by decide) (by decide) rfl (by decide)).2.2 0 _
      (by decide) (by decide) (by decide) (by decide) (by decide)⟩

/-- C37, counterexample: the holder of the NFT of `tokenA` at nonce 1 holds nothing at nonce 2;
a same-shard call that passes the validation and asks for 1 unit at nonce 2, a quantity above
a holding of nothing, fails with the error of the sender's lookup, not with
`ErrInvalidNFTQuantity`. -/
theorem senderShard_absent_record_lookup_error :
    senderShardValidationFailure transferA absentTriple = none ∧
    nftHolder.RetrieveValue (computeDCTNFTTokenKey (prefixA ++ tokenA) 2) = [] ∧
    tripleTokenID absentTriple 0 = tokenA ∧ tripleNonce absentTriple 0 = 2 ∧
    tripleQuantity absentTriple 0 = 1 ∧
    (transferA.ProcessBuiltinFunction (some nftHolder) none (some absentTriple)).result
      = .error .ErrNFTTokenDoesNotExist ∧
    (transferA.ProcessBuiltinFunction (some nftHolder) none (some absentTriple)).result
      ≠ .error .ErrInvalidNFTQuantity := by
  decide

/-! ## Frozen destination of a same-shard transfer, at any triple -/

/-- C36: a local-mint call that passes all checks (zero call value, caller == recipient, the
role granted, an amount `a > 0` of accepted length, a readable, unfrozen and unpaused record of
balance `b >= 0`, gas provided `g >= c` for the function cost `c`) succeeds, stores at
key(tokenID) the record with balance `b + a` (its marshaled form) and returns the return code
Ok, `gasRemaining = g - c` and exactly one log entry, identified by the mint function name,
with the topics tokenID and the bytes of `a`. -/
theorem localMint_balance_and_gas (e : dctLocalMint) (acnt : Account)
    (vmInput : ContractCallInput) (tokenID amount : Bytes) (rest : List Bytes)
    (dctData : DCToken) (marshaled : Bytes)
    (hvalue : vmInput.CallValue = some 0)
    (hargs : vmInput.Arguments = tokenID :: amount :: rest)
    (haddr : vmInput.CallerAddr = vmInput.RecipientAddr)
    (hrole : e.CheckAllowedToExecute acnt tokenID e.DCTRoleLocalMint = none)
    (hlength : amount.length ≤ e.MaxLenForDCTIssueMint)
    (hread : getDCTDataFromKey acnt (e.keyPrefix ++ tokenID) e.marshalizer = .ok dctData)
    (hguard : checkFrozeAndPause e.IsPaused acnt.address (e.keyPrefix ++ tokenID) dctData
      vmInput.ReturnCallAfterError = .ok ())
    (hbalance : 0 ≤ dctData.Value)
    (hpos : 0 < bigSetBytes amount)
    (hgas : e.funcGasCost ≤ vmInput.GasProvided)
    (hu64 : vmInput.GasProvided < 2 ^ 64)
    (hmarshal : e.marshalizer.Marshal
      { dctData with Value := dctData.Value + (bigSetBytes amount : Int) } = .ok marshaled) :
    e.ProcessBuiltinFunction (some acnt) (some vmInput)
      = (.ok { ReturnCode := Ok, GasRemaining := vmInput.GasProvided - e.funcGasCost,
               OutputAccounts := [],
               Logs := [{ Identifier := e.BuiltInFunctionDCTLocalMint,
                          Address := vmInput.CallerAddr,
                          Topics := [tokenID, bigBytes (bigSetBytes amount)], Data := [] }] },
         some (acnt.SaveKeyValue (e.keyPrefix ++ tokenID) marshaled)) := by
  have hnn : ¬ dctData.Value + (bigSetBytes amount : Int) < 0 := by omega
  have hlen : ¬ amount.length > e.MaxLenForDCTIssueMint := by omega
  have hcheck := checkInputArgumentsForLocalAction_ok acnt vmInput e.funcGasCost hvalue
    (by simp [hargs]) haddr (by simpa [hargs] using hpos) hgas
  have h0 : vmInput.Arguments.getD 0 [] = tokenID := by simp [hargs]
  have h1 : vmInput.Arguments.getD 1 [] = amount := by simp [hargs]
  simp only [dctLocalMint.ProcessBuiltinFunction, hcheck, h0, h1, hrole, hlen, addToDCTBalance,
    hread, hguard, hnn, saveDCTData, hmarshal, if_false, u64sub_of_le hgas hu64,
    addDCTEntryInVMOutput, Int.natAbs_ofNat, List.headD_cons, List.tail_cons, List.nil_append,
    List.append_nil]

theorem localMint_balance_and_gas_witness :
    getDCTDataFromKey
        (accountWith [2, 2] (prefixA ++ tokenA) (codecBytes (fungibleRecord 100 [])))
        (prefixA ++ tokenA) codecMarshalizer = .ok (fungibleRecord 100 []) ∧
    mintA.ProcessBuiltinFunction
        (some (accountWith [2, 2] (prefixA ++ tokenA) (codecBytes (fungibleRecord 100 []))))
        (some (selfCall [tokenA, [1]] 500))
      = (.ok { ReturnCode := Ok, GasRemaining := 500 - 50, OutputAccounts := [],
               Logs := [{ Identifier := mintA.BuiltInFunctionDCTLocalMint,
                          Address := [2, 2],
                          Topics := [tokenA, bigBytes (bigSetBytes [1])], Data := [] }] },
         some ((accountWith [2, 2] (prefixA ++ tokenA)
            (codecBytes (fungibleRecord 100 []))).SaveKeyValue
            (prefixA ++ tokenA) (codecBytes (fungibleRecord 101 [])))) ∧
    bigBytes (bigSetBytes [1]) = [1] :=
  ⟨by decide,
   localMint_balance_and_gas mintA
    (accountWith [2, 2] (prefixA ++ tokenA) (codecBytes (fungibleRecord 100 [])))
    (selfCall [tokenA, [1]] 500) tokenA [1] [] (fungibleRecord 100 [])
    (codecBytes (fungibleRecord 101 []))
    rfl rfl rfl rfl (by decide) (by decide) (by decide) (by decide) (by decide) (by decide)
    (by decide) (by decide),
   by decide⟩

/-! ## NFT create: the nonces of successive creations -/

theorem computeDCTNFTTokenKey_injective (dctTokenKey : Bytes) (a b : Nat)
    (h : computeDCTNFTTokenKey dctTokenKey a = computeDCTNFTTokenKey dctTokenKey b) : a = b := by
  unfold computeDCTNFTTokenKey at h
  have hbytes := List.append_cancel_left h
  have hvalue := congrArg bigSetBytes hbytes
  rwa [bigSetBytes_bigBytes, bigSetBytes_bigBytes] at hvalue

theorem nftCreate_eq_ok {e : dctNFTCreate} {acnt created : Account}
    {vmInput : ContractCallInput} {out : VMOutput}
    (h : e.ProcessBuiltinFunction (some acnt) (some vmInput) = (.ok out, some created)) :
    ∃ nonce marshaled,
      getLatestNonce e.getNonceKey acnt (vmInput.Arguments.getD 0 []) = .ok nonce ∧
      e.marshalizer.Marshal (createdRecord vmInput (u64add nonce 1)) = .ok marshaled ∧
      created = saveLatestNonce e.getNonceKey
        (acnt.SaveKeyValue
          (computeDCTNFTTokenKey (e.keyPrefix ++ vmInput.Arguments.getD 0 []) (u64add nonce 1))
          marshaled)
        (vmInput.Arguments.getD 0 []) (u64add nonce 1) := by
  unfold dctNFTCreate.ProcessBuiltinFunction at h
  cases hcheck : checkDCTNFTCreateBurnAddInput (some acnt) (some vmInput) e.funcGasCost with
  | error err => simp [hcheck] at h
  | ok checked =>
    obtain ⟨acnt0, checkedInput⟩ := checked
    obtain ⟨hsame, hacnt, -⟩ := checkDCTNFTCreateBurnAddInput_eq_ok hcheck
    subst hsame
    simp only [Option.some.injEq] at hacnt
    subst hacnt
    simp only [hcheck] at h
    by_cases h7 : checkedInput.Arguments.length < 7
    · simp [h7] at h
    · rw [if_neg h7] at h
      generalize htoken : checkedInput.Arguments.getD 0 [] = tokenID at h ⊢
      cases hrole : e.CheckAllowedToExecute acnt tokenID e.DCTRoleNFTCreate with
      | some err => simp [hrole] at h
      | none =>
        simp only [hrole] at h
        cases hnonce : getLatestNonce e.getNonceKey acnt tokenID with
        | error err => simp [hnonce] at h
        | ok nonce =>
          simp only [hnonce] at h
          by_cases hgas : checkedInput.GasProvided
              < u64add (u64mul (checkedInput.Arguments.map List.length).sum e.StorePerByte)
                  e.funcGasCost
          · simp [hgas] at h
          · rw [if_neg hgas] at h
            by_cases hroyalty : bigSetBytes (checkedInput.Arguments.getD 3 []) > e.MaxRoyalty
            · rw [if_pos hroyalty] at h
              simp at h
            · rw [if_neg hroyalty] at h
              have hrecord : createdRecord checkedInput (u64add nonce 1)
                  = { TokenType := NonFungible
                      Value := bigSetBytes (checkedInput.Arguments.getD 1 [])
                      Properties := []
                      TokenMetaData := some
                        { Nonce := u64add nonce 1
                          Name := checkedInput.Arguments.getD 2 []
                          Creator := checkedInput.CallerAddr
                          Royalties := bigSetBytes (checkedInput.Arguments.getD 3 [])
                          Hash := checkedInput.Arguments.getD 4 []
                          URIs := checkedInput.Arguments.drop 6
                          Attributes := checkedInput.Arguments.getD 5 [] } } := rfl
              rw [← hrecord] at h
              cases hsave : saveDCTNFTToken acnt (e.keyPrefix ++ tokenID)
                  (createdRecord checkedInput (u64add nonce 1)) e.marshalizer e.IsPaused
                  checkedInput.ReturnCallAfterError with
              | error err => simp [hsave] at h
              | ok saved =>
                obtain ⟨marshaled, stored⟩ := saved
                obtain ⟨-, hmarshal, hstored⟩ := saveDCTNFTToken_eq_ok hsave
                have hrn : recordNonce (createdRecord checkedInput (u64add nonce 1))
                    = u64add nonce 1 := rfl
                rw [hrn] at hstored
                simp only [hsave, Prod.mk.injEq, Option.some.injEq] at h
                refine ⟨nonce, marshaled, rfl, hmarshal, ?_⟩
                rw [← h.2, hstored]

theorem nftCreate_createAll (e : dctNFTCreate) (tokenID : Bytes)
    (hkeys : ∀ nonce, e.getNonceKey tokenID
      ≠ computeDCTNFTTokenKey (e.keyPrefix ++ tokenID) nonce) :
    ∀ (inputs : List ContractCallInput) (acnt final : Account) (start : Nat),
      (∀ vmInput ∈ inputs, vmInput.Arguments.getD 0 [] = tokenID) →
      getLatestNonce e.getNonceKey acnt tokenID = .ok start →
      start + inputs.length < 2 ^ 64 →
      e.createAll acnt inputs = some final →
      getLatestNonce e.getNonceKey final tokenID = .ok (start + inputs.length) ∧
      (∀ key, key ≠ e.getNonceKey tokenID →
        (∀ k, k < inputs.length →
          key ≠ computeDCTNFTTokenKey (e.keyPrefix ++ tokenID) (start + k + 1)) →
        final.data key = acnt.data key) ∧
      ∀ k (hk : k < inputs.length), ∃ marshaled,
        e.marshalizer.Marshal (createdRecord (inputs.get ⟨k, hk⟩) (start + k + 1))
          = .ok marshaled ∧
        final.data (computeDCTNFTTokenKey (e.keyPrefix ++ tokenID) (start + k + 1))
          = marshaled := by
  intro inputs
  induction inputs with
  | nil =>
    intro acnt final start _ hstart _ hok
    simp only [dctNFTCreate.createAll, Option.some.injEq] at hok
    subst hok
    refine ⟨by simpa using hstart, fun _ _ _ => rfl, fun k hk => ?_⟩
    simp at hk
  | cons vmInput rest ih =>
    intro acnt final start htoken hstart hbound hok
    have htok : vmInput.Arguments.getD 0 [] = tokenID := htoken vmInput (by simp)
    simp only [List.length_cons] at hbound
    rw [dctNFTCreate.createAll] at hok
    cases hcall : e.ProcessBuiltinFunction (some acnt) (some vmInput) with
    | mk result left =>
      cases result with
      | error err => simp [hcall] at hok
      | ok out =>
        cases left with
        | none => simp [hcall] at hok
        | some created =>
          simp only [hcall] at hok
          obtain ⟨nonce, marshaled, hnonce, hmarshal, hcreated⟩ := nftCreate_eq_ok hcall
          rw [htok, hstart] at hnonce
          simp only [Result.ok.injEq] at hnonce
          subst hnonce
          have hnext : u64add start 1 = start + 1 := by
            unfold u64add
            exact Nat.mod_eq_of_lt (by omega)
          rw [htok, hnext] at hcreated
          rw [hnext] at hmarshal
          have hcounter : getLatestNonce e.getNonceKey created tokenID = .ok (start + 1) := by
            rw [hcreated]
            exact getLatestNonce_saveLatestNonce e.getNonceKey _ tokenID (start + 1) (by omega)
          obtain ⟨hfinal, hframe, hrecords⟩ := ih created final (start + 1)
            (fun v hv => htoken v (by simp [hv])) hcounter (by omega) hok
          have hdata : ∀ key, key ≠ e.getNonceKey tokenID →
              created.data key
                = (acnt.SaveKeyValue
                    (computeDCTNFTTokenKey (e.keyPrefix ++ tokenID) (start + 1))
                    marshaled).data key := by
            intro key hkey
            rw [hcreated]
            exact SaveKeyValue_data_other _ _ _ key hkey
          refine ⟨?_, ?_, ?_⟩
          · rw [hfinal]
            simp only [List.length_cons]
            congr 1
            omega
          · intro key hkey hother
            rw [hframe key hkey (fun k hk => by
              have := hother (k + 1) (by simp only [List.length_cons]; omega)
              have hidx : start + (k + 1) + 1 = start + 1 + k + 1 := by omega
              rwa [hidx] at this)]
            rw [hdata key hkey]
            exact SaveKeyValue_data_other acnt _ _ key
              (by simpa using hother 0 (by simp))
          · intro k hk
            cases k with
            | zero =>
              refine ⟨marshaled, hmarshal, ?_⟩
              have hne : computeDCTNFTTokenKey (e.keyPrefix ++ tokenID) (start + 1)
                  ≠ e.getNonceKey tokenID := fun h => hkeys _ h.symm
              rw [hframe _ hne (fun k _ h => by
                have := computeDCTNFTTokenKey_injective _ _ _ h
                omega)]
              rw [hdata _ hne]
              exact SaveKeyValue_data_same acnt _ _
            | succ k =>
              simp only [List.length_cons] at hk
              obtain ⟨stored, hstoredMarshal, hstoredData⟩ := hrecords k (by omega)
              have hidx : start + (k + 1) + 1 = start + 1 + k + 1 := by omega
              refine ⟨stored, ?_, ?_⟩
              · rw [hidx]; exact hstoredMarshal
              · rw [hidx]; exact hstoredData

/-- C35: for every tokenID and every n >= 1 below 2^64, n successive successful NFT creations
on that tokenID by one account that starts with no nonce counter for it (the nonce key not
being one of the token's record keys) leave the latest-nonce counter equal to n, and the k-th of
them (k = 1, ..., n) created the record stored at nonce k: the marshaled form of a record of
kind NonFungible, with value equal to the quantity that creation requested and metadata whose
nonce is k and whose creator is its caller. -/
theorem nftCreate_successive_nonces (e : dctNFTCreate) (tokenID : Bytes)
    (inputs : List ContractCallInput) (acnt final : Account)
    (hkeys : ∀ nonce, e.getNonceKey tokenID
      ≠ computeDCTNFTTokenKey (e.keyPrefix ++ tokenID) nonce)
    (htoken : ∀ vmInput ∈ inputs, vmInput.Arguments.getD 0 [] = tokenID)
    (hfresh : acnt.RetrieveValue (e.getNonceKey tokenID) = [])
    (hcount : 1 ≤ inputs.length ∧ inputs.length < 2 ^ 64)
    (hok : e.createAll acnt inputs = some final) :
    getLatestNonce e.getNonceKey final tokenID = .ok inputs.length ∧
    ∀ k (hk : k < inputs.length), ∃ marshaled metaData,
      e.marshalizer.Marshal (createdRecord (inputs.get ⟨k, hk⟩) (k + 1)) = .ok marshaled ∧
      final.data (computeDCTNFTTokenKey (e.keyPrefix ++ tokenID) (k + 1)) = marshaled ∧
      (createdRecord (inputs.get ⟨k, hk⟩) (k + 1)).TokenType = NonFungible ∧
      (createdRecord (inputs.get ⟨k, hk⟩) (k + 1)).Value
        = bigSetBytes ((inputs.get ⟨k, hk⟩).Arguments.getD 1 []) ∧
      (createdRecord (inputs.get ⟨k, hk⟩) (k + 1)).TokenMetaData = some metaData ∧
      metaData.Nonce = k + 1 ∧ metaData.Creator = (inputs.get ⟨k, hk⟩).CallerAddr := by
  have hstart : getLatestNonce e.getNonceKey acnt tokenID = .ok 0 := by
    unfold getLatestNonce
    simp only [hfresh, if_true]
  obtain ⟨hfinal, -, hrecords⟩ := nftCreate_createAll e tokenID hkeys inputs acnt final 0
    htoken hstart (by omega) hok
  refine ⟨by simpa using hfinal, fun k hk => ?_⟩
  obtain ⟨marshaled, hmarshal, hdata⟩ := hrecords k hk
  simp only [Nat.zero_add] at hmarshal hdata
  exact ⟨marshaled, _, hmarshal, hdata, rfl, rfl, rfl, rfl, rfl⟩

theorem nftCreate_successive_nonces_witness :
    getLatestNonce createA.getNonceKey createdTwice tokenA
      = .ok [createCall [2], createCall [3]].length ∧
    ∀ k (hk : k < [createCall [2], createCall [3]].length), ∃ marshaled metaData,
      createA.marshalizer.Marshal
        (createdRecord ([createCall [2], createCall [3]].get ⟨k, hk⟩) (k + 1))
        = .ok marshaled ∧
      createdTwice.data (computeDCTNFTTokenKey (createA.keyPrefix ++ tokenA) (k + 1))
        = marshaled ∧
      (createdRecord ([createCall [2], createCall [3]].get ⟨k, hk⟩) (k + 1)).TokenType
        = NonFungible ∧
      (createdRecord ([createCall [2], createCall [3]].get ⟨k, hk⟩) (k + 1)).Value
        = bigSetBytes (([createCall [2], createCall [3]].get ⟨k, hk⟩).Arguments.getD 1 []) ∧
      (createdRecord ([createCall [2], createCall [3]].get ⟨k, hk⟩) (k + 1)).TokenMetaData
        = some metaData ∧
      metaData.Nonce = k + 1 ∧
      metaData.Creator = ([createCall [2], createCall [3]].get ⟨k, hk⟩).CallerAddr :=
  nftCreate_successive_nonces createA tokenA [createCall [2], createCall [3]]
    (emptyAccount [2, 2]) createdTwice
    (fun nonce h => by simp [createA, computeDCTNFTTokenKey, prefixA] at h)
    (by decide) rfl (by decide) rfl

end DCT
